import Mathlib

/-! # nomacs `DkMetaDataT`: metadata record

A shallow embedding of the class `DkMetaDataT` of
`ImageLounge/src/DkLoader/DkMetaData.cpp`: the load state, the read accessors,
the rating and the orientation, writing EXIF values, loading and saving,
followed by theorems about them.

The metadata codec (Exiv2) and Qt are external libraries.  They are embedded
by the behaviour the source relies on:

* `ExifData` / `XmpData` are sequences of (key, value) entries which may hold
  several entries under one key; `findKey` yields the first entry with the
  key, `erase(pos)` removes exactly that entry, `operator[]` finds the first
  entry or appends an empty one, `XmpData::add` appends.
* a tag value is seen through `count()`, `toFloat()` and `toString()`.
* `float` values are embedded as rationals.  The size arithmetic of the
  integrity gate, `QString::toFloat` and the division of two floats round to
  binary32 (`binary32`, `FloatVal.ofRat`); the rating and orientation values
  are the values the tags hold.
* what the codec does with bytes (opening, parsing, serializing) and with
  texts for value types that are not embedded is an argument of the embedded
  functions; a call that is left by an exception the source does not catch
  returns `none` next to the record as the call leaves it.
-/

namespace nmc

/-! ## Data model -/

/-- Modelled from the spec: the load state `mExifState` of a record.  The
enumeration is declared in `DkMetaData.h`, which is not part of the sources;
the spec names the four states NotLoaded, Loaded, Dirty and NoData, the code
calls them `not_loaded`, `loaded`, `dirty` and `no_data`. -/
inductive ExifState where
  | not_loaded
  | no_data
  | loaded
  | dirty
  deriving DecidableEq, Repr

/-- Reads a run of decimal digits; `none` if a character is not a digit. -/
def digitsValue (acc : Nat) : List Char → Option Nat
  | [] => some acc
  | c :: cs => if c.isDigit then digitsValue (acc * 10 + (c.toNat - 48)) cs else none

/-- The conversion `Exiv2::parseFloat` of a text value, on plain integer
numerals (an optional minus sign followed by digits).  Exiv2 reports a failed
conversion by the value 0; texts it converts in another way (fractions,
exponents, `n/d`, booleans) are represented by `Value.other`. -/
def parseFloat (s : String) : ℚ :=
  match s.toList with
  | [] => 0
  | '-' :: c :: cs =>
    match digitsValue 0 (c :: cs) with
    | some n => -(n : ℚ)
    | none => 0
  | cs =>
    match digitsValue 0 cs with
    | some n => (n : ℚ)
    | none => 0

/-- A tag value (`Exiv2::Value`).  `unsignedShort` is `Exiv2::UShortValue`
with its vector `value_`; `xmpText` is `Exiv2::XmpTextValue` with its string
`value_`; every other value type is given by what the three conversions the
source calls return for it. -/
inductive Value where
  | unsignedShort (value_ : List Nat)
  | xmpText (value_ : String)
  | other (count : Nat) (toFloat : ℚ) (toString : String)
  deriving DecidableEq

namespace Value

/-- The number of components, `Value::count()`: the vector length of a short
value, the byte length of a text value. -/
def count : Value → Nat
  | unsignedShort vs => vs.length
  | xmpText s => s.utf8ByteSize
  | other c _ _ => c

/-- The first component as a float, `Value::toFloat()`. -/
def toFloat : Value → ℚ
  | unsignedShort vs => (vs.headD 0 : ℚ)
  | xmpText s => parseFloat s
  | other _ f _ => f

/-- The textual form, `Value::toString()`: the components of a short value
in decimal, separated by blanks; the text of a text value. -/
def toString : Value → String
  | unsignedShort vs => " ".intercalate (vs.map Nat.repr)
  | xmpText s => s
  | other _ _ s => s

end Value

/-- One entry of a tag sequence (`Exiv2::Exifdatum`, `Exiv2::Xmpdatum`): a
key and a value pointer, which is null until a value is set. -/
structure Metadatum where
  key : String
  value : Option Value
  deriving DecidableEq

namespace Metadatum

/-- The component count, `count()`: 0 for a null value. -/
def count (d : Metadatum) : Nat :=
  match d.value with
  | none => 0
  | some v => v.count

/-- The float conversion, `toFloat()`: -1 for a null value. -/
def toFloat (d : Metadatum) : ℚ :=
  match d.value with
  | none => -1
  | some v => v.toFloat

/-- The textual form, `toString()`: empty for a null value. -/
def toString (d : Metadatum) : String :=
  match d.value with
  | none => ""
  | some v => v.toString

end Metadatum

/-- The entry `findKey(key)` points to: the first entry with that key;
`none` stands for the `end()` iterator. -/
def findKey : List Metadatum → String → Option Metadatum
  | [], _ => none
  | d :: ds, key => if d.key = key then some d else findKey ds key

/-- The statement pair `pos = data.findKey(key); if (pos != data.end())
data.erase(pos);`: removes the first entry with that key, if there is one. -/
def eraseFound : List Metadatum → String → List Metadatum
  | [], _ => []
  | d :: ds, key => if d.key = key then ds else d :: eraseFound ds key

/-- Sets the value of the entry `findKey(key)` points to
(`pos->setValue(v)`); nothing changes when there is no such entry. -/
def setValueFound : List Metadatum → String → Value → List Metadatum
  | [], _, _ => []
  | d :: ds, key, v =>
    if d.key = key then { d with value := some v } :: ds
    else d :: setValueFound ds key v

/-- The sequence after `data[key]` was evaluated (`ExifData::operator[]`): an
entry with a null value is appended when the key is not found. -/
def subscript (data : List Metadatum) (key : String) : List Metadatum :=
  match findKey data key with
  | none => data ++ [{ key := key, value := none }]
  | some _ => data

/-- The assignment `data[key] = uint16_t(x)`, for the value built from `x`. -/
def assign (data : List Metadatum) (key : String) (v : Value) : List Metadatum :=
  setValueFound (subscript data key) key v

/-- The call `data.add(key, v)` (`XmpData::add`): appends a new entry. -/
def add (data : List Metadatum) (key : String) (v : Value) : List Metadatum :=
  data ++ [{ key := key, value := some v }]

/-- The conversion `uint16_t(r)` of an `int`. -/
def toUInt16 (r : Int) : Nat := (r % 65536).toNat

/-- Qt's `qRound(float d)`, which is
`d >= 0 ? int(d + 0.5f) : int(d - float(int(d-1)) + 0.5f) + int(d-1)`,
on exact rationals; `int(..)` truncates toward zero, here the truncating
division of numerator by denominator. -/
def qRound (d : ℚ) : Int :=
  if 0 ≤ d then Int.tdiv (2 * d.num + d.den) (2 * d.den)
  else
    let k := Int.tdiv (d.num - d.den) d.den
    Int.tdiv (2 * (d.num - k * d.den) + d.den) (2 * d.den) + k

/-- Truncation toward zero of a rational, the conversion `int(..)` of C++. -/
def truncQ (q : ℚ) : Int := if 0 ≤ q then ⌊q⌋ else ⌈q⌉

/-- Truncation of a float to `int`, the cast `(int)`. -/
def toInt (q : ℚ) : Int := Int.tdiv q.num q.den

/-! ## Rounding to binary floating point

The type `float` is IEEE binary32: a result that is not representable is
rounded to the nearest representable value, a tie to the one with an even
significand.  The functions are written on numerators and denominators. -/

/-- The product `x * y`, written on numerators and denominators. -/
def mulQ (x y : ℚ) : ℚ := mkRat (x.num * y.num) (x.den * y.den)

/-- The sum `x + y`, written on numerators and denominators. -/
def addQ (x y : ℚ) : ℚ := mkRat (x.num * y.den + y.num * x.den) (x.den * y.den)

/-- The power of two with the exponent `s`. -/
def pow2 (s : Int) : ℚ :=
  if 0 ≤ s then mkRat (2 ^ s.toNat) 1 else mkRat 1 (2 ^ (-s).toNat)

/-- The nearest integer, a tie going to the even one. -/
def roundEven (z : ℚ) : Int :=
  let f := z.num / (z.den : Int)
  let r := z.num % (z.den : Int)
  if 2 * r < z.den then f
  else if (z.den : Int) < 2 * r then f + 1
  else if f % 2 = 0 then f else f + 1

/-- The binary logarithm of a natural number, rounded down, by halving at most
`fuel` times. -/
def log2Aux : Nat → Nat → Nat
  | 0, _ => 0
  | fuel + 1, n => if n ≤ 1 then 0 else log2Aux fuel (n / 2) + 1

/-- The binary logarithm of a natural number, rounded down (0 for 0). -/
def log2 (n : Nat) : Nat := log2Aux n n

/-- The binary exponent of a rational that is not 0: the largest e with
`2 ^ e` at most the magnitude. -/
def ilog2 (q : ℚ) : Int :=
  let a := q.num.natAbs
  let b := q.den
  if b ≤ a then (log2 (a / b) : Int) else -((log2 ((b - 1) / a) : Int) + 1)

/-- Rounding to a binary format with `p` bits of significand and the smallest
normal exponent `emin`: the value is rounded to a multiple of the unit in the
last place of its binade (of the smallest binade below it), ties to even.  The
largest exponent is not looked at here. -/
def roundBinary (p : Nat) (emin : Int) (q : ℚ) : ℚ :=
  if q.num = 0 then 0
  else
    let s : Int := max (ilog2 q) emin - ((p : Int) - 1)
    mulQ (mkRat (roundEven (mulQ q (pow2 (-s)))) 1) (pow2 s)

/-- Rounding to `float` (binary32), overflow apart. -/
def binary32 (q : ℚ) : ℚ := roundBinary 24 (-126) q

/-- Rounding to `double` (binary64), overflow apart. -/
def binary64 (q : ℚ) : ℚ := roundBinary 53 (-1022) q

/-- Qt's `qRound(float d)`,
`d >= 0.0f ? int(d + 0.5f) : int(d - float(int(d-1)) + 0.5f) + int(d-1)`,
with each sum and difference rounded to `float`. -/
def qRoundFloat (d : ℚ) : Int :=
  if 0 ≤ d then toInt (binary32 (addQ d (mkRat 1 2)))
  else
    let k := toInt (binary32 (addQ d (-1)))
    toInt (binary32 (addQ (binary32 (addQ d (binary32 (mkRat (-k) 1)))) (mkRat 1 2))) + k

/-- The access modes of a container for one kind of metadata
(`Exiv2::AccessMode`), the result of `checkMode`. -/
inductive AccessMode where
  | amNone
  | amRead
  | amWrite
  | amReadWrite
  deriving DecidableEq, Repr

/-- A metadata record: the state `mExifState`, the path `mFilePath` and the
opened container `mExifImg`, which is given by its tag sequences, by the bytes
`io` behind it, by the access mode `checkMode(mdExif)` reports and by two flags
that say whether the container type throws on `setExifData` / `setXmpData`
(image formats without that kind of metadata do). -/
structure DkMetaDataT where
  mExifState : ExifState
  exifData : List Metadatum
  xmpData : List Metadatum
  iptcData : List Metadatum := []
  setExifDataThrows : Bool := false
  setXmpDataThrows : Bool := false
  exifAccessMode : AccessMode := AccessMode.amReadWrite
  io : List Nat := []
  mFilePath : String := ""
  deriving DecidableEq

/-! ## Text conversion -/

/-- Whether `s` starts with `pat`, letter case ignored. -/
def startsWithCI : List Char → List Char → Bool
  | [], _ => true
  | _ :: _, [] => false
  | p :: ps, c :: cs => p.toLower == c.toLower && startsWithCI ps cs

/-- The test `QString::contains(pat, Qt::CaseInsensitive)`. -/
def containsCI (pat : List Char) : List Char → Bool
  | [] => pat.isEmpty
  | c :: cs => startsWithCI pat (c :: cs) || containsCI pat cs

/-- The call `QString::replace(pat, "", Qt::CaseInsensitive)` for a non-empty
`pat`: removes the occurrences of `pat` from left to right; `skip` counts the
characters of a found occurrence that are still to be dropped. -/
def removeAllCI (pat : List Char) : Nat → List Char → List Char
  | _, [] => []
  | skip + 1, _ :: cs => removeAllCI pat skip cs
  | 0, c :: cs =>
    if startsWithCI pat (c :: cs) then removeAllCI pat (pat.length - 1) cs
    else c :: removeAllCI pat 0 cs

/-- The function `DkMetaDataT::exiv2ToQString`: a string that carries the
marker `charset="ASCII"` loses every `charset="ASCII" ` (with the blank);
any other string is returned as it is. -/
def exiv2ToQString (exifString : String) : String :=
  if containsCI "charset=\"ASCII\"".toList exifString.toList then
    String.mk (removeAllCI "charset=\"ASCII\" ".toList 0 exifString.toList)
  else exifString

/-! ## Rating -/

/-- The block that occurs three times in `getRating`:
`pos = data.findKey(key); if (pos != data.end() && pos->count() != 0)
{ v = pos->getValue(); x = v->toFloat(); }`.  The result is the value of `x`
afterwards. -/
def readRating (data : List Metadatum) (key : String) (x : ℚ) : ℚ :=
  match findKey data key with
  | some pos => if pos.count ≠ 0 then pos.toFloat else x
  | none => x

namespace DkMetaDataT

/-- The function `DkMetaDataT::getRating` (lines 279-332). -/
def getRating (m : DkMetaDataT) : Int :=
  if m.mExifState ≠ ExifState.loaded ∧ m.mExifState ≠ ExifState.dirty then -1
  else
    let exifRating : ℚ :=
      if !m.exifData.isEmpty then readRating m.exifData "Exif.Image.Rating" (-1) else -1
    let xmpRating : ℚ :=
      if !m.xmpData.isEmpty then
        let xmpRating := readRating m.xmpData "Xmp.xmp.Rating" (-1)
        if xmpRating = -1 then readRating m.xmpData "Xmp.MicrosoftPhoto.Rating" xmpRating
        else xmpRating
      else -1
    let fRating : ℚ :=
      if xmpRating = -1 ∧ exifRating ≠ -1 then exifRating
      else if xmpRating ≠ -1 ∧ exifRating = -1 then xmpRating
      else exifRating
    qRound fRating

/-- The function `DkMetaDataT::getXmpValue` (lines 375-403).  The constructor
`XmpKey(key)` throws on a malformed key and the result is then empty too; the
keys stored in a container are well formed, so looking a malformed key up
finds nothing. -/
def getXmpValue (m : DkMetaDataT) (key : String) : String :=
  if m.mExifState ≠ ExifState.loaded ∧ m.mExifState ≠ ExifState.dirty then ""
  else if !m.xmpData.isEmpty then
    match findKey m.xmpData key with
    | some pos => if pos.count ≠ 0 then exiv2ToQString pos.toString else ""
    | none => ""
  else ""

/-- The function `DkMetaDataT::setRating` (lines 1041-1097): the record after
the call.  The source computes `percentRating` and does not use it again:
both EXIF assignments take `uint16_t(r)`. -/
def setRating (m : DkMetaDataT) (r : Int) : DkMetaDataT :=
  if m.mExifState = ExifState.not_loaded ∨ m.mExifState = ExifState.no_data
      ∨ m.getRating = r then m
  else
    let _percentRating : Nat :=
      if r = 5 then 99 else if r = 4 then 75 else if r = 3 then 50
      else if r = 2 then 25 else if r = 1 then 1 else 0
    let sRating : String :=
      if r = 5 then "5" else if r = 4 then "4" else if r = 3 then "3"
      else if r = 2 then "2" else if r = 1 then "1" else ""
    let sRatingPercent : String :=
      if r = 5 then "99" else if r = 4 then "75" else if r = 3 then "50"
      else if r = 2 then "25" else if r = 1 then "1" else ""
    let r : Int :=
      if r = 5 ∨ r = 4 ∨ r = 3 ∨ r = 2 ∨ r = 1 then r else 0
    let exifData : List Metadatum :=
      if r > 0 then
        assign (assign m.exifData "Exif.Image.Rating" (Value.unsignedShort [toUInt16 r]))
          "Exif.Image.RatingPercent" (Value.unsignedShort [toUInt16 r])
      else
        eraseFound (eraseFound m.exifData "Exif.Image.Rating") "Exif.Image.RatingPercent"
    let xmpData : List Metadatum :=
      if r > 0 then
        add (add m.xmpData "Xmp.xmp.Rating" (Value.xmpText sRating))
          "Xmp.MicrosoftPhoto.Rating" (Value.xmpText sRatingPercent)
      else
        eraseFound (eraseFound m.xmpData "Xmp.xmp.Rating") "Xmp.MicrosoftPhoto.Rating"
    { m with
      exifData := exifData
      xmpData := xmpData
      mExifState :=
        if m.setExifDataThrows ∨ m.setXmpDataThrows then m.mExifState else ExifState.dirty }

end DkMetaDataT

/-! ## Orientation -/

/-- The `switch (orientation)` statement of `setOrientation` (lines
1007-1024): the new orientation code for the current code and the rotation
`o`; a code that no `case` matches is left as it is. -/
def rotatedCode (orientation o : Int) : Int :=
  if orientation = 1 then
    (if o ≠ 0 then (if o = -90 then 8 else (if o = 90 then 6 else 3)) else orientation)
  else if orientation = 2 then
    (if o ≠ 0 then (if o = -90 then 5 else (if o = 90 then 7 else 4)) else orientation)
  else if orientation = 3 then
    (if o ≠ 0 then (if o = -90 then 6 else (if o = 90 then 8 else 1)) else orientation)
  else if orientation = 4 then
    (if o ≠ 0 then (if o = -90 then 7 else (if o = 90 then 5 else 2)) else orientation)
  else if orientation = 5 then
    (if o ≠ 0 then (if o = -90 then 4 else (if o = 90 then 2 else 7)) else orientation)
  else if orientation = 6 then
    (if o ≠ 0 then (if o = -90 then 1 else (if o = 90 then 3 else 8)) else orientation)
  else if orientation = 7 then
    (if o ≠ 0 then (if o = -90 then 2 else (if o = 90 then 4 else 5)) else orientation)
  else if orientation = 8 then
    (if o ≠ 0 then (if o = -90 then 3 else (if o = 90 then 1 else 6)) else orientation)
  else orientation

namespace DkMetaDataT

/-- The function `DkMetaDataT::setOrientation` (lines 969-1031): the record
after the call.  The tag sequence is edited in place before
`setExifData` is called, so the edit is there also when that call throws and
the state is not set to dirty. -/
def setOrientation (m : DkMetaDataT) (o : Int) : DkMetaDataT :=
  if m.mExifState = ExifState.not_loaded ∨ m.mExifState = ExifState.no_data then m
  else if o ≠ 90 ∧ o ≠ -90 ∧ o ≠ 180 ∧ o ≠ 0 ∧ o ≠ 270 then m
  else
    let o : Int := if o = -180 then 180 else o
    let o : Int := if o = 270 then -90 else o
    let exifData : List Metadatum :=
      if m.exifData.isEmpty then
        assign m.exifData "Exif.Image.Orientation" (Value.unsignedShort [1])
      else m.exifData
    let exifData : List Metadatum :=
      match findKey exifData "Exif.Image.Orientation" with
      | some pos =>
        if pos.count = 0 then
          assign exifData "Exif.Image.Orientation" (Value.unsignedShort [1])
        else exifData
      | none => assign exifData "Exif.Image.Orientation" (Value.unsignedShort [1])
    match findKey exifData "Exif.Image.Orientation" with
    | some { key := _, value := some (Value.unsignedShort (v0 :: rest)) } =>
      let orientation : Int := (v0 : Int)
      let orientation : Int := if orientation ≤ 0 ∨ orientation > 8 then 1 else orientation
      let orientation : Int := rotatedCode orientation o
      { m with
        exifData := setValueFound exifData "Exif.Image.Orientation"
          (Value.unsignedShort (toUInt16 orientation :: rest))
        mExifState := if m.setExifDataThrows then m.mExifState else ExifState.dirty }
    | _ => { m with exifData := exifData }

end DkMetaDataT

/-- The orientation code a record stores: the first component of the short
value found under `Exif.Image.Orientation`, if there is one. -/
def storedOrientation (m : DkMetaDataT) : Option Nat :=
  match findKey m.exifData "Exif.Image.Orientation" with
  | some { key := _, value := some (Value.unsignedShort (c :: _)) } => some c
  | _ => none

/-- Spec side: a sum of two rotation deltas reduced modulo 360 into
{0, 90, -90, 180}. -/
def Spec.reduceDelta (s : Int) : Int :=
  if s % 360 = 270 then -90 else s % 360

/-- A loaded record whose only tag is `Exif.Image.Orientation` with the short
`c`. -/
def Example.oriented (c : Nat) : DkMetaDataT :=
  { mExifState := ExifState.loaded,
    exifData := [{ key := "Exif.Image.Orientation", value := some (Value.unsignedShort [c]) }],
    xmpData := [] }

/-! ## Observations used by the statements -/

/-- The number of entries a tag sequence holds under a key. -/
def countKey (data : List Metadatum) (key : String) : Nat :=
  (data.filter (fun d => d.key = key)).length

/-- Spec side: the percent value the spec assigns to a rating,
1 to 1, 2 to 25, 3 to 50, 4 to 75 and 5 to 99. -/
def Spec.percentOfRating (r : Int) : Nat :=
  if r = 1 then 1 else if r = 2 then 25 else if r = 3 then 50
  else if r = 4 then 75 else if r = 5 then 99 else 0

/-! ## Example records -/

/-- A loaded record without any tag. -/
def Example.unrated : DkMetaDataT :=
  { mExifState := ExifState.loaded, exifData := [], xmpData := [] }

/-- A loaded record whose only tag is `Xmp.xmp.Rating` with the text `s`. -/
def Example.xmpRated (s : String) : DkMetaDataT :=
  { mExifState := ExifState.loaded, exifData := [],
    xmpData := [{ key := "Xmp.xmp.Rating", value := some (Value.xmpText s) }] }

/-- A loaded record whose only tag is `Exif.Image.Rating` with the short `n`. -/
def Example.exifRated (n : Nat) : DkMetaDataT :=
  { mExifState := ExifState.loaded,
    exifData := [{ key := "Exif.Image.Rating", value := some (Value.unsignedShort [n]) }],
    xmpData := [] }

/-- A loaded record whose only tag is `Xmp.MicrosoftPhoto.Rating` with the
text `s`. -/
def Example.vendorRated (s : String) : DkMetaDataT :=
  { mExifState := ExifState.loaded, exifData := [],
    xmpData := [{ key := "Xmp.MicrosoftPhoto.Rating", value := some (Value.xmpText s) }] }

/-- A loaded record with `Exif.Image.Rating` = 2 and `Xmp.xmp.Rating` = "4". -/
def Example.bothRated : DkMetaDataT :=
  { mExifState := ExifState.loaded,
    exifData := [{ key := "Exif.Image.Rating", value := some (Value.unsignedShort [2]) }],
    xmpData := [{ key := "Xmp.xmp.Rating", value := some (Value.xmpText "4") }] }

/-! ## Writing EXIF values -/

/-- Cuts a text at its blanks. -/
def splitBlank (cs : List Char) : List (List Char) :=
  cs.foldr
    (fun c acc =>
      if c = ' ' then [] :: acc
      else
        match acc with
        | [] => [[c]]
        | t :: ts => (c :: t) :: ts)
    [[]]

/-- Reads every token as an unsigned 16 bit numeral; `none` if one of them is
empty, holds another character than a digit, or is too large. -/
def shortTokens : List (List Char) → Option (List Nat)
  | [] => some []
  | t :: ts =>
    match t, digitsValue 0 t, shortTokens ts with
    | _ :: _, some n, some ns => if n < 65536 then some (n :: ns) else none
    | _, _, _ => none

/-- The components a text of decimal numerals separated by single blanks
stands for, as `ValueType<uint16_t>::read` reads them. -/
def parseShorts (s : String) : Option (List Nat) :=
  shortTokens (splitBlank s.toList)

/-- What the accessors and `setExifValue` need from the tag tables and value parsers of Exiv2
beyond the two value types embedded here: the canonical form of a key text,
the default type of a key and the parsers of the other value types.  The last two fields say that the
tables list `Exif.Image.Orientation` as a tag of type SHORT. -/
structure Codec where
  /-- The key `ExifKey(key).key()` of a key text; `none` when the constructor
  throws. -/
  exifKey : String → Option String
  /-- The key `IptcKey(key).key()` of a key text; `none` when the constructor
  throws. -/
  iptcKey : String → Option String
  /-- The empty value `Value::create(key.defaultTypeId())`. -/
  create : String → Value
  /-- The value after `read(text)` for a value or a text outside the embedded
  value types; `none` when the text is rejected (non-zero return). -/
  readOther : Value → String → Option Value
  orientation_key : exifKey "Exif.Image.Orientation" = some "Exif.Image.Orientation"
  orientation_short : create "Exif.Image.Orientation" = Value.unsignedShort []

/-- Whether `s` starts with `pat`. -/
def startsWith : List Char → List Char → Bool
  | [], _ => true
  | _ :: _, [] => false
  | p :: ps, c :: cs => p == c && startsWith ps cs

/-- Whether a text opens with the type indicator `type=` that
`XmpTextValue::read` interprets: longer than 5 characters and starting with
`type=`. -/
def hasTypeIndicator (s : String) : Bool :=
  decide (5 < s.length) && startsWith "type=".toList s.toList

/-- The call `Value::read(const std::string&)`: the value afterwards, `none`
when the text is rejected.  A short value replaces its components by the
numerals of the text, a text value takes the text; a text with a type
indicator is left to the codec. -/
def Value.read (codec : Codec) (v : Value) (s : String) : Option Value :=
  match v with
  | Value.unsignedShort vs =>
    match parseShorts s with
    | some ns => some (Value.unsignedShort ns)
    | none => codec.readOther (Value.unsignedShort vs) s
  | Value.xmpText t =>
    if hasTypeIndicator s then codec.readOther (Value.xmpText t) s else some (Value.xmpText s)
  | Value.other c f t => codec.readOther (Value.other c f t) s

/-- The call `Exifdatum::setValue(const std::string&)`: a null value is first
replaced by the empty value of the key's default type, then the text is read.
The result is the value of the entry afterwards and the return code, 0 for
success. -/
def Metadatum.setValueText (codec : Codec) (d : Metadatum) (s : String) : Value × Int :=
  let v : Value :=
    match d.value with
    | some v => v
    | none => codec.create d.key
  match v.read codec s with
  | some v2 => (v2, 0)
  | none => (v, 1)

namespace DkMetaDataT

/-- The function `DkMetaDataT::getExifKeys` (lines 710-735). -/
def getExifKeys (m : DkMetaDataT) : List String :=
  if m.mExifState ≠ ExifState.loaded ∧ m.mExifState ≠ ExifState.dirty then []
  else if m.exifData.isEmpty then []
  else m.exifData.map (fun i => i.key)

/-- The function `DkMetaDataT::setExifValue` (lines 1115-1155): the record
after the call and the value returned; `none` stands for a call that is left
by the exception of `ExifKey(key)`.  In the first branch `exifData[key]` is
the entry found after `operator[]` looked the key up (and appended an entry
if there was none). -/
def setExifValue (codec : Codec) (m : DkMetaDataT) (key taginfo : String) :
    DkMetaDataT × Option Bool :=
  if m.mExifState = ExifState.not_loaded ∨ m.mExifState = ExifState.no_data then (m, some false)
  else if m.exifAccessMode ≠ AccessMode.amReadWrite ∧ m.exifAccessMode ≠ AccessMode.amWrite then
    (m, some false)
  else if !m.exifData.isEmpty ∧ key ∈ m.getExifKeys then
    match codec.exifKey key with
    | none => (m, none)
    | some k =>
      let exifData := subscript m.exifData k
      let tag : Metadatum := (findKey exifData k).getD { key := k, value := none }
      let res := tag.setValueText codec taginfo
      ({ m with
          exifData := setValueFound exifData k res.1
          mExifState := if res.2 = 0 then ExifState.dirty else m.mExifState },
        some (decide (res.2 = 0)))
  else
    match codec.exifKey key with
    | none => (m, none)
    | some k =>
      let tag : Metadatum := { key := k, value := none }
      let res := tag.setValueText codec taginfo
      ({ m with
          exifData := m.exifData ++ [{ key := k, value := some res.1 }]
          mExifState := if res.2 = 0 then ExifState.dirty else m.mExifState },
        some (decide (res.2 = 0)))

/-- The function `DkMetaDataT::clearOrientation` (lines 961-967): the record
after the call. -/
def clearOrientation (codec : Codec) (m : DkMetaDataT) : DkMetaDataT :=
  if m.mExifState = ExifState.not_loaded ∨ m.mExifState = ExifState.no_data then m
  else (m.setExifValue codec "Exif.Image.Orientation" "1").1

/-- The function `DkMetaDataT::setDescription` (lines 1033-1039). -/
def setDescription (codec : Codec) (m : DkMetaDataT) (description : String) :
    DkMetaDataT × Option Bool :=
  if m.mExifState = ExifState.not_loaded ∨ m.mExifState = ExifState.no_data then (m, some false)
  else m.setExifValue codec "Exif.Image.ImageDescription" description

end DkMetaDataT

/-- The entry on which `setExifValue` calls `setValue` when the key text
stands for the key `k`: the entry found under `k` when the key text is among
the stored keys, a fresh entry otherwise. -/
def DkMetaDataT.exifTarget (m : DkMetaDataT) (key k : String) : Metadatum :=
  if !m.exifData.isEmpty ∧ key ∈ m.getExifKeys then
    (findKey (subscript m.exifData k) k).getD { key := k, value := none }
  else { key := k, value := none }

/-- Whether the tag under a key is absent (no entry, or an entry without
value) or holds a short value. -/
def shortOrAbsent (data : List Metadatum) (key : String) : Bool :=
  match findKey data key with
  | none => true
  | some d =>
    match d.value with
    | none => true
    | some (Value.unsignedShort _) => true
    | some _ => false

/-- A codec that knows the orientation key only and rejects every text it is
asked about. -/
def Example.codec : Codec :=
  { exifKey := fun key => if key = "Exif.Image.Orientation" then some key else none
    iptcKey := fun _ => none
    create := fun _ => Value.unsignedShort []
    readOther := fun _ _ => none
    orientation_key := by decide
    orientation_short := rfl }

/-- The record `Example.oriented c` in a container that can only be read. -/
def Example.readOnly (c : Nat) : DkMetaDataT :=
  { Example.oriented c with exifAccessMode := AccessMode.amRead }

/-! ## The container, loading and saving -/

/-- A container (`Exiv2::Image`) as the record uses it: the tag sequences, the
bytes behind it, the EXIF access mode and whether `setExifData` /
`setXmpData` throw. -/
structure Image where
  exifData : List Metadatum
  xmpData : List Metadatum
  iptcData : List Metadatum
  setExifDataThrows : Bool
  setXmpDataThrows : Bool
  exifAccessMode : AccessMode
  io : List Nat
  deriving DecidableEq

/-- The null container pointer, embedded as a container without tags and
bytes; in the states in which `mExifImg` can be null no accessor reads it. -/
def Image.null : Image :=
  { exifData := [], xmpData := [], iptcData := [], setExifDataThrows := false,
    setXmpDataThrows := false, exifAccessMode := AccessMode.amNone, io := [] }

/-- What the codec calls in `readMetaData` yield: `ImageFactory::open` throws
or yields a null pointer, or it yields a container on which `readMetadata()`
throws, or which is not `good()` afterwards, or which is good. -/
inductive LoadRun where
  | openThrows
  | openNull
  | readThrows (img : Image)
  | notGood (img : Image)
  | good (img : Image)
  deriving DecidableEq

/-- What the codec calls in `saveMetaData` yield: `ImageFactory::open` on the
buffer throws or yields a null pointer; or one of `readMetadata`,
`setExifData`, `setXmpData`, `setIptcData`, `writeMetadata` throws, which the
source does not catch; or all of them return, with the new container
`exifImgN` and the buffer `io().read(io().size())`, whose data pointer may be
null. -/
inductive SaveRun where
  | openThrows
  | openNull
  | writeThrows
  | written (exifImgN : Image) (exifBuf : Option (List Nat))
  deriving DecidableEq

namespace DkMetaDataT

/-- The container `mExifImg` of a record. -/
def mExifImg (m : DkMetaDataT) : Image :=
  { exifData := m.exifData, xmpData := m.xmpData, iptcData := m.iptcData,
    setExifDataThrows := m.setExifDataThrows, setXmpDataThrows := m.setXmpDataThrows,
    exifAccessMode := m.exifAccessMode, io := m.io }

/-- The assignment `mExifImg = img`. -/
def setExifImg (m : DkMetaDataT) (img : Image) : DkMetaDataT :=
  { m with
    exifData := img.exifData, xmpData := img.xmpData, iptcData := img.iptcData,
    setExifDataThrows := img.setExifDataThrows, setXmpDataThrows := img.setXmpDataThrows,
    exifAccessMode := img.exifAccessMode, io := img.io }

/-- The codec run `readMetaData` starts: a null or empty `ba` makes the codec
open the file (the target of a symbolic link), otherwise the buffer;
`openFile` and `openBuffer` say what the codec does with them. -/
def openRun (filePath : String) (ba : Option (List Nat))
    (openFile : String → LoadRun) (openBuffer : List Nat → LoadRun) : LoadRun :=
  match ba with
  | none => openFile filePath
  | some bytes => if bytes.isEmpty then openFile filePath else openBuffer bytes

/-- The function `DkMetaDataT::readMetaData` (lines 52-112): the record after
the call.  Every exception of the codec is caught. -/
def readMetaData (m : DkMetaDataT) (filePath : String) (ba : Option (List Nat))
    (openFile : String → LoadRun) (openBuffer : List Nat → LoadRun) : DkMetaDataT :=
  let m : DkMetaDataT := { m with mFilePath := filePath }
  match openRun filePath ba openFile openBuffer with
  | LoadRun.openThrows => { m with mExifState := ExifState.no_data }
  | LoadRun.openNull => { m.setExifImg Image.null with mExifState := ExifState.no_data }
  | LoadRun.readThrows img => { m.setExifImg img with mExifState := ExifState.no_data }
  | LoadRun.notGood img => { m.setExifImg img with mExifState := ExifState.no_data }
  | LoadRun.good img => { m.setExifImg img with mExifState := ExifState.loaded }

/-- The function `DkMetaDataT::saveMetaData(QSharedPointer<QByteArray>& ba,
bool force)` (lines 143-200): the record and the caller's buffer after the
call and the value returned; `none` stands for a call that is left by an
exception.  In the threshold `qRound(ba->size()*0.5f)` the size is converted
to `float` and the product and the sum inside `qRound` are rounded to
`float`. -/
def saveMetaData (m : DkMetaDataT) (ba : Option (List Nat)) (force : Bool) (run : SaveRun) :
    DkMetaDataT × Option (List Nat) × Option Bool :=
  match ba with
  | none => (m, ba, some false)
  | some bytes =>
    if !force ∧ m.mExifState ≠ ExifState.dirty then (m, ba, some false)
    else if m.mExifState = ExifState.not_loaded ∨ m.mExifState = ExifState.no_data then
      (m, ba, some false)
    else
      match run with
      | SaveRun.openThrows => (m, ba, some false)
      | SaveRun.openNull => (m, ba, some false)
      | SaveRun.writeThrows => (m, ba, none)
      | SaveRun.written exifImgN exifBuf =>
        match exifBuf with
        | some tmp =>
          if (tmp.length : Int)
              > qRoundFloat (binary32 (mulQ (binary32 (mkRat bytes.length 1)) (mkRat 1 2))) then
            ({ m.setExifImg exifImgN with mExifState := ExifState.loaded }, some tmp, some true)
          else (m, ba, some false)
        | none => (m, ba, some false)

end DkMetaDataT

/-! ## Read accessors -/

/-- The last step of the string accessors: `if (pos != end() && pos->count()
!= 0) info = exiv2ToQString(pos->toString());` with `info` empty before. -/
def infoOf (pos : Option Metadatum) : String :=
  match pos with
  | some p => if p.count ≠ 0 then exiv2ToQString p.toString else ""
  | none => ""

namespace DkMetaDataT

/-- The function `DkMetaDataT::getDescription` (lines 202-230). -/
def getDescription (m : DkMetaDataT) : String :=
  if m.mExifState ≠ ExifState.loaded ∧ m.mExifState ≠ ExifState.dirty then ""
  else if !m.exifData.isEmpty then infoOf (findKey m.exifData "Exif.Image.ImageDescription")
  else ""

/-- The function `DkMetaDataT::getOrientation` (lines 232-277). -/
def getOrientation (m : DkMetaDataT) : Int :=
  if m.mExifState ≠ ExifState.loaded ∧ m.mExifState ≠ ExifState.dirty then 0
  else if !m.exifData.isEmpty then
    match findKey m.exifData "Exif.Image.Orientation" with
    | some pos =>
      if pos.count ≠ 0 then
        let orientation : Int := toInt pos.toFloat
        if orientation = 6 then 90
        else if orientation = 7 then 90
        else if orientation = 3 then 180
        else if orientation = 4 then 180
        else if orientation = 8 then -90
        else if orientation = 5 then -90
        else -1
      else 0
    | none => 0
  else 0

/-- The function `DkMetaDataT::getNativeExifValue` (lines 334-373). -/
def getNativeExifValue (codec : Codec) (m : DkMetaDataT) (key : String) : String :=
  if m.mExifState ≠ ExifState.loaded ∧ m.mExifState ≠ ExifState.dirty then ""
  else if !m.exifData.isEmpty then
    match codec.exifKey key with
    | none => ""
    | some ekey =>
      match findKey m.exifData ekey with
      | some pos =>
        if pos.count ≠ 0 then
          (if pos.count < 2000 then exiv2ToQString pos.toString
           else "<data too large to display>")
        else ""
      | none => ""
  else ""

/-- The function `DkMetaDataT::getExifValue` (lines 406-446).  When a key
constructor throws inside the `try`, the handler looks the `Exif.Photo.` key
up; when that constructor throws (again), the result is empty. -/
def getExifValue (codec : Codec) (m : DkMetaDataT) (key : String) : String :=
  if m.mExifState ≠ ExifState.loaded ∧ m.mExifState ≠ ExifState.dirty then ""
  else if !m.exifData.isEmpty then
    match codec.exifKey ("Exif.Image." ++ key) with
    | some ekey =>
      match findKey m.exifData ekey with
      | some pos =>
        if pos.count = 0 then
          match codec.exifKey ("Exif.Photo." ++ key) with
          | some lEkey => infoOf (findKey m.exifData lEkey)
          | none => ""
        else infoOf (some pos)
      | none =>
        match codec.exifKey ("Exif.Photo." ++ key) with
        | some lEkey => infoOf (findKey m.exifData lEkey)
        | none => ""
    | none =>
      match codec.exifKey ("Exif.Photo." ++ key) with
      | some ekey => infoOf (findKey m.exifData ekey)
      | none => ""
  else ""

/-- The function `DkMetaDataT::getIptcValue` (lines 448-475). -/
def getIptcValue (codec : Codec) (m : DkMetaDataT) (key : String) : String :=
  if m.mExifState ≠ ExifState.loaded ∧ m.mExifState ≠ ExifState.dirty then ""
  else if !m.iptcData.isEmpty then
    match codec.iptcKey key with
    | none => ""
    | some ekey => infoOf (findKey m.iptcData ekey)
  else ""

/-- The function `DkMetaDataT::hasMetaData` (lines 677-680). -/
def hasMetaData (m : DkMetaDataT) : Bool :=
  !(m.mExifState = ExifState.no_data ∨ m.mExifState = ExifState.not_loaded)

/-- The function `DkMetaDataT::isLoaded` (lines 682-685). -/
def isLoaded (m : DkMetaDataT) : Bool :=
  m.mExifState = ExifState.loaded ∨ m.mExifState = ExifState.dirty
    ∨ m.mExifState = ExifState.no_data

/-- The function `DkMetaDataT::isDirty` (lines 705-708). -/
def isDirty (m : DkMetaDataT) : Bool :=
  m.mExifState = ExifState.dirty

/-- The function `DkMetaDataT::getXmpKeys` (lines 737-760). -/
def getXmpKeys (m : DkMetaDataT) : List String :=
  if m.mExifState ≠ ExifState.loaded ∧ m.mExifState ≠ ExifState.dirty then []
  else if m.xmpData.isEmpty then []
  else m.xmpData.map (fun i => i.key)

/-- The function `DkMetaDataT::getIptcKeys` (lines 763-783). -/
def getIptcKeys (m : DkMetaDataT) : List String :=
  if m.mExifState ≠ ExifState.loaded ∧ m.mExifState ≠ ExifState.dirty then []
  else if m.iptcData.isEmpty then []
  else m.iptcData.map (fun md => md.key)

/-- The loop of `getExifValues` and `getIptcValues`: the texts of the values;
`none` when an entry has a null value, on which `value()` throws. -/
def valueTexts : List Metadatum → Option (List String)
  | [] => some []
  | d :: ds =>
    match d.value, valueTexts ds with
    | some v, some rest => some (exiv2ToQString v.toString :: rest)
    | _, _ => none

/-- The function `DkMetaDataT::getExifValues` (lines 785-806); `none` stands
for a call that is left by an exception. -/
def getExifValues (m : DkMetaDataT) : Option (List String) :=
  if m.mExifState ≠ ExifState.loaded ∧ m.mExifState ≠ ExifState.dirty then some []
  else if m.exifData.isEmpty then some []
  else valueTexts m.exifData

/-- The function `DkMetaDataT::getIptcValues` (lines 808-827); `none` stands
for a call that is left by an exception. -/
def getIptcValues (m : DkMetaDataT) : Option (List String) :=
  if m.mExifState ≠ ExifState.loaded ∧ m.mExifState ≠ ExifState.dirty then some []
  else if m.iptcData.isEmpty then some []
  else valueTexts m.iptcData

end DkMetaDataT

/-! ## Thumbnail -/

/-- The call `ExifThumb::erase()`: removes every entry of the thumbnail
group. -/
def eraseThumb (data : List Metadatum) : List Metadatum :=
  data.filter (fun d => !startsWith "Exif.Thumbnail.".toList d.key.toList)

/-- The call `ExifThumb::setJpegThumbnail(buf, size)`: three assignments; the
two `uint32_t` values are values of another type with one component.  The
data area that carries the bytes is not part of the embedded values. -/
def setJpegThumbnail (data : List Metadatum) (size : Nat) : List Metadatum :=
  assign
    (assign
      (assign data "Exif.Thumbnail.Compression" (Value.unsignedShort [6]))
      "Exif.Thumbnail.JPEGInterchangeFormat" (Value.other 1 0 "0"))
    "Exif.Thumbnail.JPEGInterchangeFormatLength" (Value.other 1 (size : ℚ) (Nat.repr size))

namespace DkMetaDataT

/-- The function `DkMetaDataT::setThumbnail` (lines 868-908): the record after
the call, for the JPEG bytes `data` of the thumbnail.  The source edits a copy
of the EXIF sequence; when `setExifData` throws, the copy is dropped and the
exception is caught. -/
def setThumbnail (m : DkMetaDataT) (data : List Nat) : DkMetaDataT :=
  if m.mExifState = ExifState.not_loaded ∨ m.mExifState = ExifState.no_data then m
  else
    let exifData : List Metadatum := m.exifData
    let exifData : List Metadatum := if exifData.isEmpty then [] else exifData
    let exifData : List Metadatum := setJpegThumbnail (eraseThumb exifData) data.length
    if m.setExifDataThrows then m
    else { m with exifData := exifData, mExifState := ExifState.dirty }

end DkMetaDataT

/-! ## Sequences of operations -/

/-- The calls that can change a record once it exists, other than
`readMetaData`.  The remaining mutators of the class (`setResolution`,
`updateImageMetaData`, `saveMetaData` on a path) are sequences of these. -/
inductive Op where
  | setExifValue (codec : Codec) (key taginfo : String)
  | setDescription (codec : Codec) (description : String)
  | clearOrientation (codec : Codec)
  | setOrientation (o : Int)
  | setRating (r : Int)
  | setThumbnail (data : List Nat)
  | saveMetaData (ba : Option (List Nat)) (force : Bool) (run : SaveRun)

/-- The record after one call. -/
def Op.apply (m : DkMetaDataT) : Op → DkMetaDataT
  | Op.setExifValue codec key taginfo => (m.setExifValue codec key taginfo).1
  | Op.setDescription codec description => (m.setDescription codec description).1
  | Op.clearOrientation codec => m.clearOrientation codec
  | Op.setOrientation o => m.setOrientation o
  | Op.setRating r => m.setRating r
  | Op.setThumbnail data => m.setThumbnail data
  | Op.saveMetaData ba force run => (m.saveMetaData ba force run).1

/-- The record after a sequence of calls. -/
def Op.applyAll (m : DkMetaDataT) (ops : List Op) : DkMetaDataT :=
  ops.foldl Op.apply m

/-- A record in state NoData that still carries the tags of `Example.bothRated`. -/
def Example.noData : DkMetaDataT :=
  { Example.bothRated with mExifState := ExifState.no_data }

/-! ## Observations on EXIF lookups -/

/-- The entry stored under the key a key text stands for, when that tag is
present with a non-zero count. -/
def presentExif (codec : Codec) (data : List Metadatum) (keyText : String) : Option Metadatum :=
  match codec.exifKey keyText with
  | none => none
  | some k =>
    match findKey data k with
    | some pos => if pos.count ≠ 0 then some pos else none
    | none => none

/-- A codec that takes every key text as the key itself and rejects every
text it is asked about. -/
def Example.plainCodec : Codec :=
  { exifKey := fun key => some key
    iptcKey := fun key => some key
    create := fun _ => Value.unsignedShort []
    readOther := fun _ _ => none
    orientation_key := rfl
    orientation_short := rfl }

/-- A loaded record that holds one EXIF tag, with a value of another type
given by its count and its text. -/
def Example.oneTag (key : String) (count : Nat) (text : String) : DkMetaDataT :=
  { mExifState := ExifState.loaded,
    exifData := [{ key := key, value := some (Value.other count 0 text) }],
    xmpData := [] }

/-- A loaded record with `Exif.Image.Make` without components and
`Exif.Photo.Make` = "Canon". -/
def Example.photoMake : DkMetaDataT :=
  { mExifState := ExifState.loaded,
    exifData :=
      [{ key := "Exif.Image.Make", value := some (Value.other 0 0 "") },
       { key := "Exif.Photo.Make", value := some (Value.other 6 0 "Canon") }],
    xmpData := [] }

/-! ## Texts and paths -/

/-- The call `QString::split(sep)`: the parts between the separators, empty
parts included; a text without separator is its only part. -/
def splitChar (sep : Char) (cs : List Char) : List (List Char) :=
  cs.foldr
    (fun c acc =>
      if c = sep then [] :: acc
      else
        match acc with
        | [] => [[c]]
        | t :: ts => (c :: t) :: ts)
    [[]]

/-- The call `QString::left(n)`: the first n characters; the whole text when
n is negative or not less than its length. -/
def left (s : List Char) (n : Int) : List Char :=
  if n < 0 ∨ n ≥ s.length then s else s.take n.toNat

/-- The call `QFileInfo(path).suffix()`: the characters of the file name (the
part of the path after the last `/`) after its last dot; empty when the file
name has no dot. -/
def suffix (path : List Char) : List Char :=
  let fileName := (splitChar '/' path).getLastD []
  match splitChar '.' fileName with
  | [] => []
  | [_] => []
  | parts => parts.getLastD []

namespace DkMetaDataT

/-- The path of the sidecar file as `DkMetaDataT::getExternalXmp` computes it
(lines 1307-1312); the function then opens or creates that file. -/
def xmpFilePath (m : DkMetaDataT) : String :=
  let dir := m.mFilePath.toList
  let ext := suffix m.mFilePath.toList
  let xmpPath := left dir ((dir.length : Int) - (ext.length : Int) - 1)
  let xmpExt := ".xmp".toList
  String.mk (xmpPath ++ xmpExt)

end DkMetaDataT

/-- A record, not loaded yet, for a file path. -/
def Example.atPath (path : String) : DkMetaDataT :=
  { mExifState := ExifState.not_loaded, exifData := [], xmpData := [], mFilePath := path }

/-! ## The crop rectangle in the sidecar -/

/-- The function `DkMetaDataT::setXMPValue` (lines 1347-1376): the sequence
after the call and the value returned. -/
def setXMPValue (codec : Codec) (xmpData : List Metadatum) (xmpKey xmpValue : String) :
    List Metadatum × Bool :=
  if !xmpData.isEmpty then
    let addNew : List Metadatum × Bool :=
      match (Value.xmpText "").read codec xmpValue with
      | some v => (add xmpData xmpKey v, true)
      | none => (xmpData, false)
    match findKey xmpData xmpKey with
    | some pos =>
      if pos.count ≠ 0 then
        let res := pos.setValueText codec xmpValue
        (setValueFound xmpData xmpKey res.1, decide (res.2 = 0))
      else addNew
    | none => addNew
  else (xmpData, false)

/-- The eight `setXMPValue` calls of `DkMetaDataT::saveRectToXMP` (lines
1247-1258) on the sequence of the sidecar: the sequence afterwards and the
values the calls return, in their order.  The five texts come from the
rectangle by floating point arithmetic, which is not embedded. -/
def saveRectToXMP (codec : Codec) (sidecarXmpData : List Metadatum)
    (topStr leftStr bottomStr rightStr cropAngleStr : String) : List Metadatum × List Bool :=
  let r1 := setXMPValue codec sidecarXmpData "Xmp.crs.CropTop" topStr
  let r2 := setXMPValue codec r1.1 "Xmp.crs.CropLeft" leftStr
  let r3 := setXMPValue codec r2.1 "Xmp.crs.CropBottom" bottomStr
  let r4 := setXMPValue codec r3.1 "Xmp.crs.CropRight" rightStr
  let r5 := setXMPValue codec r4.1 "Xmp.crs.CropAngle" cropAngleStr
  let r6 := setXMPValue codec r5.1 "Xmp.crs.HasCrop" "True"
  let r7 := setXMPValue codec r6.1 "Xmp.crs.CropConstrainToWarp" "1"
  let r8 := setXMPValue codec r7.1 "Xmp.crs.crs:AlreadyApplied" "False"
  (r8.1, [r1.2, r2.2, r3.2, r4.2, r5.2, r6.2, r7.2, r8.2])

/-- Whether a sequence is ready for a replace-or-insert under a key: it holds
at most one entry under the key, and that entry carries a text value that is
not empty. -/
def textOrAbsent (data : List Metadatum) (key : String) : Bool :=
  decide (countKey data key ≤ 1) &&
    (match findKey data key with
     | none => true
     | some d =>
       match d.value with
       | some (Value.xmpText t) => decide (t.utf8ByteSize ≠ 0)
       | _ => false)

/-- A sequence of `setXMPValue` calls, one for each pair of a key and a text:
the sequence afterwards and the values the calls return. -/
def setXMPValues (codec : Codec) (xmpData : List Metadatum) :
    List (String × String) → List Metadatum × List Bool
  | [] => (xmpData, [])
  | kv :: rest =>
    let r := setXMPValue codec xmpData kv.1 kv.2
    let rr := setXMPValues codec r.1 rest
    (rr.1, r.2 :: rr.2)

/-- The keys and texts `saveRectToXMP` writes, in the order of the calls. -/
def cropEntries (topStr leftStr bottomStr rightStr cropAngleStr : String) :
    List (String × String) :=
  [("Xmp.crs.CropTop", topStr), ("Xmp.crs.CropLeft", leftStr),
   ("Xmp.crs.CropBottom", bottomStr), ("Xmp.crs.CropRight", rightStr),
   ("Xmp.crs.CropAngle", cropAngleStr), ("Xmp.crs.HasCrop", "True"),
   ("Xmp.crs.CropConstrainToWarp", "1"), ("Xmp.crs.crs:AlreadyApplied", "False")]

/-! ## Preview selection -/

/-- The conversion `(uint32_t)i` of an `int`. -/
def toUInt32 (i : Int) : Nat := (i % 4294967296).toNat

/-- The conversion of an unsigned 32 bit value to `int`. -/
def toInt32 (n : Nat) : Int :=
  if n % 4294967296 < 2147483648 then ((n % 4294967296 : Nat) : Int)
  else ((n % 4294967296 : Nat) : Int) - 4294967296

/-- The loop of `getPreviewImage` (lines 651-657) over the widths of the
previews from position `idx` on: the value of `mIdx` afterwards. -/
def previewLoop (minPreviewWidth : Int) : List Nat → Nat → Int → Int → Int
  | [], _, mIdx, _ => mIdx
  | width :: rest, idx, mIdx, maxWidth =>
    if width > toUInt32 maxWidth ∧ width > toUInt32 minPreviewWidth then
      previewLoop minPreviewWidth rest (idx + 1) (idx : Int) (toInt32 width)
    else previewLoop minPreviewWidth rest (idx + 1) mIdx maxWidth

namespace DkMetaDataT

/-- The function `DkMetaDataT::getPreviewImage` (lines 630-674) up to the
choice of the preview: the position of the preview whose image is loaded, for
the widths `pList` of the previews the codec lists; `none` when the empty
image is returned before a preview is chosen. -/
def getPreviewImage (m : DkMetaDataT) (pList : List Nat) (minPreviewWidth : Int) : Option Nat :=
  if m.mExifState ≠ ExifState.loaded ∧ m.mExifState ≠ ExifState.dirty then none
  else if m.exifData.isEmpty then none
  else
    let mIdx := previewLoop minPreviewWidth pList 0 (-1) 0
    if mIdx = -1 then none else some mIdx.toNat

end DkMetaDataT

/-! ## Coordinates and rationals -/

/-- A value of type `float`: a finite value, as the rational it stands for,
an infinity or NaN.  The conversions and the division below round their
results to binary32; the sign of a zero is not represented. -/
inductive FloatVal where
  | finite (q : ℚ)
  | posInf
  | negInf
  | nan
  deriving DecidableEq

namespace FloatVal

/-- The quotient `x / y` of two rationals, written on numerators and
denominators. -/
def quot (x y : ℚ) : ℚ := Rat.divInt (x.num * y.den) (y.num * x.den)

/-- The largest finite `float`, FLT_MAX = 2^128 - 2^104. -/
def fltMax : ℚ := mkRat 340282346638528859811704183484516925440 1

/-- The `float` nearest to a rational: the rational rounded to binary32, an
infinity when the rounded value is beyond FLT_MAX. -/
def ofRat (q : ℚ) : FloatVal :=
  if fltMax < binary32 q then posInf
  else if binary32 q < mkRat (-340282346638528859811704183484516925440) 1 then negInf
  else finite (binary32 q)

/-- The division `a / b` of two floats; the quotient of two finite values is
rounded to `float`. -/
def div : FloatVal → FloatVal → FloatVal
  | nan, _ => nan
  | _, nan => nan
  | finite x, finite y =>
    if y = 0 then (if x = 0 then nan else if 0 < x then posInf else negInf)
    else ofRat (quot x y)
  | finite _, posInf => finite 0
  | finite _, negInf => finite 0
  | posInf, finite y => if 0 ≤ y then posInf else negInf
  | negInf, finite y => if 0 ≤ y then negInf else posInf
  | posInf, posInf => nan
  | posInf, negInf => nan
  | negInf, posInf => nan
  | negInf, negInf => nan

/-- The comparison `v == 0`. -/
def isZero : FloatVal → Bool
  | finite q => decide (q = 0)
  | _ => false

/-- The comparison `v > 1`. -/
def gtOne : FloatVal → Bool
  | finite q => decide (1 < q)
  | posInf => true
  | _ => false

end FloatVal

/-- What the helper functions need from Qt and the compiler beyond decimal
numerals and finite values: the conversion `QString::toFloat` of the other
texts, the cast `(int)` of a value that `int` cannot hold, and the text
`QString::setNum` writes for an infinity or NaN. -/
structure QtText where
  /-- The value and the flag `ok` of `toFloat` for a text other than a decimal
  numeral within the range of `float`. -/
  toFloatOther : String → FloatVal × Bool
  /-- The result of the cast `(int)` for an infinity, NaN or a value outside
  the range of `int`. -/
  intOther : FloatVal → Int
  /-- The text of `setNum(v, 'f', 6)` for an infinity or NaN. -/
  fixedOther : FloatVal → String

/-- A decimal numeral: an optional sign, digits, and optionally a point
followed by digits. -/
def parseDecimal (cs : List Char) : Option ℚ :=
  let neg : Bool := match cs with
    | '-' :: _ => true
    | _ => false
  let body : List Char := match cs with
    | '-' :: r => r
    | '+' :: r => r
    | r => r
  match splitChar '.' body with
  | [ip] =>
    if ip = [] then none
    else match digitsValue 0 ip with
      | some a => some (mkRat (if neg then -(a : Int) else (a : Int)) 1)
      | none => none
  | [ip, fp] =>
    if ip = [] ∨ fp = [] then none
    else match digitsValue 0 ip, digitsValue 0 fp with
      | some a, some b =>
        some (mkRat (if neg then -((a * 10 ^ fp.length + b : Nat) : Int)
          else ((a * 10 ^ fp.length + b : Nat) : Int)) (10 ^ fp.length))
      | _, _ => none
  | _ => none

/-- The conversion `QString::toFloat(&ok)`: the value and the flag `ok`.  Qt
converts the text to `double` and the `double` to `float`: a decimal numeral
is rounded to binary64 and then to binary32, with `ok` set, when the `double`
is within the range of `float` and is 0 or gives a `float` other than 0; what
Qt does with a numeral out of that range and with any other text is given by
`qt`. -/
def toFloat (qt : QtText) (s : List Char) : FloatVal × Bool :=
  match parseDecimal s with
  | some q =>
    if mkRat (-340282346638528859811704183484516925440) 1 ≤ binary64 q
        ∧ binary64 q ≤ FloatVal.fltMax
        ∧ ((binary64 q).num = 0 ∨ (binary32 (binary64 q)).num ≠ 0) then
      (FloatVal.finite (binary32 (binary64 q)), true)
    else qt.toFloatOther (String.mk s)
  | none => qt.toFloatOther (String.mk s)

/-- The text `QString::setNum(int)` writes. -/
def intText (i : Int) : String :=
  if i < 0 then "-" ++ Nat.repr i.natAbs else Nat.repr i.natAbs

/-- The cast `(int)val` followed by `setNum`. -/
def setNumInt (qt : QtText) (v : FloatVal) : String :=
  match v with
  | FloatVal.finite q =>
    if -2147483648 ≤ toInt q ∧ toInt q < 2147483648 then intText (toInt q)
    else intText (qt.intOther v)
  | _ => intText (qt.intOther v)

/-- The text of a finite value with six digits after the point; a value half
way between two such texts is rounded away from zero. -/
def fixed6 (q : ℚ) : String :=
  let scaled : Nat := (2 * q.num.natAbs * 1000000 + q.den) / (2 * q.den)
  let frac : String := Nat.repr (scaled % 1000000)
  (if q < 0 then "-" else "") ++ Nat.repr (scaled / 1000000) ++ "."
    ++ String.mk (List.replicate (6 - frac.length) '0') ++ frac

/-- The text `QString::setNum(val, 'f', 6)` writes. -/
def setNumFixed (qt : QtText) (v : FloatVal) : String :=
  match v with
  | FloatVal.finite q => fixed6 q
  | _ => qt.fixedOther v

/-- The value of one coordinate entry `p0/p1` (lines 1630-1632): the two
parts converted, and divided unless the second is 0. -/
def gpsValue (qt : QtText) (p0 p1 : List Char) : FloatVal :=
  let val1 := (toFloat qt p0).1
  let val2 := (toFloat qt p1).1
  if !val2.isZero then val1.div val2 else val1

/-- The loop of `convertGpsCoordinates` (lines 1619-1651) from entry `i` on;
`deg` is the constant `dk_degree_str`. -/
def gpsLoop (qt : QtText) (deg : String) : List (List Char) → Nat → List String → List String
  | [], _, gpsInfo => gpsInfo
  | valS :: rest, i, gpsInfo =>
    match splitChar '/' valS with
    | [p0, p1] =>
      let val2 := (toFloat qt p1).1
      let val1 := gpsValue qt p0 p1
      let gpsInfo1 := if i = 0 then gpsInfo ++ [setNumInt qt val1 ++ deg] else gpsInfo
      let gpsInfo2 :=
        if i = 1 then
          gpsInfo1 ++ [(if val2.gtOne then setNumFixed qt val1 else setNumInt qt val1) ++ "'"]
        else gpsInfo1
      let gpsInfo3 :=
        if i = 2 then
          (if !val1.isZero then gpsInfo2 ++ [setNumFixed qt val1 ++ "''"] else gpsInfo2)
        else gpsInfo2
      gpsLoop qt deg rest (i + 1) gpsInfo3
    | _ => []

/-- The function `DkMetaDataHelper::convertGpsCoordinates` (lines 1614-1654). -/
def convertGpsCoordinates (qt : QtText) (deg : String) (coordString : String) : List String :=
  gpsLoop qt deg (splitChar ' ' coordString.toList) 0 []

/-- The function `DkMetaDataHelper::getGpsCoordinates` (lines 1579-1612). -/
def getGpsCoordinates (qt : QtText) (codec : Codec) (deg : String) (metaData : DkMetaDataT) :
    String :=
  if metaData.hasMetaData then
    let Lat := metaData.getNativeExifValue codec "Exif.GPSInfo.GPSLatitude"
    let LatRef := metaData.getNativeExifValue codec "Exif.GPSInfo.GPSLatitudeRef"
    let Lon := metaData.getNativeExifValue codec "Exif.GPSInfo.GPSLongitude"
    let LonRef := metaData.getNativeExifValue codec "Exif.GPSInfo.GPSLongitudeRef"
    let latStr := "+".intercalate (convertGpsCoordinates qt deg Lat)
    let lonStr := "+".intercalate (convertGpsCoordinates qt deg Lon)
    if latStr = "" ∨ lonStr = "" then ""
    else "http://maps.google.at/maps?q=" ++ ("+" ++ LatRef ++ "+" ++ latStr)
      ++ ("+" ++ LonRef ++ "+" ++ lonStr)
  else ""

/-- The function `DkMetaDataHelper::convertRational` (lines 1656-1672). -/
def convertRational (qt : QtText) (val : String) : FloatVal :=
  match splitChar '/' val.toList with
  | [s0, s1] =>
    let r0 := toFloat qt s0
    let r1 := toFloat qt s1
    let rVal := r0.1.div r1.1
    if !r0.2 ∨ !r1.2 then FloatVal.finite (-1) else rVal
  | _ => FloatVal.finite (-1)

/-- A conversion oracle that converts no other text, casts to 0 and writes
the text `inf`. -/
def Example.plainText : QtText :=
  { toFloatOther := fun _ => (FloatVal.finite 0, false), intOther := fun _ => 0,
    fixedOther := fun _ => "inf" }

/-- A loaded record with the four GPS tags. -/
def Example.located (lat latRef lon lonRef : String) : DkMetaDataT :=
  { mExifState := ExifState.loaded,
    exifData :=
      [{ key := "Exif.GPSInfo.GPSLatitudeRef", value := some (Value.other 2 0 latRef) },
       { key := "Exif.GPSInfo.GPSLatitude", value := some (Value.other 3 0 lat) },
       { key := "Exif.GPSInfo.GPSLongitudeRef", value := some (Value.other 2 0 lonRef) },
       { key := "Exif.GPSInfo.GPSLongitude", value := some (Value.other 3 0 lon) }],
    xmpData := [] }

/-! ## Camera data -/

/-- An integer numeral: an optional sign followed by digits. -/
def parseInteger (cs : List Char) : Option Int :=
  match cs with
  | '-' :: c :: r => (digitsValue 0 (c :: r)).map (fun n => -(n : Int))
  | '+' :: c :: r => (digitsValue 0 (c :: r)).map (fun n => (n : Int))
  | c :: r => (digitsValue 0 (c :: r)).map (fun n => (n : Int))
  | [] => none

/-- The conversion `QString::toInt()`: the value of an integer numeral that
fits `int`; 0 when the conversion fails.  What Qt makes of a text that is no
plain numeral is given by `intOther`. -/
def toIntText (intOther : String → Option Int) (s : List Char) : Int :=
  match parseInteger s with
  | some i => if -2147483648 ≤ i ∧ i ≤ 2147483647 then i else 0
  | none => (intOther (String.mk s)).getD 0

/-- The conversion `QString::toUInt()`: the value of a numeral without minus
sign that fits `unsigned int`; 0 when the conversion fails.  What Qt makes of
a text that is no plain numeral is given by `uintOther`. -/
def toUIntText (uintOther : String → Option Nat) (s : List Char) : Nat :=
  match parseInteger s with
  | some i => if 0 ≤ i ∧ i ≤ 4294967295 then i.toNat else 0
  | none => (uintOther (String.mk s)).getD 0

/-- Modelled from the spec: the helper `DkMath::gcd`, declared in `DkMath.h`,
which is not part of the sources.  The source calls it to "compute the gcd"
of denominator and numerator; it is taken as the greatest common divisor of
the two integers, which is 0 for two zeros and positive otherwise. -/
def gcd (a b : Int) : Int := (Int.gcd a b : Int)

/-- The list `mCamSearchTags` as `DkMetaDataHelper::init` fills it (lines
1407-1416). -/
def mCamSearchTags : List String :=
  ["ImageSize", "Orientation", "Make", "Model", "ApertureValue", "ISOSpeedRatings",
   "Flash", "FocalLength", "ExposureMode", "ExposureTime"]

/-- The body of `getExposureTime` after the tag text is fetched (lines
1520-1537).  `none` stands for a call that does not return: the integer
divisions of line 1529 with the divisor 0.  `stringify` is the helper
`DkUtils::stringify`, which is not part of the sources. -/
def exposureText (intOther : String → Option Int) (stringify : FloatVal → Nat → String)
    (value : String) : Option String :=
  match splitChar '/' value.toList with
  | [s0, s1] =>
    let nom := toIntText intOther s0
    let denom := toIntText intOther s1
    if nom ≤ denom then
      let g := gcd denom nom
      if g = 0 then none
      else some (intText (Int.tdiv nom g) ++ "/" ++ intText (Int.tdiv denom g) ++ " sec")
    else
      some (stringify ((FloatVal.ofRat (mkRat nom 1)).div (FloatVal.ofRat (mkRat denom 1))) 1
        ++ " sec")
  | _ => some value

/-- The function `DkMetaDataHelper::getExposureTime` (lines 1516-1538).  The
constant `DkSettings::camData_exposure_time` is an argument; `none` also
stands for an index outside the list. -/
def getExposureTime (codec : Codec) (intOther : String → Option Int)
    (stringify : FloatVal → Nat → String) (camData_exposure_time : Nat)
    (metaData : DkMetaDataT) : Option String :=
  match mCamSearchTags.get? camData_exposure_time with
  | none => none
  | some key => exposureText intOther stringify (metaData.getExifValue codec key)

/-- The call `QMap::insert`: the entries stay sorted by key, the value of a
key that is there already is replaced. -/
def mapInsert : List (Int × String) → Int → String → List (Int × String)
  | [], k, v => [(k, v)]
  | (k1, v1) :: rest, k, v =>
    if k < k1 then (k, v) :: (k1, v1) :: rest
    else if k = k1 then (k, v) :: rest
    else (k1, v1) :: mapInsert rest k v

/-- The call `QMap::operator[]` on a constant map: the value of the key, the
empty text when the key is not there. -/
def mapValue : List (Int × String) → Int → String
  | [], _ => ""
  | (k1, v1) :: rest, k => if k = k1 then v1 else mapValue rest k

/-- The call `QMap::first`: the value of the smallest key. -/
def mapFirst (m : List (Int × String)) : String :=
  match m with
  | [] => ""
  | (_, v) :: _ => v

/-- The map `mFlashModes` as `DkMetaDataHelper::init` fills it (lines
1451-1477); `tr` is the translation `QObject::tr`. -/
def mFlashModes (tr : String → String) : List (Int × String) :=
  [((0x0 : Int), "No Flash"),
   (0x1, "Fired"),
   (0x5, "Fired, Return not detected"),
   (0x7, "Fired, Return detected"),
   (0x8, "On, Did not fire"),
   (0x9, "On, Fired"),
   (0xd, "On, Return not detected"),
   (0xf, "On, Return detected"),
   (0x10, "Off, Did not fire"),
   (0x14, "Off, Did not fire, Return not detected"),
   (0x18, "Auto, Did not fire"),
   (0x19, "Auto, Fired"),
   (0x1d, "Auto, Fired, Return not detected"),
   (0x1f, "Auto, Fired, Return detected"),
   (0x20, "No flash function"),
   (0x30, "Off, No flash function"),
   (0x41, "Fired, Red-eye reduction"),
   (0x45, "Fired, Red-eye reduction, Return not detected"),
   (0x47, "Fired, Red-eye reduction, Return detected"),
   (0x49, "On, Red-eye reduction"),
   (0x4d, "On, Red-eye reduction, Return not detected"),
   (0x4f, "On, Red-eye reduction, Return detected"),
   (0x50, "Off, Red-eye reduction"),
   (0x58, "Auto, Did not fire, Red-eye reduction"),
   (0x59, "Auto, Fired, Red-eye reduction"),
   (0x5d, "Auto, Fired, Red-eye reduction, Return not detected"),
   (0x5f, "Auto, Fired, Red-eye reduction, Return detected")].foldl
    (fun m kv => mapInsert m kv.1 (tr kv.2)) []

/-- The body of `getFlashMode` after the tag text is fetched (lines
1556-1565). -/
def flashText (tr : String → String) (uintOther : String → Option Nat) (value : String) :
    String :=
  let mode : Nat := toUIntText uintOther value.toList
  if mode < (mFlashModes tr).length then mapValue (mFlashModes tr) (mode : Int)
  else mapFirst (mFlashModes tr)

/-- The function `DkMetaDataHelper::getFlashMode` (lines 1552-1566).  The
constant `DkSettings::camData_exposure_mode`, which the source uses for the
key, is an argument; `none` stands for an index outside the list. -/
def getFlashMode (codec : Codec) (tr : String → String) (uintOther : String → Option Nat)
    (camData_exposure_mode : Nat) (metaData : DkMetaDataT) : Option String :=
  match mCamSearchTags.get? camData_exposure_mode with
  | none => none
  | some key => some (flashText tr uintOther (metaData.getExifValue codec key))

/-- A `stringify` that writes no digits. -/
def Example.noDigits : FloatVal → Nat → String := fun _ _ => ""

/-! ## Lemmas on tag sequences -/

open DkMetaDataT

/-- The entry found under a key carries that key. -/
theorem findKey_key {d : List Metadatum} {k : String} {e : Metadatum}
    (h : findKey d k = some e) : e.key = k := by
  induction d with
  | nil => simp [findKey] at h
  | cons a ds ih =>
    unfold findKey at h
    by_cases hk : a.key = k
    · rw [if_pos hk] at h
      cases h
      exact hk
    · rw [if_neg hk] at h
      exact ih h

/-- Lookup in a concatenation: the first sequence is searched first. -/
theorem findKey_append (d e : List Metadatum) (k : String) :
    findKey (d ++ e) k = (findKey d k).orElse (fun _ => findKey e k) := by
  induction d with
  | nil => simp [findKey]
  | cons a ds ih =>
    by_cases hk : a.key = k
    · simp [findKey, hk]
    · simp [findKey, hk, ih]

/-- After the value of the found entry was set, the lookup yields that entry
with the new value. -/
theorem findKey_setValueFound_same (d : List Metadatum) (k : String) (v : Value) :
    findKey (setValueFound d k v) k
      = (findKey d k).map (fun e => { e with value := some v }) := by
  induction d with
  | nil => simp [findKey, setValueFound]
  | cons a ds ih =>
    by_cases hk : a.key = k
    · simp [findKey, setValueFound, hk]
    · simp [findKey, setValueFound, hk, ih]

/-- Setting the value under one key leaves the lookup of another key alone. -/
theorem findKey_setValueFound_other (d : List Metadatum) {k k2 : String} (v : Value)
    (hne : k2 ≠ k) : findKey (setValueFound d k v) k2 = findKey d k2 := by
  induction d with
  | nil => simp [findKey, setValueFound]
  | cons a ds ih =>
    by_cases hk : a.key = k
    · have hk2 : ¬ a.key = k2 := fun h => hne (h ▸ hk)
      simp [findKey, setValueFound, hk, hk2, Ne.symm hne]
    · by_cases hk2 : a.key = k2
      · simp only [setValueFound, if_neg hk, findKey, if_pos hk2]
      · simp only [setValueFound, if_neg hk, findKey, if_neg hk2, ih]

/-- After `data[key] = v` the lookup of `key` yields an entry holding `v`. -/
theorem findKey_assign_same (d : List Metadatum) (k : String) (v : Value) :
    findKey (assign d k v) k = some { key := k, value := some v } := by
  unfold assign
  rw [findKey_setValueFound_same]
  unfold subscript
  cases h : findKey d k with
  | none => simp [findKey_append, h, findKey]
  | some e => simp [h, findKey_key h]

/-- The assignment `data[key] = v` leaves the lookup of another key alone. -/
theorem findKey_assign_other (d : List Metadatum) {k k2 : String} (v : Value)
    (hne : k2 ≠ k) : findKey (assign d k v) k2 = findKey d k2 := by
  unfold assign
  rw [findKey_setValueFound_other _ _ hne]
  unfold subscript
  cases h : findKey d k with
  | none =>
    simp only [findKey_append, findKey, if_neg (Ne.symm hne)]
    cases findKey d k2 <;> rfl
  | some e => rfl

/-- A sequence is not empty after an assignment. -/
theorem assign_ne_nil (d : List Metadatum) (k : String) (v : Value) : assign d k v ≠ [] := by
  intro h
  have := findKey_assign_same d k v
  rw [h] at this
  simp [findKey] at this

/-- An appended entry is found when no earlier entry has its key. -/
theorem findKey_add_of_none {d : List Metadatum} {k : String} (v : Value)
    (h : findKey d k = none) : findKey (add d k v) k = some { key := k, value := some v } := by
  simp [add, findKey_append, h, findKey]

/-- Appending an entry leaves the lookup of another key alone. -/
theorem findKey_add_other (d : List Metadatum) {k k2 : String} (v : Value)
    (hne : k2 ≠ k) : findKey (add d k v) k2 = findKey d k2 := by
  simp only [add, findKey_append, findKey, if_neg (Ne.symm hne)]
  cases findKey d k2 <;> rfl

/-- A sequence in which a key is found is not empty. -/
theorem findKey_of_nil_isEmpty {d : List Metadatum} {k : String} {e : Metadatum}
    (h : findKey d k = some e) : d.isEmpty = false := by
  cases d with
  | nil => simp [findKey] at h
  | cons a ds => rfl

/-- Erasing the entry of one key leaves the lookup of another key alone. -/
theorem findKey_eraseFound_other (d : List Metadatum) {k k2 : String}
    (hne : k2 ≠ k) : findKey (eraseFound d k) k2 = findKey d k2 := by
  induction d with
  | nil => rfl
  | cons a ds ih =>
    by_cases hk : a.key = k
    · have hk2 : ¬ a.key = k2 := fun h => hne (h ▸ hk)
      simp only [eraseFound, if_pos hk, findKey, if_neg hk2]
    · by_cases hk2 : a.key = k2
      · simp only [eraseFound, if_neg hk, findKey, if_pos hk2]
      · simp only [eraseFound, if_neg hk, findKey, if_neg hk2, ih]

/-- A key without entries is not found. -/
theorem findKey_eq_none_of_countKey_zero (d : List Metadatum) (k : String)
    (h : countKey d k = 0) : findKey d k = none := by
  induction d with
  | nil => rfl
  | cons a ds ih =>
    by_cases hk : a.key = k
    · simp [countKey, hk] at h
    · have h2 : countKey ds k = 0 := by simpa [countKey, hk] using h
      simp only [findKey, if_neg hk, ih h2]

/-- Erasing the found entry removes the key when it had at most one entry. -/
theorem findKey_eraseFound_same (d : List Metadatum) (k : String)
    (h : countKey d k ≤ 1) : findKey (eraseFound d k) k = none := by
  induction d with
  | nil => rfl
  | cons a ds ih =>
    by_cases hk : a.key = k
    · have h2 : countKey ds k = 0 := by
        simp [countKey, hk] at h
        simpa [countKey] using h
      simp only [eraseFound, if_pos hk]
      exact findKey_eq_none_of_countKey_zero ds k h2
    · have h2 : countKey ds k ≤ 1 := by simpa [countKey, hk] using h
      simp only [eraseFound, if_neg hk, findKey, ih h2]

/-- Erasing the entry of one key keeps the number of entries of another. -/
theorem countKey_eraseFound_other (d : List Metadatum) {k k2 : String}
    (hne : k2 ≠ k) : countKey (eraseFound d k) k2 = countKey d k2 := by
  induction d with
  | nil => rfl
  | cons a ds ih =>
    by_cases hk : a.key = k
    · have hk2 : ¬ a.key = k2 := fun h => hne (h ▸ hk)
      simp [eraseFound, hk, countKey, hk2, Ne.symm hne]
    · by_cases hk2 : a.key = k2
      · have := ih
        simp only [countKey] at this
        simp only [eraseFound, if_neg hk, countKey]
        simp [List.filter_cons, hk2, this]
      · have := ih
        simp only [countKey] at this
        simp only [eraseFound, if_neg hk, countKey]
        simp [List.filter_cons, hk2, this]

/-- The EXIF sequence after an effective `setRating(r)` with r in 1..5. -/
theorem setRating_exifData_of_pos (m : DkMetaDataT) (r : Int)
    (hs : m.mExifState = ExifState.loaded ∨ m.mExifState = ExifState.dirty)
    (hr : 1 ≤ r ∧ r ≤ 5) (hne : m.getRating ≠ r) :
    (m.setRating r).exifData
      = assign (assign m.exifData "Exif.Image.Rating" (Value.unsignedShort [r.toNat]))
          "Exif.Image.RatingPercent" (Value.unsignedShort [r.toNat]) := by
  have hcases : r = 1 ∨ r = 2 ∨ r = 3 ∨ r = 4 ∨ r = 5 := by omega
  rcases hcases with h | h | h | h | h <;> subst h <;>
    rcases hs with h | h <;> simp [setRating, h, hne, toUInt16]

/-- The XMP sequence after an effective `setRating(r)` with r in 1..5. -/
theorem setRating_xmpData_of_pos (m : DkMetaDataT) (r : Int)
    (hs : m.mExifState = ExifState.loaded ∨ m.mExifState = ExifState.dirty)
    (hr : 1 ≤ r ∧ r ≤ 5) (hne : m.getRating ≠ r) :
    (m.setRating r).xmpData
      = add (add m.xmpData "Xmp.xmp.Rating" (Value.xmpText (Nat.repr r.toNat)))
          "Xmp.MicrosoftPhoto.Rating" (Value.xmpText (Nat.repr (Spec.percentOfRating r))) := by
  have hcases : r = 1 ∨ r = 2 ∨ r = 3 ∨ r = 4 ∨ r = 5 := by omega
  have e1 : Nat.repr 1 = "1" := by decide
  have e2 : Nat.repr 2 = "2" := by decide
  have e3 : Nat.repr 3 = "3" := by decide
  have e4 : Nat.repr 4 = "4" := by decide
  have e5 : Nat.repr 5 = "5" := by decide
  have e25 : Nat.repr 25 = "25" := by decide
  have e50 : Nat.repr 50 = "50" := by decide
  have e75 : Nat.repr 75 = "75" := by decide
  have e99 : Nat.repr 99 = "99" := by decide
  rcases hcases with h | h | h | h | h <;> subst h <;>
    rcases hs with h | h <;>
    simp [setRating, h, hne, Spec.percentOfRating, e1, e2, e3, e4, e5, e25, e50, e75, e99]

/-- A record in state Loaded or Dirty stays in one of these states. -/
theorem setRating_state (m : DkMetaDataT) (r : Int)
    (hs : m.mExifState = ExifState.loaded ∨ m.mExifState = ExifState.dirty) :
    (m.setRating r).mExifState = ExifState.loaded ∨ (m.setRating r).mExifState = ExifState.dirty := by
  unfold setRating
  split_ifs <;> simp_all

/-- Rounding leaves the integers 0..5 as they are. -/
theorem qRound_small (n : Nat) (h : n ≤ 5) : qRound (n : ℚ) = (n : Int) := by
  interval_cases n <;> decide

/-- The float of an unsigned value is never the sentinel -1. -/
theorem natCast_ne_neg_one (n : Nat) : (n : ℚ) ≠ -1 := by
  intro h
  have h0 : (0 : ℚ) ≤ (n : ℚ) := Nat.cast_nonneg n
  rw [h] at h0
  norm_num at h0

/-- A short value under `Exif.Image.Rating` decides `getRating()`, whatever
the XMP tags hold. -/
theorem getRating_of_exif_short (m : DkMetaDataT) (n : Nat)
    (hs : m.mExifState = ExifState.loaded ∨ m.mExifState = ExifState.dirty)
    (h : findKey m.exifData "Exif.Image.Rating"
      = some { key := "Exif.Image.Rating", value := some (Value.unsignedShort [n]) }) :
    m.getRating = qRound (n : ℚ) := by
  have hne := natCast_ne_neg_one n
  have hempty := findKey_of_nil_isEmpty h
  have hread : readRating m.exifData "Exif.Image.Rating" (-1) = (n : ℚ) := by
    simp [readRating, h, Metadatum.count, Metadatum.toFloat, Value.count, Value.toFloat]
  unfold getRating
  rcases hs with hs | hs <;> simp [hs, hempty, hread, hne]

/-! ## The rounding function -/

/-- Truncating integer division is the truncation of the quotient. -/
theorem tdiv_natCast_eq_truncQ (a : Int) (b : Nat) (hb : 0 < b) :
    Int.tdiv a (b : Int) = truncQ ((a : ℚ) / (b : ℚ)) := by
  have hbq : (0 : ℚ) < (b : ℚ) := by exact_mod_cast hb
  unfold truncQ
  by_cases ha : 0 ≤ a
  · have hq : (0 : ℚ) ≤ (a : ℚ) / (b : ℚ) := div_nonneg (by exact_mod_cast ha) hbq.le
    rw [if_pos hq, Rat.floor_intCast_div_natCast]
    exact Int.tdiv_eq_ediv ha (by exact_mod_cast hb.le)
  · have ha2 : a < 0 := lt_of_not_ge ha
    have hq : ¬ (0 : ℚ) ≤ (a : ℚ) / (b : ℚ) := by
      rw [not_le]
      exact div_neg_of_neg_of_pos (by exact_mod_cast ha2) hbq
    rw [if_neg hq]
    have h1 : (a : ℚ) / (b : ℚ) = -(((-a : Int) : ℚ) / (b : ℚ)) := by
      push_cast; ring
    rw [h1, Int.ceil_neg, Rat.floor_intCast_div_natCast]
    have h2 : Int.tdiv (-a) (b : Int) = (-a) / (b : Int) :=
      Int.tdiv_eq_ediv (by omega) (by exact_mod_cast hb.le)
    rw [← h2, Int.neg_tdiv, neg_neg]

/-- The two branches of `qRound` for a rational given as a fraction. -/
theorem qRound_aux (d : ℚ) (n : Int) (b : Nat) (hb : 0 < b) (hd : (n : ℚ) / (b : ℚ) = d) :
    (if 0 ≤ d then Int.tdiv (2 * n + b) (2 * b)
      else Int.tdiv (2 * (n - Int.tdiv (n - b) b * b) + b) (2 * b) + Int.tdiv (n - b) b)
      = if 0 ≤ d then truncQ (d + 1 / 2)
        else truncQ (d - (truncQ (d - 1) : ℚ) + 1 / 2) + truncQ (d - 1) := by
  have hbq : ((b : Nat) : ℚ) ≠ 0 := by exact_mod_cast hb.ne'
  have h2b : (2 * (b : Int)) = ((2 * b : Nat) : Int) := by push_cast; ring
  have hk : Int.tdiv (n - b) b = truncQ (d - 1) := by
    rw [tdiv_natCast_eq_truncQ _ _ hb]
    congr 1
    rw [← hd]
    push_cast
    field_simp
  by_cases h0 : 0 ≤ d
  · rw [if_pos h0, if_pos h0, h2b, tdiv_natCast_eq_truncQ _ _ (by omega)]
    congr 1
    rw [← hd]
    push_cast
    field_simp
    ring
  · rw [if_neg h0, if_neg h0, hk, h2b, tdiv_natCast_eq_truncQ _ _ (by omega)]
    congr 2
    rw [← hd]
    push_cast
    field_simp
    ring

/-- The embedded `qRound` is Qt's expression
`d >= 0 ? int(d + 0.5) : int(d - int(d - 1) + 0.5) + int(d - 1)` evaluated
on rationals. -/
theorem qRound_eq_qt_expression (d : ℚ) :
    qRound d = if 0 ≤ d then truncQ (d + 1 / 2)
      else truncQ (d - (truncQ (d - 1) : ℚ) + 1 / 2) + truncQ (d - 1) :=
  qRound_aux d d.num d.den d.den_pos (Rat.num_div_den d)

/-! ## Rating: writing -/

/-- C1 (counterexample): the claim fails on loaded records.  A record rated 3
only through `Xmp.xmp.Rating` is left untouched by `setRating(3)`, because
`getRating()` already returns 3, so `Exif.Image.Rating` is still absent; and on
the unrated record `setRating(5)` stores 5, not 99, in
`Exif.Image.RatingPercent`. -/
theorem setRating_exif_tags_counterexample :
    ((Example.xmpRated "3").mExifState = ExifState.loaded
      ∧ findKey ((Example.xmpRated "3").setRating 3).exifData "Exif.Image.Rating" = none)
    ∧ (Example.unrated.mExifState = ExifState.loaded
      ∧ findKey (Example.unrated.setRating 5).exifData "Exif.Image.RatingPercent"
          = some { key := "Exif.Image.RatingPercent", value := some (Value.unsignedShort [5]) }
      ∧ findKey (Example.unrated.setRating 5).exifData "Exif.Image.RatingPercent"
          ≠ some { key := "Exif.Image.RatingPercent", value := some (Value.unsignedShort [99]) }) := by
  decide

/-- C1 (amended): for every record in state Loaded or Dirty and every r in
1..5 that differs from the record's current `getRating()`, after
`setRating(r)` the tag `Exif.Image.Rating` holds the short value r. -/
theorem setRating_exif_rating_of_changed (m : DkMetaDataT) (r : Int)
    (hs : m.mExifState = ExifState.loaded ∨ m.mExifState = ExifState.dirty)
    (hr : 1 ≤ r ∧ r ≤ 5) (hne : m.getRating ≠ r) :
    findKey (m.setRating r).exifData "Exif.Image.Rating"
      = some { key := "Exif.Image.Rating", value := some (Value.unsignedShort [r.toNat]) } := by
  rw [setRating_exifData_of_pos m r hs hr hne,
    findKey_assign_other _ _ (by decide), findKey_assign_same]

/-- C1 (witness): the amended claim at the unrated record and r = 5. -/
theorem setRating_exif_rating_of_changed_witness :
    findKey (Example.unrated.setRating 5).exifData "Exif.Image.Rating"
      = some { key := "Exif.Image.Rating", value := some (Value.unsignedShort [5]) } :=
  setRating_exif_rating_of_changed Example.unrated 5 (Or.inl rfl) (by decide) (by decide)

/-- C2 (counterexample): the claim fails on loaded records.  A record rated 3
only through `Exif.Image.Rating` is left untouched by `setRating(3)`, so
`Xmp.xmp.Rating` reads as the empty text; and on a record that holds
`Xmp.xmp.Rating` = "2", `setRating(4)` appends a second entry and the read
still yields "2". -/
theorem setRating_xmp_tags_counterexample :
    ((Example.exifRated 3).mExifState = ExifState.loaded
      ∧ ((Example.exifRated 3).setRating 3).getXmpValue "Xmp.xmp.Rating" = "")
    ∧ ((Example.xmpRated "2").mExifState = ExifState.loaded
      ∧ ((Example.xmpRated "2").setRating 4).getXmpValue "Xmp.xmp.Rating" = "2") := by
  decide

/-- C2 (amended): for every record in state Loaded or Dirty that holds no
entry under `Xmp.xmp.Rating` and none under `Xmp.MicrosoftPhoto.Rating`, and
every r in 1..5 that differs from the record's current `getRating()`, after
`setRating(r)` reading `Xmp.xmp.Rating` with `getXmpValue` yields the decimal
text of r and reading `Xmp.MicrosoftPhoto.Rating` yields the text of the
percent mapping of r. -/
theorem setRating_xmp_rating_of_fresh (m : DkMetaDataT) (r : Int)
    (hs : m.mExifState = ExifState.loaded ∨ m.mExifState = ExifState.dirty)
    (hr : 1 ≤ r ∧ r ≤ 5) (hne : m.getRating ≠ r)
    (hx : findKey m.xmpData "Xmp.xmp.Rating" = none)
    (hv : findKey m.xmpData "Xmp.MicrosoftPhoto.Rating" = none) :
    (m.setRating r).getXmpValue "Xmp.xmp.Rating" = Nat.repr r.toNat
      ∧ (m.setRating r).getXmpValue "Xmp.MicrosoftPhoto.Rating"
          = Nat.repr (Spec.percentOfRating r) := by
  have hst := setRating_state m r hs
  have hxmp := setRating_xmpData_of_pos m r hs hr hne
  have h1 : findKey (m.setRating r).xmpData "Xmp.xmp.Rating"
      = some { key := "Xmp.xmp.Rating", value := some (Value.xmpText (Nat.repr r.toNat)) } := by
    rw [hxmp, findKey_add_other _ _ (by decide), findKey_add_of_none _ hx]
  have h2 : findKey (m.setRating r).xmpData "Xmp.MicrosoftPhoto.Rating"
      = some { key := "Xmp.MicrosoftPhoto.Rating",
               value := some (Value.xmpText (Nat.repr (Spec.percentOfRating r))) } := by
    rw [hxmp]
    apply findKey_add_of_none
    rw [findKey_add_other _ _ (by decide)]
    exact hv
  have hempty := findKey_of_nil_isEmpty h1
  have hcases : r = 1 ∨ r = 2 ∨ r = 3 ∨ r = 4 ∨ r = 5 := by omega
  unfold getXmpValue
  rw [h1, h2, hempty]
  rcases hcases with h | h | h | h | h <;> subst h <;>
    rcases hst with hst | hst <;> rw [hst] <;> decide

/-- C2 (witness): the amended claim at the unrated record and r = 5. -/
theorem setRating_xmp_rating_of_fresh_witness :
    (Example.unrated.setRating 5).getXmpValue "Xmp.xmp.Rating" = "5"
      ∧ (Example.unrated.setRating 5).getXmpValue "Xmp.MicrosoftPhoto.Rating" = "99" :=
  setRating_xmp_rating_of_fresh Example.unrated 5 (Or.inl rfl) (by decide) (by decide)
    (by decide) (by decide)

/-- C3: for every record in state Loaded or Dirty and every r in 1..5,
`getRating()` called after `setRating(r)` returns r. -/
theorem getRating_setRating (m : DkMetaDataT) (r : Int)
    (hs : m.mExifState = ExifState.loaded ∨ m.mExifState = ExifState.dirty)
    (hr : 1 ≤ r ∧ r ≤ 5) : (m.setRating r).getRating = r := by
  by_cases hne : m.getRating = r
  · have hsame : m.setRating r = m := by simp [setRating, hne]
    rw [hsame, hne]
  · have hfind : findKey (m.setRating r).exifData "Exif.Image.Rating"
        = some { key := "Exif.Image.Rating", value := some (Value.unsignedShort [r.toNat]) } := by
      rw [setRating_exifData_of_pos m r hs hr hne,
        findKey_assign_other _ _ (by decide), findKey_assign_same]
    rw [getRating_of_exif_short _ _ (setRating_state m r hs) hfind,
      qRound_small _ (by omega)]
    omega

/-- C3 (witness): the round trip on a record that already carries another
rating in both namespaces. -/
theorem getRating_setRating_witness :
    ((Example.unrated.setRating 2).setRating 4).getRating = 4 :=
  getRating_setRating (Example.unrated.setRating 2) 4 (Or.inr (by decide)) (by decide)

/-! ## Rating: clearing and reading -/

/-- The EXIF sequence after an effective `setRating(0)`. -/
theorem setRating_zero_exifData (m : DkMetaDataT)
    (hs : m.mExifState = ExifState.loaded ∨ m.mExifState = ExifState.dirty)
    (hne : m.getRating ≠ 0) :
    (m.setRating 0).exifData
      = eraseFound (eraseFound m.exifData "Exif.Image.Rating") "Exif.Image.RatingPercent" := by
  rcases hs with h | h <;> simp [setRating, h, hne]

/-- The XMP sequence after an effective `setRating(0)`. -/
theorem setRating_zero_xmpData (m : DkMetaDataT)
    (hs : m.mExifState = ExifState.loaded ∨ m.mExifState = ExifState.dirty)
    (hne : m.getRating ≠ 0) :
    (m.setRating 0).xmpData
      = eraseFound (eraseFound m.xmpData "Xmp.xmp.Rating") "Xmp.MicrosoftPhoto.Rating" := by
  rcases hs with h | h <;> simp [setRating, h, hne]

/-- The read block keeps `x` when the key is not found. -/
theorem readRating_of_none {data : List Metadatum} {key : String} (x : ℚ)
    (h : findKey data key = none) : readRating data key x = x := by
  simp [readRating, h]

/-- Without any of the three rating tags `getRating()` returns -1. -/
theorem getRating_of_absent (m : DkMetaDataT)
    (hs : m.mExifState = ExifState.loaded ∨ m.mExifState = ExifState.dirty)
    (he : findKey m.exifData "Exif.Image.Rating" = none)
    (hx : findKey m.xmpData "Xmp.xmp.Rating" = none)
    (hv : findKey m.xmpData "Xmp.MicrosoftPhoto.Rating" = none) :
    m.getRating = -1 := by
  have hq : qRound (-1) = -1 := by decide
  unfold getRating
  rcases hs with hs | hs <;>
    simp [hs, readRating_of_none _ he, readRating_of_none _ hx, readRating_of_none _ hv, hq]

/-- C4 (counterexample): the claim fails on loaded records.  On a record
whose `Exif.Image.Rating` holds 0, `setRating(0)` returns at once because
`getRating()` is already 0: the tag stays and `getRating()` still returns 0.
And on a record rated 5 and then 3 by `setRating`, which appended a second
pair of XMP entries, `setRating(0)` erases one entry per key only:
`Xmp.xmp.Rating` is still present and `getRating()` returns 3. -/
theorem setRating_zero_counterexample :
    ((Example.exifRated 0).mExifState = ExifState.loaded
      ∧ findKey ((Example.exifRated 0).setRating 0).exifData "Exif.Image.Rating"
          = some { key := "Exif.Image.Rating", value := some (Value.unsignedShort [0]) }
      ∧ ((Example.exifRated 0).setRating 0).getRating = 0)
    ∧ (((Example.unrated.setRating 5).setRating 3).mExifState = ExifState.dirty
      ∧ findKey (((Example.unrated.setRating 5).setRating 3).setRating 0).xmpData "Xmp.xmp.Rating"
          = some { key := "Xmp.xmp.Rating", value := some (Value.xmpText "3") }
      ∧ (((Example.unrated.setRating 5).setRating 3).setRating 0).getRating = 3) := by
  decide

/-- C4 (amended): for every record in state Loaded or Dirty whose current
`getRating()` is not 0 and which holds at most one entry under each of the
four keys, after `setRating(0)` none of the tags `Exif.Image.Rating`,
`Exif.Image.RatingPercent`, `Xmp.xmp.Rating`, `Xmp.MicrosoftPhoto.Rating` is
present and `getRating()` returns -1. -/
theorem setRating_zero_clears (m : DkMetaDataT)
    (hs : m.mExifState = ExifState.loaded ∨ m.mExifState = ExifState.dirty)
    (hne : m.getRating ≠ 0)
    (h1 : countKey m.exifData "Exif.Image.Rating" ≤ 1)
    (h2 : countKey m.exifData "Exif.Image.RatingPercent" ≤ 1)
    (h3 : countKey m.xmpData "Xmp.xmp.Rating" ≤ 1)
    (h4 : countKey m.xmpData "Xmp.MicrosoftPhoto.Rating" ≤ 1) :
    findKey (m.setRating 0).exifData "Exif.Image.Rating" = none
      ∧ findKey (m.setRating 0).exifData "Exif.Image.RatingPercent" = none
      ∧ findKey (m.setRating 0).xmpData "Xmp.xmp.Rating" = none
      ∧ findKey (m.setRating 0).xmpData "Xmp.MicrosoftPhoto.Rating" = none
      ∧ (m.setRating 0).getRating = -1 := by
  have e1 : findKey (m.setRating 0).exifData "Exif.Image.Rating" = none := by
    rw [setRating_zero_exifData m hs hne, findKey_eraseFound_other _ (by decide)]
    exact findKey_eraseFound_same _ _ h1
  have e2 : findKey (m.setRating 0).exifData "Exif.Image.RatingPercent" = none := by
    rw [setRating_zero_exifData m hs hne]
    apply findKey_eraseFound_same
    rw [countKey_eraseFound_other _ (by decide)]
    exact h2
  have e3 : findKey (m.setRating 0).xmpData "Xmp.xmp.Rating" = none := by
    rw [setRating_zero_xmpData m hs hne, findKey_eraseFound_other _ (by decide)]
    exact findKey_eraseFound_same _ _ h3
  have e4 : findKey (m.setRating 0).xmpData "Xmp.MicrosoftPhoto.Rating" = none := by
    rw [setRating_zero_xmpData m hs hne]
    apply findKey_eraseFound_same
    rw [countKey_eraseFound_other _ (by decide)]
    exact h4
  exact ⟨e1, e2, e3, e4, getRating_of_absent _ (setRating_state m 0 hs) e1 e3 e4⟩

/-- C4 (witness): the amended claim at the record that `setRating(4)` leaves
behind on the unrated record. -/
theorem setRating_zero_clears_witness :
    findKey ((Example.unrated.setRating 4).setRating 0).exifData "Exif.Image.Rating" = none
      ∧ findKey ((Example.unrated.setRating 4).setRating 0).exifData
          "Exif.Image.RatingPercent" = none
      ∧ findKey ((Example.unrated.setRating 4).setRating 0).xmpData "Xmp.xmp.Rating" = none
      ∧ findKey ((Example.unrated.setRating 4).setRating 0).xmpData
          "Xmp.MicrosoftPhoto.Rating" = none
      ∧ ((Example.unrated.setRating 4).setRating 0).getRating = -1 :=
  setRating_zero_clears (Example.unrated.setRating 4) (Or.inr (by decide)) (by decide)
    (by decide) (by decide) (by decide) (by decide)

/-- C6 (failing input): a loaded record whose only rating tag is
`Xmp.MicrosoftPhoto.Rating` = "75", the text `setRating(4)` writes there, is
in the documented range of the vendor tag, and `getRating()` returns the
percent value 75 itself, which is neither -1 nor in 0..5. -/
theorem getRating_vendor_only_returns_percent :
    (Example.vendorRated "75").mExifState = ExifState.loaded
      ∧ findKey (Example.unrated.setRating 4).xmpData "Xmp.MicrosoftPhoto.Rating"
          = findKey (Example.vendorRated "75").xmpData "Xmp.MicrosoftPhoto.Rating"
      ∧ (Example.vendorRated "75").getRating = 75
      ∧ ¬ ((Example.vendorRated "75").getRating = -1
          ∨ (0 ≤ (Example.vendorRated "75").getRating
              ∧ (Example.vendorRated "75").getRating ≤ 5)) := by
  decide

/-! ## Orientation: rotation -/

/-- A stored orientation code comes from a short value found under the
orientation key. -/
theorem storedOrientation_eq_some {m : DkMetaDataT} {c : Nat}
    (h : storedOrientation m = some c) :
    ∃ rest, findKey m.exifData "Exif.Image.Orientation"
      = some { key := "Exif.Image.Orientation",
               value := some (Value.unsignedShort (c :: rest)) } := by
  unfold storedOrientation at h
  cases hf : findKey m.exifData "Exif.Image.Orientation" with
  | none => simp [hf] at h
  | some d =>
    have hk := findKey_key hf
    obtain ⟨k, v⟩ := d
    simp only at hk
    subst hk
    cases v with
    | none => simp [hf] at h
    | some v =>
      cases v with
      | unsignedShort vs =>
        cases vs with
        | nil => simp [hf] at h
        | cons a rest =>
          simp [hf] at h
          subst h
          exact ⟨rest, rfl⟩
      | xmpText s => simp [hf] at h
      | other a b c => simp [hf] at h

/-- The code stored after `setOrientation(o)` on a record in state Loaded or
Dirty that stores the code c: the result of the switch on the normalised
code. -/
theorem setOrientation_stored (m : DkMetaDataT) (o : Int) (c : Nat)
    (hs : m.mExifState = ExifState.loaded ∨ m.mExifState = ExifState.dirty)
    (ho : o = 0 ∨ o = 90 ∨ o = -90 ∨ o = 180)
    (hc : storedOrientation m = some c) :
    storedOrientation (m.setOrientation o)
        = some (toUInt16 (rotatedCode (if (c : Int) ≤ 0 ∨ (c : Int) > 8 then 1 else (c : Int)) o))
      ∧ ((m.setOrientation o).mExifState = ExifState.loaded
          ∨ (m.setOrientation o).mExifState = ExifState.dirty) := by
  obtain ⟨rest, hf⟩ := storedOrientation_eq_some hc
  have hempty := findKey_of_nil_isEmpty hf
  have hstate : ¬ (m.mExifState = ExifState.not_loaded ∨ m.mExifState = ExifState.no_data) := by
    rcases hs with h | h <;> simp [h]
  have hguard : ¬ (o ≠ 90 ∧ o ≠ -90 ∧ o ≠ 180 ∧ o ≠ 0 ∧ o ≠ 270) := by
    rcases ho with h | h | h | h <;> subst h <;> decide
  have ho1 : (if o = -180 then (180 : Int) else o) = o := by
    rcases ho with h | h | h | h <;> subst h <;> decide
  have ho2 : (if o = 270 then (-90 : Int) else o) = o := by
    rcases ho with h | h | h | h <;> subst h <;> decide
  have hcount : Metadatum.count (Metadatum.mk "Exif.Image.Orientation"
      (some (Value.unsignedShort (c :: rest)))) ≠ 0 := by
    simp [Metadatum.count, Value.count]
  unfold setOrientation
  rw [if_neg hstate, if_neg hguard]
  simp only [ho1, ho2, hempty, Bool.false_eq_true, if_false, hf, hcount]
  constructor
  · unfold storedOrientation
    simp only [findKey_setValueFound_same, hf, Option.map_some']
  · by_cases ht : m.setExifDataThrows = true
    · simp [ht, hs]
    · simp [ht]

/-- In the states NotLoaded and NoData `setOrientation` changes nothing. -/
theorem setOrientation_of_unloaded (m : DkMetaDataT) (o : Int)
    (hs : ¬ (m.mExifState = ExifState.loaded ∨ m.mExifState = ExifState.dirty)) :
    m.setOrientation o = m := by
  have h : m.mExifState = ExifState.not_loaded ∨ m.mExifState = ExifState.no_data := by
    cases hm : m.mExifState <;> simp_all
  unfold setOrientation
  rw [if_pos h]

/-- C7: for every record that stores an orientation code c in 1..8 and all
deltas d1, d2 in {0, 90, -90, 180}, the code stored after `setOrientation(d1)`
followed by `setOrientation(d2)` equals the code stored after one
`setOrientation` of their sum reduced modulo 360 into {0, 90, -90, 180}. -/
theorem setOrientation_compose (m : DkMetaDataT) (c : Nat) (d1 d2 : Int)
    (hc : storedOrientation m = some c) (hc8 : 1 ≤ c ∧ c ≤ 8)
    (h1 : d1 = 0 ∨ d1 = 90 ∨ d1 = -90 ∨ d1 = 180)
    (h2 : d2 = 0 ∨ d2 = 90 ∨ d2 = -90 ∨ d2 = 180) :
    storedOrientation ((m.setOrientation d1).setOrientation d2)
      = storedOrientation (m.setOrientation (Spec.reduceDelta (d1 + d2))) := by
  by_cases hs : m.mExifState = ExifState.loaded ∨ m.mExifState = ExifState.dirty
  swap
  · simp only [setOrientation_of_unloaded m _ hs]
  obtain ⟨s1, st1⟩ := setOrientation_stored m d1 c hs h1 hc
  obtain ⟨s2, _⟩ := setOrientation_stored (m.setOrientation d1) d2 _ st1 h2 s1
  have hred : Spec.reduceDelta (d1 + d2) = 0 ∨ Spec.reduceDelta (d1 + d2) = 90
      ∨ Spec.reduceDelta (d1 + d2) = -90 ∨ Spec.reduceDelta (d1 + d2) = 180 := by
    rcases h1 with h | h | h | h <;> rcases h2 with h' | h' | h' | h' <;>
      subst h <;> subst h' <;> decide
  obtain ⟨s3, _⟩ := setOrientation_stored m _ c hs hred hc
  rw [s2, s3]
  obtain ⟨hlo, hhi⟩ := hc8
  interval_cases c <;> rcases h1 with h | h | h | h <;> rcases h2 with h' | h' | h' | h' <;>
    subst h <;> subst h' <;> decide

/-- C7 (witness): from the stored code 6, two rotations by 90 give 3 and then
8, and one rotation by 180 gives 8. -/
theorem setOrientation_compose_witness :
    storedOrientation ((Example.oriented 6).setOrientation 90) = some 3
      ∧ storedOrientation (((Example.oriented 6).setOrientation 90).setOrientation 90) = some 8
      ∧ storedOrientation ((Example.oriented 6).setOrientation 180) = some 8
      ∧ storedOrientation (((Example.oriented 6).setOrientation 90).setOrientation 90)
          = storedOrientation ((Example.oriented 6).setOrientation (Spec.reduceDelta (90 + 90))) :=
  ⟨by decide, by decide, by decide,
    setOrientation_compose (Example.oriented 6) 6 90 90 (by decide) (by decide)
      (by decide) (by decide)⟩

/-- C8: for every record that stores an orientation code c in 1..8,
`setOrientation(90)` followed by `setOrientation(-90)` leaves the stored code
equal to c. -/
theorem setOrientation_inverse (m : DkMetaDataT) (c : Nat)
    (hc : storedOrientation m = some c) (hc8 : 1 ≤ c ∧ c ≤ 8) :
    storedOrientation ((m.setOrientation 90).setOrientation (-90)) = some c := by
  by_cases hs : m.mExifState = ExifState.loaded ∨ m.mExifState = ExifState.dirty
  swap
  · simp only [setOrientation_of_unloaded m _ hs, hc]
  obtain ⟨s1, st1⟩ := setOrientation_stored m 90 c hs (by decide) hc
  obtain ⟨s2, _⟩ := setOrientation_stored (m.setOrientation 90) (-90) _ st1 (by decide) s1
  rw [s2]
  obtain ⟨hlo, hhi⟩ := hc8
  interval_cases c <;> decide

/-- C8 (witness): the stored code 5 is back after a rotation by 90 and one
by -90. -/
theorem setOrientation_inverse_witness :
    storedOrientation (((Example.oriented 5).setOrientation 90).setOrientation (-90)) = some 5 :=
  setOrientation_inverse (Example.oriented 5) 5 (by decide) (by decide)

/-- C9: for every record that stores an orientation code c in 1..8, four
calls of `setOrientation(90)` in a row return the stored code to c. -/
theorem setOrientation_four_quarter_turns (m : DkMetaDataT) (c : Nat)
    (hc : storedOrientation m = some c) (hc8 : 1 ≤ c ∧ c ≤ 8) :
    storedOrientation ((((m.setOrientation 90).setOrientation 90).setOrientation 90).setOrientation 90)
      = some c := by
  by_cases hs : m.mExifState = ExifState.loaded ∨ m.mExifState = ExifState.dirty
  swap
  · simp only [setOrientation_of_unloaded m _ hs, hc]
  obtain ⟨s1, st1⟩ := setOrientation_stored m 90 c hs (by decide) hc
  obtain ⟨s2, st2⟩ := setOrientation_stored (m.setOrientation 90) 90 _ st1 (by decide) s1
  obtain ⟨s3, st3⟩ :=
    setOrientation_stored ((m.setOrientation 90).setOrientation 90) 90 _ st2 (by decide) s2
  obtain ⟨s4, _⟩ :=
    setOrientation_stored (((m.setOrientation 90).setOrientation 90).setOrientation 90) 90 _ st3
      (by decide) s3
  rw [s4]
  obtain ⟨hlo, hhi⟩ := hc8
  interval_cases c <;> decide

/-- C9 (witness): the mirrored code 7 is back after four rotations by 90. -/
theorem setOrientation_four_quarter_turns_witness :
    storedOrientation (((((Example.oriented 7).setOrientation 90).setOrientation 90).setOrientation
      90).setOrientation 90) = some 7 :=
  setOrientation_four_quarter_turns (Example.oriented 7) 7 (by decide) (by decide)

/-- C10: for every record that stores an orientation code c in 1..8,
`setOrientation(0)` leaves the stored code equal to c. -/
theorem setOrientation_zero (m : DkMetaDataT) (c : Nat)
    (hc : storedOrientation m = some c) (hc8 : 1 ≤ c ∧ c ≤ 8) :
    storedOrientation (m.setOrientation 0) = some c := by
  by_cases hs : m.mExifState = ExifState.loaded ∨ m.mExifState = ExifState.dirty
  swap
  · simp only [setOrientation_of_unloaded m _ hs, hc]
  obtain ⟨s1, _⟩ := setOrientation_stored m 0 c hs (by decide) hc
  rw [s1]
  obtain ⟨hlo, hhi⟩ := hc8
  interval_cases c <;> decide

/-- C10 (witness): the stored code 4 is kept by a rotation by 0. -/
theorem setOrientation_zero_witness :
    storedOrientation ((Example.oriented 4).setOrientation 0) = some 4 :=
  setOrientation_zero (Example.oriented 4) 4 (by decide) (by decide)

/-! ## Orientation: domain of the rotation and reset -/

/-- C11: for every record in state Loaded or Dirty whose stored orientation
value v lies outside 1..8 (v = 0 or v > 8) and every delta d in
{0, 90, -90, 180}, `setOrientation(d)` stores exactly the code it stores on a
record whose stored value is 1. -/
theorem setOrientation_out_of_range (m m1 : DkMetaDataT) (v : Nat) (d : Int)
    (hs : m.mExifState = ExifState.loaded ∨ m.mExifState = ExifState.dirty)
    (hs1 : m1.mExifState = ExifState.loaded ∨ m1.mExifState = ExifState.dirty)
    (hv : storedOrientation m = some v) (hout : v = 0 ∨ 8 < v)
    (h1 : storedOrientation m1 = some 1)
    (hd : d = 0 ∨ d = 90 ∨ d = -90 ∨ d = 180) :
    storedOrientation (m.setOrientation d) = storedOrientation (m1.setOrientation d) := by
  obtain ⟨s, _⟩ := setOrientation_stored m d v hs hd hv
  obtain ⟨s1, _⟩ := setOrientation_stored m1 d 1 hs1 hd h1
  rw [s, s1]
  have hnorm : (if (v : Int) ≤ 0 ∨ (v : Int) > 8 then (1 : Int) else (v : Int)) = 1 := by
    rw [if_pos]
    rcases hout with h | h
    · left; omega
    · right; omega
  rw [hnorm]
  rfl

/-- C11 (witness): the stored values 0 and 9 are rotated by 90 to the code 6,
as the stored value 1 is. -/
theorem setOrientation_out_of_range_witness :
    storedOrientation ((Example.oriented 0).setOrientation 90) = some 6
      ∧ storedOrientation ((Example.oriented 9).setOrientation 90)
          = storedOrientation ((Example.oriented 1).setOrientation 90) :=
  ⟨by decide,
    setOrientation_out_of_range (Example.oriented 9) (Example.oriented 1) 9 90 (Or.inl rfl)
      (Or.inl rfl) (by decide) (by decide) (by decide) (by decide)⟩

/-- C12: for every integer o not in {0, 90, -90, 180, 270}, `setOrientation(o)`
leaves the record (tag sequences and state) unchanged; and for every record
`setOrientation(270)` yields the same record as `setOrientation(-90)`. -/
theorem setOrientation_domain (m : DkMetaDataT) (o : Int) :
    ((o ≠ 0 ∧ o ≠ 90 ∧ o ≠ -90 ∧ o ≠ 180 ∧ o ≠ 270) → m.setOrientation o = m)
      ∧ m.setOrientation 270 = m.setOrientation (-90) := by
  constructor
  · intro ho
    unfold setOrientation
    by_cases hst : m.mExifState = ExifState.not_loaded ∨ m.mExifState = ExifState.no_data
    · rw [if_pos hst]
    · rw [if_neg hst, if_pos ⟨ho.2.1, ho.2.2.1, ho.2.2.2.1, ho.1, ho.2.2.2.2⟩]
  · unfold setOrientation
    simp

/-- C12 (witness): a rotation by -180 is not accepted and changes nothing,
and a rotation by 270 turns the stored code 1 into 8 as one by -90 does. -/
theorem setOrientation_domain_witness :
    (Example.oriented 6).setOrientation (-180) = Example.oriented 6
      ∧ (Example.oriented 1).setOrientation 270 = (Example.oriented 1).setOrientation (-90)
      ∧ storedOrientation ((Example.oriented 1).setOrientation 270) = some 8 :=
  ⟨(setOrientation_domain (Example.oriented 6) (-180)).1 (by decide),
    (setOrientation_domain (Example.oriented 1) 0).2, by decide⟩

/-- A key is among the keys of a sequence exactly when it is found. -/
theorem mem_keys_iff (data : List Metadatum) (key : String) :
    key ∈ data.map (fun i => i.key) ↔ findKey data key ≠ none := by
  induction data with
  | nil => simp [findKey]
  | cons a ds ih =>
    by_cases hk : a.key = key
    · simp [findKey, hk]
    · have hk2 : ¬ key = a.key := fun h => hk h.symm
      simp [findKey, hk, hk2, ih]

/-- The text "1" read into a short value gives the single component 1. -/
theorem read_one_short (codec : Codec) (vs : List Nat) :
    (Value.unsignedShort vs).read codec "1" = some (Value.unsignedShort [1]) := by
  have h : parseShorts "1" = some [1] := by decide
  simp [Value.read, h]

/-- C13 (counterexample): on a loaded record whose container can only be read
(`checkMode(mdExif)` is `amRead`), `clearOrientation()` changes nothing: the
stored code 6 is still 6. -/
theorem clearOrientation_counterexample :
    (Example.readOnly 6).mExifState = ExifState.loaded
      ∧ storedOrientation (clearOrientation Example.codec (Example.readOnly 6)) = some 6
      ∧ storedOrientation (clearOrientation Example.codec (Example.readOnly 6)) ≠ some 1 := by
  decide

/-- C13 (amended): for every record in state Loaded or Dirty whose container
reports the EXIF access mode read-write or write, whatever short value the tag
`Exif.Image.Orientation` currently holds, or when it is absent (no entry, or
an entry without value), after `clearOrientation()` the tag holds the short
value 1. -/
theorem clearOrientation_sets_one (codec : Codec) (m : DkMetaDataT)
    (hs : m.mExifState = ExifState.loaded ∨ m.mExifState = ExifState.dirty)
    (hmode : m.exifAccessMode = AccessMode.amReadWrite ∨ m.exifAccessMode = AccessMode.amWrite)
    (htype : shortOrAbsent m.exifData "Exif.Image.Orientation" = true) :
    findKey (clearOrientation codec m).exifData "Exif.Image.Orientation"
      = some { key := "Exif.Image.Orientation", value := some (Value.unsignedShort [1]) } := by
  have hstate : ¬ (m.mExifState = ExifState.not_loaded ∨ m.mExifState = ExifState.no_data) := by
    rcases hs with h | h <;> simp [h]
  have hm : ¬ (m.exifAccessMode ≠ AccessMode.amReadWrite ∧ m.exifAccessMode ≠ AccessMode.amWrite) := by
    rcases hmode with h | h <;> simp [h]
  have hkeys : m.getExifKeys = if m.exifData.isEmpty then [] else m.exifData.map (fun i => i.key) := by
    unfold getExifKeys
    rcases hs with h | h <;> simp [h]
  unfold clearOrientation setExifValue
  rw [if_neg hstate, if_neg hstate, if_neg hm]
  cases hf : findKey m.exifData "Exif.Image.Orientation" with
  | none =>
    have hnot : ¬ ((!m.exifData.isEmpty) = true ∧ "Exif.Image.Orientation" ∈ m.getExifKeys) := by
      rintro ⟨hne, hmem⟩
      rw [hkeys] at hmem
      have hne2 : m.exifData.isEmpty = false := by simpa using hne
      rw [hne2] at hmem
      simp only [Bool.false_eq_true, if_false] at hmem
      exact (mem_keys_iff _ _).1 hmem hf
    rw [if_neg hnot]
    simp only [codec.orientation_key, Metadatum.setValueText, codec.orientation_short,
      read_one_short, findKey_append, hf, findKey]
    simp
  | some d =>
    have hne : m.exifData.isEmpty = false := findKey_of_nil_isEmpty hf
    have hmem : "Exif.Image.Orientation" ∈ m.getExifKeys := by
      rw [hkeys, hne]
      simp only [Bool.false_eq_true, if_false]
      exact (mem_keys_iff _ _).2 (by rw [hf]; simp)
    have hyes : (!m.exifData.isEmpty) = true ∧ "Exif.Image.Orientation" ∈ m.getExifKeys := by
      exact ⟨by simp [hne], hmem⟩
    rw [if_pos hyes]
    have hsub : subscript m.exifData "Exif.Image.Orientation" = m.exifData := by
      simp [subscript, hf]
    have hkey := findKey_key hf
    have hread : (d.setValueText codec "1") = (Value.unsignedShort [1], 0) := by
      unfold shortOrAbsent at htype
      rw [hf] at htype
      cases hv : d.value with
      | none => simp [Metadatum.setValueText, hv, hkey, codec.orientation_short, read_one_short]
      | some v =>
        cases v with
        | unsignedShort vs => simp [Metadatum.setValueText, hv, read_one_short]
        | xmpText t => simp [hv] at htype
        | other a b c => simp [hv] at htype
    simp only [codec.orientation_key, hsub, hf, Option.getD_some, hread,
      findKey_setValueFound_same, Option.map_some', hkey]

/-- C13 (witness): the amended claim on a record that stores the code 6 and
on a record without tags. -/
theorem clearOrientation_sets_one_witness :
    storedOrientation (clearOrientation Example.codec (Example.oriented 6)) = some 1
      ∧ findKey (clearOrientation Example.codec Example.unrated).exifData "Exif.Image.Orientation"
          = some { key := "Exif.Image.Orientation", value := some (Value.unsignedShort [1]) } :=
  ⟨by decide,
    clearOrientation_sets_one Example.codec Example.unrated (Or.inl rfl) (Or.inl rfl)
      (by decide)⟩

/-! ## Writing an EXIF value -/

/-- C20: `setExifValue(key, value)` returns false and leaves the record
unchanged when the EXIF access mode of the container is neither read-write
nor write; whenever it returns true the state afterwards is Dirty; and it
returns false whenever the codec rejects the value (`setValue` on the entry
written for the key returns non-zero). -/
theorem setExifValue_contract (codec : Codec) (m : DkMetaDataT) (key taginfo : String) :
    ((m.exifAccessMode ≠ AccessMode.amReadWrite ∧ m.exifAccessMode ≠ AccessMode.amWrite) →
        m.setExifValue codec key taginfo = (m, some false))
      ∧ ((m.setExifValue codec key taginfo).2 = some true →
        (m.setExifValue codec key taginfo).1.mExifState = ExifState.dirty)
      ∧ (∀ k, (m.mExifState = ExifState.loaded ∨ m.mExifState = ExifState.dirty) →
        (m.exifAccessMode = AccessMode.amReadWrite ∨ m.exifAccessMode = AccessMode.amWrite) →
        codec.exifKey key = some k →
        ((m.exifTarget key k).setValueText codec taginfo).2 ≠ 0 →
        (m.setExifValue codec key taginfo).2 = some false) := by
  refine ⟨?_, ?_, ?_⟩
  · intro hmode
    unfold setExifValue
    by_cases hst : m.mExifState = ExifState.not_loaded ∨ m.mExifState = ExifState.no_data
    · rw [if_pos hst]
    · rw [if_neg hst, if_pos hmode]
  · unfold setExifValue
    by_cases hst : m.mExifState = ExifState.not_loaded ∨ m.mExifState = ExifState.no_data
    · simp [hst]
    · rw [if_neg hst]
      by_cases hmode : m.exifAccessMode ≠ AccessMode.amReadWrite
          ∧ m.exifAccessMode ≠ AccessMode.amWrite
      · simp [hmode]
      · rw [if_neg hmode]
        by_cases hb : (!m.exifData.isEmpty) = true ∧ key ∈ m.getExifKeys
        · rw [if_pos hb]
          cases hk : codec.exifKey key with
          | none => simp
          | some k =>
            simp only [Option.some.injEq, decide_eq_true_eq]
            intro h
            rw [if_pos h]
        · rw [if_neg hb]
          cases hk : codec.exifKey key with
          | none => simp
          | some k =>
            simp only [Option.some.injEq, decide_eq_true_eq]
            intro h
            rw [if_pos h]
  · intro k hs hmode hk hrej
    have hstate : ¬ (m.mExifState = ExifState.not_loaded ∨ m.mExifState = ExifState.no_data) := by
      rcases hs with h | h <;> simp [h]
    have hm : ¬ (m.exifAccessMode ≠ AccessMode.amReadWrite
        ∧ m.exifAccessMode ≠ AccessMode.amWrite) := by
      rcases hmode with h | h <;> simp [h]
    unfold exifTarget at hrej
    unfold setExifValue
    rw [if_neg hstate, if_neg hm]
    by_cases hb : (!m.exifData.isEmpty) = true ∧ key ∈ m.getExifKeys
    · rw [if_pos hb] at hrej
      rw [if_pos hb]
      simp only [hk, Option.some.injEq, decide_eq_false_iff_not]
      exact hrej
    · rw [if_neg hb] at hrej
      rw [if_neg hb]
      simp only [hk, Option.some.injEq, decide_eq_false_iff_not]
      exact hrej

/-- C20 (witness): on the read-only record the write is refused and nothing
changes; on the writable record the text "3" is accepted and the state is
Dirty; the text "abc" is rejected by the codec and the call returns false. -/
theorem setExifValue_contract_witness :
    (Example.readOnly 6).setExifValue Example.codec "Exif.Image.Orientation" "3"
        = (Example.readOnly 6, some false)
      ∧ ((Example.oriented 6).setExifValue Example.codec "Exif.Image.Orientation" "3").1.mExifState
          = ExifState.dirty
      ∧ ((Example.oriented 6).setExifValue Example.codec "Exif.Image.Orientation" "abc").2
          = some false :=
  ⟨(setExifValue_contract Example.codec (Example.readOnly 6) "Exif.Image.Orientation" "3").1
      (by decide),
    (setExifValue_contract Example.codec (Example.oriented 6) "Exif.Image.Orientation" "3").2.1
      (by decide),
    (setExifValue_contract Example.codec (Example.oriented 6) "Exif.Image.Orientation" "abc").2.2
      "Exif.Image.Orientation" (by decide) (by decide) (by decide) (by decide)⟩

/-! ## Saving and loading -/

/-- The threshold of the integrity gate: half of the size, rounded up. -/
theorem qRound_half (n : Nat) : qRound (mkRat n 2) = ((n : Int) + 1) / 2 := by
  have hq : mkRat (n : Int) 2 = (n : ℚ) / 2 := by
    rw [Rat.mkRat_eq_div]
    push_cast
    rfl
  have h0 : (0 : ℚ) ≤ (n : ℚ) / 2 := by positivity
  rw [qRound_eq_qt_expression, hq, if_pos h0]
  unfold truncQ
  have h1 : (0 : ℚ) ≤ (n : ℚ) / 2 + 1 / 2 := by positivity
  rw [if_pos h1]
  have h2 : (n : ℚ) / 2 + 1 / 2 = (((n : Int) + 1 : Int) : ℚ) / ((2 : Nat) : ℚ) := by
    push_cast
    ring
  rw [h2, Rat.floor_intCast_div_natCast]
  rfl

/-! ## Rounding to binary32: values that are kept -/

/-- The product on numerators and denominators is the product. -/
theorem mulQ_eq (x y : ℚ) : mulQ x y = x * y := by
  unfold mulQ
  rw [Rat.mul_eq_mkRat]

/-- The sum on numerators and denominators is the sum. -/
theorem addQ_eq (x y : ℚ) : addQ x y = x + y := by
  unfold addQ
  rw [Rat.add_def']

/-- The power of two with a natural exponent. -/
theorem pow2_natCast (n : Nat) : pow2 (n : Int) = (2 : ℚ) ^ n := by
  unfold pow2
  rw [if_pos (Int.natCast_nonneg n), Int.toNat_natCast, Rat.mkRat_eq_div]
  push_cast
  simp

/-- The power of two with the negative of a natural exponent. -/
theorem pow2_neg_natCast (n : Nat) : pow2 (-(n : Int)) = 1 / (2 : ℚ) ^ n := by
  cases n with
  | zero =>
    unfold pow2
    simp [Rat.mkRat_eq_div]
  | succ k =>
    unfold pow2
    have hneg : ¬ (0 : Int) ≤ -((k + 1 : Nat) : Int) := by omega
    rw [if_neg hneg, neg_neg, Int.toNat_natCast, Rat.mkRat_eq_div]
    push_cast
    rfl

/-- An integer is its own nearest integer. -/
theorem roundEven_intCast (m : Int) : roundEven (m : ℚ) = m := by
  unfold roundEven
  simp

/-- The halving count stays below the exponent of a power of two above the
number. -/
theorem log2Aux_le : ∀ (fuel n k : Nat), n ≤ fuel → n < 2 ^ (k + 1) → log2Aux fuel n ≤ k := by
  intro fuel
  induction fuel with
  | zero => intro n k _ _; simp [log2Aux]
  | succ f ih =>
    intro n k hf hn
    unfold log2Aux
    by_cases h1 : n ≤ 1
    · rw [if_pos h1]; omega
    · rw [if_neg h1]
      cases k with
      | zero => simp at hn; omega
      | succ k2 =>
        have h2 : n / 2 < 2 ^ (k2 + 1) := by
          rw [Nat.div_lt_iff_lt_mul (by decide)]
          rw [pow_succ] at hn
          exact hn
        have h3 : n / 2 ≤ f := by omega
        have := ih (n / 2) k2 h3 h2
        omega

/-- The binary exponent of a positive rational below `2 ^ (k + 1)` is at most
k. -/
theorem ilog2_le (q : ℚ) (k : Nat) (hpos : 0 < q) (hlt : q < (2 : ℚ) ^ (k + 1)) :
    ilog2 q ≤ k := by
  unfold ilog2
  dsimp only
  by_cases hb : q.den ≤ q.num.natAbs
  · rw [if_pos hb]
    have hnum : 0 < q.num := Rat.num_pos.mpr hpos
    have habs : (q.num.natAbs : Int) = q.num := Int.natAbs_of_nonneg hnum.le
    have hden : (0 : ℚ) < (q.den : ℚ) := by exact_mod_cast q.den_pos
    have hq : (q.num : ℚ) < (2 : ℚ) ^ (k + 1) * (q.den : ℚ) := by
      have := (div_lt_iff₀ hden).mp (by rw [Rat.num_div_den]; exact hlt)
      exact this
    have hnat : q.num.natAbs < 2 ^ (k + 1) * q.den := by
      have h1 : ((q.num.natAbs : Int) : ℚ) < (((2 ^ (k + 1) * q.den : Nat) : Int) : ℚ) := by
        rw [habs]
        push_cast
        exact hq
      exact_mod_cast h1
    have hdiv : q.num.natAbs / q.den < 2 ^ (k + 1) := by
      rw [Nat.div_lt_iff_lt_mul q.den_pos]
      exact hnat
    have := log2Aux_le _ _ k (le_refl _) hdiv
    unfold log2
    exact_mod_cast this
  · rw [if_neg hb]
    omega

/-- A positive multiple of `2 ^ (-j)` below `2 ^ (24 - j)` is representable:
rounding to binary32 keeps it. -/
theorem binary32_exact (q : ℚ) (m : Int) (j k : Nat) (hk : j + k = 23)
    (hq : q = (m : ℚ) / (2 : ℚ) ^ j) (hpos : 0 < q) (hlt : q < (2 : ℚ) ^ (k + 1)) :
    binary32 q = q := by
  have hnum : q.num ≠ 0 := by
    have := Rat.num_pos.mpr hpos
    omega
  have hlog := ilog2_le q k hpos hlt
  unfold binary32 roundBinary
  rw [if_neg hnum]
  dsimp only
  obtain ⟨u, hu⟩ : ∃ u : Nat, max (ilog2 q) (-126) - (((24 : Nat) : Int) - 1)
      = -((u + j : Nat) : Int) := by
    refine ⟨(-(max (ilog2 q) (-126) - (((24 : Nat) : Int) - 1)) - (j : Int)).toNat, ?_⟩
    have hmax : max (ilog2 q) (-126) ≤ (k : Int) := max_le hlog (by omega)
    push_cast
    rw [Int.toNat_of_nonneg (by omega)]
    ring
  rw [hu, neg_neg, pow2_natCast, pow2_neg_natCast, mulQ_eq, mulQ_eq]
  have h2 : (2 : ℚ) ^ j ≠ 0 := by positivity
  have hscaled : q * (2 : ℚ) ^ (u + j) = ((m * 2 ^ u : Int) : ℚ) := by
    rw [hq, pow_add]
    push_cast
    field_simp
    ring
  rw [hscaled, roundEven_intCast, Rat.mkRat_eq_div]
  rw [hq, pow_add]
  push_cast
  field_simp
  ring

/-- Truncation on numerator and denominator is the floor for a value that is
not negative. -/
theorem toInt_of_nonneg (q : ℚ) (h : 0 ≤ q) : toInt q = ⌊q⌋ := by
  unfold toInt
  rw [Rat.floor_def]
  exact Int.tdiv_eq_ediv (Rat.num_nonneg.mpr h) (by exact_mod_cast Nat.zero_le _)

/-- The threshold of the integrity gate for a buffer of fewer than 2^24
bytes: half of the size, rounded up; no rounding to `float` changes a value. -/
theorem gate_threshold_small (n : Nat) (h : n < 16777216) :
    qRoundFloat (binary32 (mulQ (binary32 (mkRat n 1)) (mkRat 1 2))) = ((n : Int) + 1) / 2 := by
  by_cases h0 : n = 0
  · subst h0
    decide
  have hn : mkRat (n : Int) 1 = (n : ℚ) := by
    rw [Rat.mkRat_eq_div]; simp
  have hhalf : mkRat 1 2 = (1 : ℚ) / 2 := by
    rw [Rat.mkRat_eq_div]; simp
  rw [hn, hhalf]
  have hnpos : (0 : ℚ) < (n : ℚ) := by exact_mod_cast Nat.pos_of_ne_zero h0
  have hnq : (n : ℚ) < 16777216 := by exact_mod_cast h
  have e1 : binary32 (n : ℚ) = (n : ℚ) :=
    binary32_exact (n : ℚ) (n : Int) 0 23 rfl (by simp) hnpos (by norm_num; exact h)
  rw [e1, mulQ_eq]
  have e2 : binary32 ((n : ℚ) * (1 / 2)) = (n : ℚ) * (1 / 2) := by
    apply binary32_exact _ (n : Int) 1 22 rfl
    · push_cast; ring
    · positivity
    · norm_num
      linarith
  rw [e2]
  have hd : (0 : ℚ) ≤ (n : ℚ) * (1 / 2) := by positivity
  unfold qRoundFloat
  rw [if_pos hd, addQ_eq, hhalf]
  have hsum : (n : ℚ) * (1 / 2) + 1 / 2 = (((n : Int) + 1 : Int) : ℚ) / ((2 : Nat) : ℚ) := by
    push_cast
    ring
  have e3 : binary32 ((n : ℚ) * (1 / 2) + 1 / 2) = (n : ℚ) * (1 / 2) + 1 / 2 := by
    by_cases hlast : n + 1 = 16777216
    · have hv : (n : ℚ) * (1 / 2) + 1 / 2 = ((8388608 : Int) : ℚ) / (2 : ℚ) ^ 0 := by
        have hn2 : n = 16777215 := by omega
        subst hn2
        norm_num
      apply binary32_exact _ (8388608 : Int) 0 23 rfl hv (by positivity)
      rw [hv]
      norm_num
    · apply binary32_exact _ ((n : Int) + 1) 1 22 rfl
      · push_cast; ring
      · positivity
      · have hlt2 : (n : ℚ) + 1 < 16777216 := by
          have : n + 1 < 16777216 := by omega
          exact_mod_cast this
        norm_num
        linarith
  rw [e3, toInt_of_nonneg _ (by positivity), hsum, Rat.floor_intCast_div_natCast]
  rfl

/-- For every original buffer of fewer than 2^24 bytes, of size n, and every
serialization result of size m with 2 * m <= n, `saveMetaData(buffer, force)`
returns false and leaves the caller's buffer and the record (container and
state) as they were. -/
theorem saveMetaData_integrity_gate (m : DkMetaDataT) (bytes tmp : List Nat) (force : Bool)
    (exifImgN : Image) (hn : bytes.length < 16777216) (h : 2 * tmp.length ≤ bytes.length) :
    m.saveMetaData (some bytes) force (SaveRun.written exifImgN (some tmp))
      = (m, some bytes, some false) := by
  have hgate : ¬ ((tmp.length : Int)
      > qRoundFloat (binary32 (mulQ (binary32 (mkRat bytes.length 1)) (mkRat 1 2)))) := by
    rw [gate_threshold_small _ hn]
    omega
  unfold saveMetaData
  simp only [hgate, if_false]
  split_ifs <;> rfl

/-- A result of 2 bytes for a buffer of 5 bytes is rejected, also on a dirty
record and with `force`. -/
theorem saveMetaData_integrity_gate_witness :
    (Example.unrated.setRating 3).mExifState = ExifState.dirty
      ∧ (Example.unrated.setRating 3).saveMetaData (some [1, 2, 3, 4, 5]) true
          (SaveRun.written Image.null (some [1, 2]))
        = (Example.unrated.setRating 3, some [1, 2, 3, 4, 5], some false) :=
  ⟨by decide,
    saveMetaData_integrity_gate (Example.unrated.setRating 3) [1, 2, 3, 4, 5] [1, 2] true
      Image.null (by decide) (by decide)⟩

/-- C14 (failing input): for an original buffer of 33554434 bytes and a
serialization result of 16777217 bytes, exactly half of it, the threshold of
the gate is 16777216 (the size becomes 33554432 when it is converted to
`float`), and `saveMetaData` accepts the result on a dirty record: it returns
true, replaces the buffer and ends in state Loaded. -/
theorem saveMetaData_gate_large_buffer :
    2 * (List.replicate 16777217 0).length ≤ (List.replicate 33554434 0).length
      ∧ binary32 (mkRat 33554434 1) = mkRat 33554432 1
      ∧ qRoundFloat (binary32 (mulQ (binary32 (mkRat 33554434 1)) (mkRat 1 2))) = 16777216
      ∧ (Example.unrated.setRating 3).saveMetaData (some (List.replicate 33554434 0)) false
          (SaveRun.written Image.null (some (List.replicate 16777217 0)))
        = ({ (Example.unrated.setRating 3).setExifImg Image.null with
              mExifState := ExifState.loaded },
            some (List.replicate 16777217 0), some true) := by
  have hgate : (((List.replicate 16777217 0).length : Nat) : Int)
      > qRoundFloat (binary32 (mulQ (binary32
          (mkRat ((List.replicate 33554434 0).length : Nat) 1)) (mkRat 1 2))) := by
    rw [List.length_replicate, List.length_replicate]
    decide
  have h1 : ¬ ((!false) = true
      ∧ (Example.unrated.setRating 3).mExifState ≠ ExifState.dirty) := by decide
  have h2 : ¬ ((Example.unrated.setRating 3).mExifState = ExifState.not_loaded
      ∨ (Example.unrated.setRating 3).mExifState = ExifState.no_data) := by decide
  refine ⟨by rw [List.length_replicate, List.length_replicate], by decide, by decide, ?_⟩
  unfold saveMetaData
  simp only [if_neg h1, if_neg h2, if_pos hgate]

/-- C15: `saveMetaData(buffer, force)` returns false and changes neither the
buffer nor the record (tags and state) whenever the state is NotLoaded or
NoData, whatever `force` is, and whenever `force` is false and the state is
not Dirty; so a second unforced save on a record that is not dirty does the
same. -/
theorem saveMetaData_nothing_to_save (m : DkMetaDataT) (ba : Option (List Nat)) (force : Bool)
    (run run2 : SaveRun) :
    ((m.mExifState = ExifState.not_loaded ∨ m.mExifState = ExifState.no_data) →
        m.saveMetaData ba force run = (m, ba, some false))
      ∧ (m.mExifState ≠ ExifState.dirty →
        m.saveMetaData ba false run = (m, ba, some false)
          ∧ (m.saveMetaData ba false run).1.saveMetaData (m.saveMetaData ba false run).2.1
              false run2 = (m, ba, some false)) := by
  have hunforced : ∀ r : SaveRun, m.mExifState ≠ ExifState.dirty →
      m.saveMetaData ba false r = (m, ba, some false) := by
    intro r hnd
    unfold saveMetaData
    cases ba with
    | none => rfl
    | some bytes => simp [hnd]
  constructor
  · intro hst
    unfold saveMetaData
    cases ba with
    | none => rfl
    | some bytes =>
      simp only [hst, if_true]
      split_ifs <;> rfl
  · intro hnd
    refine ⟨hunforced run hnd, ?_⟩
    rw [hunforced run hnd]
    exact hunforced run2 hnd

/-- C15 (witness): a forced save on a record without data and an unforced
save on a loaded record return false and change nothing. -/
theorem saveMetaData_nothing_to_save_witness :
    Example.noData.saveMetaData (some [1, 2, 3]) true (SaveRun.written Image.null (some [1, 2, 3]))
        = (Example.noData, some [1, 2, 3], some false)
      ∧ Example.bothRated.saveMetaData (some [1, 2, 3]) false
          (SaveRun.written Image.null (some [1, 2, 3]))
        = (Example.bothRated, some [1, 2, 3], some false) :=
  ⟨(saveMetaData_nothing_to_save Example.noData (some [1, 2, 3]) true
      (SaveRun.written Image.null (some [1, 2, 3])) SaveRun.openNull).1 (Or.inr rfl),
    ((saveMetaData_nothing_to_save Example.bothRated (some [1, 2, 3]) false
      (SaveRun.written Image.null (some [1, 2, 3])) SaveRun.openNull).2 (by decide)).1⟩

/-- C16: whenever `saveMetaData(buffer, force)` returns true, the state
before was Dirty, or Loaded with `force`, the state afterwards is Loaded, the
container of the record is the new container, and the caller's buffer is the
new serialization. -/
theorem saveMetaData_accepted (m : DkMetaDataT) (ba : Option (List Nat)) (force : Bool)
    (run : SaveRun) (h : (m.saveMetaData ba force run).2.2 = some true) :
    (m.mExifState = ExifState.dirty ∨ (m.mExifState = ExifState.loaded ∧ force = true))
      ∧ (m.saveMetaData ba force run).1.mExifState = ExifState.loaded
      ∧ ∃ exifImgN tmp, run = SaveRun.written exifImgN (some tmp)
          ∧ (m.saveMetaData ba force run).1.mExifImg = exifImgN
          ∧ (m.saveMetaData ba force run).2.1 = some tmp := by
  unfold saveMetaData at h ⊢
  cases ba with
  | none => simp at h
  | some bytes =>
    dsimp only at h ⊢
    by_cases h1 : (!force) = true ∧ m.mExifState ≠ ExifState.dirty
    · rw [if_pos h1] at h
      simp at h
    · rw [if_neg h1] at h ⊢
      by_cases h2 : m.mExifState = ExifState.not_loaded ∨ m.mExifState = ExifState.no_data
      · rw [if_pos h2] at h
        simp at h
      · rw [if_neg h2] at h ⊢
        cases run with
        | openThrows => simp at h
        | openNull => simp at h
        | writeThrows => simp at h
        | written exifImgN exifBuf =>
          cases exifBuf with
          | none => simp at h
          | some tmp =>
            dsimp only at h ⊢
            by_cases hg : (tmp.length : Int)
                > qRoundFloat (binary32 (mulQ (binary32 (mkRat bytes.length 1)) (mkRat 1 2)))
            · rw [if_pos hg]
              refine ⟨?_, rfl, exifImgN, tmp, rfl, rfl, rfl⟩
              cases hm : m.mExifState <;> cases force <;> simp_all
            · rw [if_neg hg] at h
              simp at h

/-- C16 (witness): an unforced save of a dirty record with a result of 4
bytes for a buffer of 5 bytes returns true; the record is Loaded and the
buffer is the result. -/
theorem saveMetaData_accepted_witness :
    ((Example.unrated.setRating 3).saveMetaData (some [1, 2, 3, 4, 5]) false
        (SaveRun.written (Example.unrated.setRating 3).mExifImg (some [9, 8, 7, 6]))).2.2
        = some true
      ∧ ((Example.unrated.setRating 3).saveMetaData (some [1, 2, 3, 4, 5]) false
        (SaveRun.written (Example.unrated.setRating 3).mExifImg (some [9, 8, 7, 6]))).1.mExifState
        = ExifState.loaded :=
  ⟨by decide,
    (saveMetaData_accepted (Example.unrated.setRating 3) (some [1, 2, 3, 4, 5]) false
      (SaveRun.written (Example.unrated.setRating 3).mExifImg (some [9, 8, 7, 6]))
      (by decide)).2.1⟩

/-- C17: `readMetaData` ends in state NoData if opening the container throws
or yields no container, or if reading the metadata throws or the container
reports not good, and in state Loaded in every other case; the embedded
function returns a record for every behaviour of the codec, as the source
catches every exception. -/
theorem readMetaData_outcome (m : DkMetaDataT) (filePath : String) (ba : Option (List Nat))
    (openFile : String → LoadRun) (openBuffer : List Nat → LoadRun) :
    ((openRun filePath ba openFile openBuffer = LoadRun.openThrows
        ∨ openRun filePath ba openFile openBuffer = LoadRun.openNull
        ∨ (∃ img, openRun filePath ba openFile openBuffer = LoadRun.readThrows img)
        ∨ (∃ img, openRun filePath ba openFile openBuffer = LoadRun.notGood img)) →
        (m.readMetaData filePath ba openFile openBuffer).mExifState = ExifState.no_data)
      ∧ ((∃ img, openRun filePath ba openFile openBuffer = LoadRun.good img) →
        (m.readMetaData filePath ba openFile openBuffer).mExifState = ExifState.loaded)
      ∧ ((m.readMetaData filePath ba openFile openBuffer).mExifState = ExifState.no_data
        ∨ (m.readMetaData filePath ba openFile openBuffer).mExifState = ExifState.loaded) := by
  unfold readMetaData
  cases h : openRun filePath ba openFile openBuffer <;> simp

/-- C17 (witness): a buffer the codec cannot open leaves the record without
data, a buffer it opens and reads leaves it loaded. -/
theorem readMetaData_outcome_witness :
    (Example.unrated.readMetaData "a.jpg" (some [1, 2]) (fun _ => LoadRun.openNull)
        (fun _ => LoadRun.openThrows)).mExifState = ExifState.no_data
      ∧ (Example.noData.readMetaData "a.jpg" (some [1, 2]) (fun _ => LoadRun.openNull)
        (fun _ => LoadRun.good Example.bothRated.mExifImg)).mExifState = ExifState.loaded :=
  ⟨(readMetaData_outcome Example.unrated "a.jpg" (some [1, 2]) (fun _ => LoadRun.openNull)
      (fun _ => LoadRun.openThrows)).1 (Or.inl (by decide)),
    (readMetaData_outcome Example.noData "a.jpg" (some [1, 2]) (fun _ => LoadRun.openNull)
      (fun _ => LoadRun.good Example.bothRated.mExifImg)).2.1
      ⟨Example.bothRated.mExifImg, by decide⟩⟩

/-! ## The states without data -/

/-- C18: for every record whose state is NotLoaded or NoData, the read
accessors return their neutral result: `getRating()` = -1, `getOrientation()`
= 0, `hasMetaData()` and `isDirty()` are false, `getDescription`,
`getExifValue`, `getNativeExifValue`, `getXmpValue` and `getIptcValue` return
the empty string for every key, and `getExifKeys`, `getXmpKeys`,
`getIptcKeys`, `getExifValues` and `getIptcValues` return the empty list. -/
theorem accessors_neutral_when_unloaded (codec : Codec) (m : DkMetaDataT) (key : String)
    (hs : m.mExifState = ExifState.not_loaded ∨ m.mExifState = ExifState.no_data) :
    m.getRating = -1 ∧ m.getOrientation = 0 ∧ m.hasMetaData = false ∧ m.isDirty = false
      ∧ m.getDescription = "" ∧ m.getExifValue codec key = ""
      ∧ m.getNativeExifValue codec key = "" ∧ m.getXmpValue key = ""
      ∧ m.getIptcValue codec key = ""
      ∧ m.getExifKeys = [] ∧ m.getXmpKeys = [] ∧ m.getIptcKeys = []
      ∧ m.getExifValues = some [] ∧ m.getIptcValues = some [] := by
  unfold getRating getOrientation hasMetaData isDirty getDescription getExifValue
    getNativeExifValue getXmpValue getIptcValue getExifKeys getXmpKeys getIptcKeys
    getExifValues getIptcValues
  rcases hs with h | h <;> simp [h]

/-- C18 (witness): the accessors on a record in state NoData that still
carries rating tags. -/
theorem accessors_neutral_when_unloaded_witness :
    Example.noData.getRating = -1 ∧ Example.noData.hasMetaData = false
      ∧ Example.noData.getXmpValue "Xmp.xmp.Rating" = ""
      ∧ Example.noData.getExifKeys = [] :=
  ⟨(accessors_neutral_when_unloaded Example.codec Example.noData "Xmp.xmp.Rating"
      (Or.inr rfl)).1,
    (accessors_neutral_when_unloaded Example.codec Example.noData "Xmp.xmp.Rating"
      (Or.inr rfl)).2.2.1,
    (accessors_neutral_when_unloaded Example.codec Example.noData "Xmp.xmp.Rating"
      (Or.inr rfl)).2.2.2.2.2.2.2.1,
    (accessors_neutral_when_unloaded Example.codec Example.noData "Xmp.xmp.Rating"
      (Or.inr rfl)).2.2.2.2.2.2.2.2.2.1⟩

/-- In the states NotLoaded and NoData no call of `Op` changes the record. -/
theorem apply_of_unloaded (m : DkMetaDataT) (op : Op)
    (hs : m.mExifState = ExifState.not_loaded ∨ m.mExifState = ExifState.no_data) :
    Op.apply m op = m := by
  cases op with
  | setExifValue codec key taginfo => simp [Op.apply, DkMetaDataT.setExifValue, hs]
  | setDescription codec description => simp [Op.apply, DkMetaDataT.setDescription, hs]
  | clearOrientation codec => simp [Op.apply, DkMetaDataT.clearOrientation, hs]
  | setOrientation o => simp [Op.apply, DkMetaDataT.setOrientation, hs]
  | setRating r =>
    simp only [Op.apply, DkMetaDataT.setRating]
    rw [if_pos]
    rcases hs with h | h
    · exact Or.inl h
    · exact Or.inr (Or.inl h)
  | setThumbnail data => simp [Op.apply, DkMetaDataT.setThumbnail, hs]
  | saveMetaData ba force run =>
    simp only [Op.apply, DkMetaDataT.saveMetaData]
    cases ba with
    | none => rfl
    | some bytes =>
      simp only [hs, if_true]
      split_ifs <;> rfl

/-- C19 (counterexample): a record in state NoData is moved to state Loaded by
a further `readMetaData` call with bytes the codec opens and parses. -/
theorem noData_not_terminal_counterexample :
    Example.noData.mExifState = ExifState.no_data
      ∧ (Example.noData.readMetaData "a.jpg" (some [1, 2]) (fun _ => LoadRun.openNull)
          (fun _ => LoadRun.good Example.bothRated.mExifImg)).mExifState = ExifState.loaded := by
  decide

/-- C19 (amended): once the state of a record is NoData, no sequence of the
calls `setExifValue`, `setDescription`, `clearOrientation`, `setOrientation`,
`setRating`, `setThumbnail` and `saveMetaData` changes the record, so the
state stays NoData; only a further `readMetaData` call can change it. -/
theorem noData_kept_by_mutators (m : DkMetaDataT) (ops : List Op)
    (hs : m.mExifState = ExifState.no_data) :
    Op.applyAll m ops = m ∧ (Op.applyAll m ops).mExifState = ExifState.no_data := by
  have h : Op.applyAll m ops = m := by
    unfold Op.applyAll
    induction ops with
    | nil => rfl
    | cons op rest ih =>
      rw [List.foldl_cons, apply_of_unloaded m op (Or.inr hs)]
      exact ih
  rw [h]
  exact ⟨rfl, hs⟩

/-- C19 (witness): a rating, a rotation, a thumbnail and a forced save in a
row leave a record in state NoData as it is. -/
theorem noData_kept_by_mutators_witness :
    Op.applyAll Example.noData
        [Op.setRating 3, Op.setOrientation 90, Op.setThumbnail [1, 2, 3],
          Op.saveMetaData (some [1, 2]) true (SaveRun.written Image.null (some [1, 2]))]
      = Example.noData :=
  (noData_kept_by_mutators Example.noData _ rfl).1

/-- C21: for every record in state NotLoaded or NoData, each of
`setExifValue`, `setDescription`, `setOrientation`, `clearOrientation`,
`setRating`, `setThumbnail` and `saveMetaData` leaves the record as it is
(state and every EXIF/IPTC/XMP tag); so a call that ends in state Dirty
started in state Loaded or Dirty, and `readMetaData` never ends in Dirty. -/
theorem mutators_keep_unloaded (m : DkMetaDataT) (op : Op) :
    ((m.mExifState = ExifState.not_loaded ∨ m.mExifState = ExifState.no_data) →
        Op.apply m op = m)
      ∧ ((Op.apply m op).mExifState = ExifState.dirty →
        m.mExifState = ExifState.loaded ∨ m.mExifState = ExifState.dirty)
      ∧ (∀ filePath ba openFile openBuffer,
        (m.readMetaData filePath ba openFile openBuffer).mExifState ≠ ExifState.dirty) := by
  refine ⟨apply_of_unloaded m op, ?_, ?_⟩
  · intro hd
    cases hm : m.mExifState with
    | loaded => exact Or.inl rfl
    | dirty => exact Or.inr rfl
    | not_loaded =>
      rw [apply_of_unloaded m op (Or.inl hm), hm] at hd
      cases hd
    | no_data =>
      rw [apply_of_unloaded m op (Or.inr hm), hm] at hd
      cases hd
  · intro filePath ba openFile openBuffer
    unfold readMetaData
    cases openRun filePath ba openFile openBuffer <;> simp

/-- C21 (witness): on a record in state NoData a rating call changes nothing,
and the dirty record that `setRating(3)` leaves behind came from a loaded
one. -/
theorem mutators_keep_unloaded_witness :
    Op.apply Example.noData (Op.setRating 3) = Example.noData
      ∧ (Example.unrated.mExifState = ExifState.loaded
          ∨ Example.unrated.mExifState = ExifState.dirty) :=
  ⟨(mutators_keep_unloaded Example.noData (Op.setRating 3)).1 (Or.inr rfl),
    (mutators_keep_unloaded Example.unrated (Op.setRating 3)).2.1 (by decide)⟩

/-- C22: for every record in state Loaded or Dirty and every short key k,
`getExifValue(k)` returns the converted text of the value stored under
`Exif.Image.k` when that tag is present with a non-zero count; otherwise that
of the value stored under `Exif.Photo.k` when that tag is present with a
non-zero count; otherwise the empty string. -/
theorem getExifValue_fallback (codec : Codec) (m : DkMetaDataT) (key : String)
    (hs : m.mExifState = ExifState.loaded ∨ m.mExifState = ExifState.dirty) :
    m.getExifValue codec key =
      match presentExif codec m.exifData ("Exif.Image." ++ key) with
      | some p => exiv2ToQString p.toString
      | none =>
        match presentExif codec m.exifData ("Exif.Photo." ++ key) with
        | some p => exiv2ToQString p.toString
        | none => "" := by
  have hstate : ¬ (m.mExifState ≠ ExifState.loaded ∧ m.mExifState ≠ ExifState.dirty) := by
    rcases hs with h | h <;> simp [h]
  have hinfo : ∀ k, infoOf (findKey m.exifData k) =
      match (match findKey m.exifData k with
        | some pos => if pos.count ≠ 0 then some pos else none
        | none => none) with
      | some p => exiv2ToQString p.toString
      | none => "" := by
    intro k
    unfold infoOf
    cases findKey m.exifData k with
    | none => rfl
    | some pos => by_cases hc : pos.count = 0 <;> simp [hc]
  unfold getExifValue presentExif
  rw [if_neg hstate]
  by_cases hempty : m.exifData.isEmpty = true
  · have hnil : m.exifData = [] := List.isEmpty_iff.mp hempty
    simp [hnil, findKey]
    cases codec.exifKey ("Exif.Image." ++ key) <;> cases codec.exifKey ("Exif.Photo." ++ key)
      <;> rfl
  · simp only [hempty, Bool.not_false, if_true]
    cases hi : codec.exifKey ("Exif.Image." ++ key) with
    | none =>
      cases hp : codec.exifKey ("Exif.Photo." ++ key) with
      | none => rfl
      | some kp =>
        dsimp only
        rw [hinfo]
    | some ki =>
      dsimp only
      cases hfi : findKey m.exifData ki with
      | none =>
        cases hp : codec.exifKey ("Exif.Photo." ++ key) with
        | none => rfl
        | some kp =>
          dsimp only
          rw [hinfo]
      | some pos =>
        dsimp only
        by_cases hc : pos.count = 0
        · rw [if_pos hc, if_neg (not_not.mpr hc)]
          cases hp : codec.exifKey ("Exif.Photo." ++ key) with
          | none => rfl
          | some kp =>
            dsimp only
            rw [hinfo]
        · rw [if_neg hc, if_pos hc]
          simp [infoOf, hc]

/-- C22 (witness): `Exif.Image.Make` is present without components, so the
text of `Exif.Photo.Make` is returned. -/
theorem getExifValue_fallback_witness :
    Example.photoMake.getExifValue Example.plainCodec "Make" = "Canon" :=
  (getExifValue_fallback Example.plainCodec Example.photoMake "Make" (Or.inl rfl)).trans
    (by decide)

/-- C23 (counterexample): a tag whose value has exactly 2000 components, which
is not longer than 2000, is already replaced by the sentinel. -/
theorem getNativeExifValue_counterexample :
    (Example.oneTag "Exif.Image.Make" 2000 "x").mExifState = ExifState.loaded
      ∧ ¬ (2000 < (Metadatum.mk "Exif.Image.Make" (some (Value.other 2000 0 "x"))).count)
      ∧ (Example.oneTag "Exif.Image.Make" 2000 "x").getNativeExifValue Example.plainCodec
          "Exif.Image.Make" = "<data too large to display>" := by
  decide

/-- C23 (amended): for every record in state Loaded or Dirty and every EXIF
key whose tag is present with a non-zero count, `getNativeExifValue` returns
the "<data too large to display>" sentinel when the count of the value is
2000 or more, and the converted text of the value when the count is below
2000. -/
theorem getNativeExifValue_bound (codec : Codec) (m : DkMetaDataT) (key : String)
    (pos : Metadatum)
    (hs : m.mExifState = ExifState.loaded ∨ m.mExifState = ExifState.dirty)
    (hp : presentExif codec m.exifData key = some pos) :
    (2000 ≤ pos.count → m.getNativeExifValue codec key = "<data too large to display>")
      ∧ (pos.count < 2000 → m.getNativeExifValue codec key = exiv2ToQString pos.toString) := by
  have hstate : ¬ (m.mExifState ≠ ExifState.loaded ∧ m.mExifState ≠ ExifState.dirty) := by
    rcases hs with h | h <;> simp [h]
  unfold presentExif at hp
  cases hk : codec.exifKey key with
  | none => simp [hk] at hp
  | some k =>
    rw [hk] at hp
    dsimp only at hp
    cases hf : findKey m.exifData k with
    | none => simp [hf] at hp
    | some p =>
      rw [hf] at hp
      dsimp only at hp
      by_cases hc : p.count = 0
      · simp [hc] at hp
      · simp only [ne_eq, hc, not_false_eq_true, if_true, Option.some.injEq] at hp
        subst hp
        have hne : m.exifData.isEmpty = false := findKey_of_nil_isEmpty hf
        unfold getNativeExifValue
        rw [if_neg hstate]
        simp only [hne, Bool.not_false, if_true, hk, hf, ne_eq, hc, not_false_eq_true]
        constructor
        · intro h
          rw [if_neg (by omega)]
        · intro h
          rw [if_pos h]

/-- C23 (witness): with 1999 components the text is returned, with 2000 the
sentinel. -/
theorem getNativeExifValue_bound_witness :
    (Example.oneTag "Exif.Image.Make" 1999 "x").getNativeExifValue Example.plainCodec
        "Exif.Image.Make" = "x"
      ∧ (Example.oneTag "Exif.Image.Make" 2000 "x").getNativeExifValue Example.plainCodec
        "Exif.Image.Make" = "<data too large to display>" :=
  ⟨((getNativeExifValue_bound Example.plainCodec (Example.oneTag "Exif.Image.Make" 1999 "x")
      "Exif.Image.Make" (Metadatum.mk "Exif.Image.Make" (some (Value.other 1999 0 "x")))
      (Or.inl rfl) (by decide)).2 (by decide)).trans (by decide),
    (getNativeExifValue_bound Example.plainCodec (Example.oneTag "Exif.Image.Make" 2000 "x")
      "Exif.Image.Make" (Metadatum.mk "Exif.Image.Make" (some (Value.other 2000 0 "x")))
      (Or.inl rfl) (by decide)).1 (by decide)⟩

/-- C30 (counterexample): on a dirty record a result of 3 bytes for a buffer
of 5 bytes, more than half of it, is rejected: the threshold is
`qRound(2.5f)` = 3 and 3 does not exceed it. -/
theorem saveMetaData_gate_counterexample :
    (Example.unrated.setRating 3).mExifState = ExifState.dirty
      ∧ 2 * [7, 8, 9].length > [1, 2, 3, 4, 5].length
      ∧ (Example.unrated.setRating 3).saveMetaData (some [1, 2, 3, 4, 5]) true
          (SaveRun.written (Example.unrated.setRating 3).mExifImg (some [7, 8, 9]))
        = (Example.unrated.setRating 3, some [1, 2, 3, 4, 5], some false) := by
  decide

/-- C30 (amended): for every record in state Dirty, or in state Loaded when
the save is forced, every original buffer of fewer than 2^24 bytes, of size
n, and every serialization result of size m with 2 * m > n + 1 (more than
half of the original, rounded up), `saveMetaData` accepts the result: it
returns true, replaces the buffer by the result, takes the new container and
ends in state Loaded. -/
theorem saveMetaData_accepts (m : DkMetaDataT) (bytes tmp : List Nat) (force : Bool)
    (exifImgN : Image)
    (hs : m.mExifState = ExifState.dirty ∨ (m.mExifState = ExifState.loaded ∧ force = true))
    (hn : bytes.length < 16777216)
    (h : 2 * tmp.length > bytes.length + 1) :
    m.saveMetaData (some bytes) force (SaveRun.written exifImgN (some tmp))
      = ({ m.setExifImg exifImgN with mExifState := ExifState.loaded }, some tmp, some true) := by
  have hgate : (tmp.length : Int)
      > qRoundFloat (binary32 (mulQ (binary32 (mkRat bytes.length 1)) (mkRat 1 2))) := by
    rw [gate_threshold_small _ hn]
    omega
  have h1 : ¬ ((!force) = true ∧ m.mExifState ≠ ExifState.dirty) := by
    rcases hs with h | ⟨_, h⟩ <;> simp [h]
  have h2 : ¬ (m.mExifState = ExifState.not_loaded ∨ m.mExifState = ExifState.no_data) := by
    rcases hs with h | ⟨h, _⟩ <;> simp [h]
  unfold saveMetaData
  simp only [if_neg h1, if_neg h2, if_pos hgate]

/-- C30 (witness): on a dirty record a result of 4 bytes for a buffer of 5
bytes is accepted. -/
theorem saveMetaData_accepts_witness :
    ((Example.unrated.setRating 3).saveMetaData (some [1, 2, 3, 4, 5]) false
        (SaveRun.written (Example.unrated.setRating 3).mExifImg (some [6, 7, 8, 9]))).2
      = (some [6, 7, 8, 9], some true) :=
  congrArg Prod.snd
    (saveMetaData_accepts (Example.unrated.setRating 3) [1, 2, 3, 4, 5] [6, 7, 8, 9] false
      (Example.unrated.setRating 3).mExifImg (Or.inl (by decide)) (by decide) (by decide))

/-- C28 (failing input): for the path `/home/u/photo`, whose file name has no
extension, the computed sidecar path is `/home/u/phot.xmp`: the last character
of the name is removed; with an extension, `/home/u/photo.cr2` gives
`/home/u/photo.xmp`. -/
theorem xmpFilePath_without_extension :
    (Example.atPath "/home/u/photo").xmpFilePath = "/home/u/phot.xmp"
      ∧ (Example.atPath "/home/u/photo").xmpFilePath ≠ "/home/u/photo.xmp"
      ∧ (Example.atPath "/home/u/photo.cr2").xmpFilePath = "/home/u/photo.xmp" := by
  decide

/-- A key that is not found has no entry. -/
theorem countKey_eq_zero_of_findKey_none (d : List Metadatum) (k : String)
    (h : findKey d k = none) : countKey d k = 0 := by
  induction d with
  | nil => rfl
  | cons a ds ih =>
    by_cases hk : a.key = k
    · simp [findKey, hk] at h
    · have h2 : findKey ds k = none := by simpa [findKey, hk] using h
      have := ih h2
      simp only [countKey] at this ⊢
      simp [List.filter_cons, hk, this]

/-- A key that is found has an entry. -/
theorem countKey_pos_of_findKey_some {d : List Metadatum} {k : String} {e : Metadatum}
    (h : findKey d k = some e) : 1 ≤ countKey d k := by
  by_contra hc
  have h0 : countKey d k = 0 := by omega
  rw [findKey_eq_none_of_countKey_zero d k h0] at h
  cases h

/-- Appending an entry adds one to the number of entries of its key only. -/
theorem countKey_add (d : List Metadatum) (k k2 : String) (v : Value) :
    countKey (add d k v) k2 = countKey d k2 + (if k = k2 then 1 else 0) := by
  unfold add countKey
  by_cases hk : k = k2 <;> simp [List.filter_append, List.filter_cons, hk]

/-- Setting the value of the found entry keeps the number of entries of every
key. -/
theorem countKey_setValueFound (d : List Metadatum) (k k2 : String) (v : Value) :
    countKey (setValueFound d k v) k2 = countKey d k2 := by
  induction d with
  | nil => rfl
  | cons a ds ih =>
    simp only [countKey] at ih
    simp only [countKey]
    by_cases hk : a.key = k
    · rw [setValueFound, if_pos hk]
      by_cases hk2 : a.key = k2 <;> simp [List.filter_cons, hk2]
    · rw [setValueFound, if_neg hk]
      by_cases hk2 : a.key = k2 <;> simp [List.filter_cons, hk2, ih]

/-- Setting the value of the found entry does not empty a sequence. -/
theorem isEmpty_setValueFound (d : List Metadatum) (k : String) (v : Value) :
    (setValueFound d k v).isEmpty = d.isEmpty := by
  cases d with
  | nil => rfl
  | cons a ds => by_cases hk : a.key = k <;> simp [setValueFound, hk]

/-- One `setXMPValue` call on a sequence that is not empty and ready for the
key: it reports success, the key then has exactly one entry, which carries the
text, and the other keys are as before. -/
theorem setXMPValue_ready (codec : Codec) (data : List Metadatum) (k v : String)
    (hne : data.isEmpty = false) (hready : textOrAbsent data k = true)
    (hplain : hasTypeIndicator v = false) :
    (setXMPValue codec data k v).2 = true
      ∧ (setXMPValue codec data k v).1.isEmpty = false
      ∧ findKey (setXMPValue codec data k v).1 k
          = some { key := k, value := some (Value.xmpText v) }
      ∧ countKey (setXMPValue codec data k v).1 k = 1
      ∧ ∀ k2, k2 ≠ k →
          findKey (setXMPValue codec data k v).1 k2 = findKey data k2
            ∧ countKey (setXMPValue codec data k v).1 k2 = countKey data k2 := by
  have hread : ∀ t, (Value.xmpText t).read codec v = some (Value.xmpText v) := by
    intro t
    simp [Value.read, hplain]
  unfold textOrAbsent at hready
  simp only [Bool.and_eq_true, decide_eq_true_eq] at hready
  obtain ⟨hcount, hval⟩ := hready
  unfold setXMPValue
  simp only [hne, Bool.not_false, if_true, hread]
  cases hf : findKey data k with
  | none =>
    have hc0 := countKey_eq_zero_of_findKey_none data k hf
    dsimp only
    refine ⟨rfl, by simp [add], findKey_add_of_none _ hf, ?_, ?_⟩
    · simp [countKey_add, hc0]
    · intro k2 hk2
      refine ⟨findKey_add_other _ _ hk2, ?_⟩
      simp [countKey_add, Ne.symm hk2]
  | some d =>
    rw [hf] at hval
    have hkey := findKey_key hf
    cases hv : d.value with
    | none => simp [hv] at hval
    | some val =>
      cases val with
      | unsignedShort vs => simp [hv] at hval
      | other a b c => simp [hv] at hval
      | xmpText t =>
        simp only [hv, decide_eq_true_eq] at hval
        have hcnt : d.count ≠ 0 := by simpa [Metadatum.count, hv, Value.count] using hval
        have hset : d.setValueText codec v = (Value.xmpText v, 0) := by
          simp [Metadatum.setValueText, hv, hread]
        simp only [ne_eq, hcnt, not_false_eq_true, if_true, hset, decide_True]
        refine ⟨trivial, ?_, ?_, ?_, ?_⟩
        · rw [isEmpty_setValueFound]; exact hne
        · rw [findKey_setValueFound_same, hf]
          simp [hkey]
        · rw [countKey_setValueFound]
          have := countKey_pos_of_findKey_some hf
          omega
        · intro k2 hk2
          exact ⟨findKey_setValueFound_other _ _ hk2, countKey_setValueFound _ _ _ _⟩

/-- On an empty sequence `setXMPValue` changes nothing and returns false. -/
theorem setXMPValue_empty (codec : Codec) (k v : String) :
    setXMPValue codec [] k v = ([], false) := by
  simp [setXMPValue]

/-- On an empty sequence every call of a sequence of `setXMPValue` calls
returns false and the sequence stays empty. -/
theorem setXMPValues_empty (codec : Codec) (kvs : List (String × String)) :
    setXMPValues codec [] kvs = ([], kvs.map (fun _ => false)) := by
  induction kvs with
  | nil => rfl
  | cons kv rest ih => simp [setXMPValues, setXMPValue_empty, ih]

/-- A sequence of `setXMPValue` calls for distinct keys on a sequence that is
not empty and ready for each key: every call reports success, each key then
has exactly one entry, which carries its text, and the keys that are not
written are as before. -/
theorem setXMPValues_ready (codec : Codec) (kvs : List (String × String)) :
    ∀ data : List Metadatum, data.isEmpty = false →
      (kvs.map Prod.fst).Nodup →
      (∀ kv ∈ kvs, textOrAbsent data kv.1 = true ∧ hasTypeIndicator kv.2 = false) →
      (setXMPValues codec data kvs).2 = kvs.map (fun _ => true)
        ∧ (∀ kv ∈ kvs,
            findKey (setXMPValues codec data kvs).1 kv.1
                = some { key := kv.1, value := some (Value.xmpText kv.2) }
              ∧ countKey (setXMPValues codec data kvs).1 kv.1 = 1)
        ∧ (∀ k2, k2 ∉ kvs.map Prod.fst →
            findKey (setXMPValues codec data kvs).1 k2 = findKey data k2
              ∧ countKey (setXMPValues codec data kvs).1 k2 = countKey data k2) := by
  induction kvs with
  | nil =>
    intro data _ _ _
    simp [setXMPValues]
  | cons kv rest ih =>
    intro data hne hnodup hall
    have hhead := hall kv (List.mem_cons_self _ _)
    obtain ⟨hok, hne2, hfind, hcount, hother⟩ :=
      setXMPValue_ready codec data kv.1 kv.2 hne hhead.1 hhead.2
    have hnd : kv.1 ∉ rest.map Prod.fst ∧ (rest.map Prod.fst).Nodup := by
      simpa using hnodup
    have hrest : ∀ kv2 ∈ rest, textOrAbsent (setXMPValue codec data kv.1 kv.2).1 kv2.1 = true
        ∧ hasTypeIndicator kv2.2 = false := by
      intro kv2 hmem
      have h2 := hall kv2 (List.mem_cons_of_mem _ hmem)
      have hne3 : kv2.1 ≠ kv.1 := by
        intro heq
        exact hnd.1 (heq ▸ List.mem_map_of_mem Prod.fst hmem)
      refine ⟨?_, h2.2⟩
      have := h2.1
      unfold textOrAbsent at this ⊢
      rw [(hother kv2.1 hne3).1, (hother kv2.1 hne3).2]
      exact this
    obtain ⟨r1, r2, r3⟩ := ih (setXMPValue codec data kv.1 kv.2).1 hne2 hnd.2 hrest
    refine ⟨?_, ?_, ?_⟩
    · simp [setXMPValues, hok, r1]
    · intro kv2 hmem
      rcases List.mem_cons.mp hmem with heq | hmem2
      · subst heq
        have := r3 kv2.1 hnd.1
        simp only [setXMPValues]
        rw [this.1, this.2]
        exact ⟨hfind, hcount⟩
      · simpa [setXMPValues] using r2 kv2 hmem2
    · intro k2 hk2
      have hk2' : k2 ≠ kv.1 ∧ k2 ∉ rest.map Prod.fst := by
        simpa using hk2
      have := r3 k2 hk2'.2
      simp only [setXMPValues]
      rw [this.1, this.2]
      exact hother k2 hk2'.1

/-- The eight calls of `saveRectToXMP` are the sequence of calls for its
entries. -/
theorem saveRectToXMP_eq (codec : Codec) (data : List Metadatum)
    (topStr leftStr bottomStr rightStr cropAngleStr : String) :
    saveRectToXMP codec data topStr leftStr bottomStr rightStr cropAngleStr
      = setXMPValues codec data (cropEntries topStr leftStr bottomStr rightStr cropAngleStr) :=
  rfl

/-- C29 (failing input): on an empty mapping the eight calls of
`saveRectToXMP` all return false and the mapping stays empty, so no crop
value is written; on a mapping whose `Xmp.crs.CropTop` entry has an empty
text the calls leave two entries under that key; an entry that is there twice
stays there twice. -/
theorem saveRectToXMP_on_empty_mapping :
    saveRectToXMP Example.plainCodec [] "0.1" "0.2" "0.9" "0.8" "0"
        = ([], [false, false, false, false, false, false, false, false])
      ∧ countKey (saveRectToXMP Example.plainCodec
            [{ key := "Xmp.crs.CropTop", value := some (Value.xmpText "") }]
            "0.1" "0.2" "0.9" "0.8" "0").1 "Xmp.crs.CropTop" = 2
      ∧ countKey (saveRectToXMP Example.plainCodec
            [{ key := "Xmp.crs.CropTop", value := some (Value.xmpText "0.3") },
             { key := "Xmp.crs.CropTop", value := some (Value.xmpText "0.4") }]
            "0.1" "0.2" "0.9" "0.8" "0").1 "Xmp.crs.CropTop" = 2 := by
  decide

/-- The crop write on the mappings on which it works: on a mapping that is
not empty and holds each of the eight keys at most once, as a text that is
not empty, every `setXMPValue` call of `saveRectToXMP` reports success and
afterwards each of the eight keys has exactly one entry, which carries the
newly written text; on an empty mapping the calls change nothing and return
false.  The five number texts do not open with a type indicator (`setNum`
never writes one). -/
theorem saveRectToXMP_replace_or_insert (codec : Codec) (data : List Metadatum)
    (topStr leftStr bottomStr rightStr cropAngleStr : String)
    (hready : ∀ kv ∈ cropEntries topStr leftStr bottomStr rightStr cropAngleStr,
      textOrAbsent data kv.1 = true)
    (hplain : ∀ s ∈ [topStr, leftStr, bottomStr, rightStr, cropAngleStr],
      hasTypeIndicator s = false) :
    (data.isEmpty = true →
        saveRectToXMP codec data topStr leftStr bottomStr rightStr cropAngleStr
          = (data, [false, false, false, false, false, false, false, false]))
      ∧ (data.isEmpty = false →
          (saveRectToXMP codec data topStr leftStr bottomStr rightStr cropAngleStr).2
              = [true, true, true, true, true, true, true, true]
            ∧ ∀ kv ∈ cropEntries topStr leftStr bottomStr rightStr cropAngleStr,
                findKey (saveRectToXMP codec data topStr leftStr bottomStr rightStr
                    cropAngleStr).1 kv.1
                    = some { key := kv.1, value := some (Value.xmpText kv.2) }
                  ∧ countKey (saveRectToXMP codec data topStr leftStr bottomStr rightStr
                      cropAngleStr).1 kv.1 = 1) := by
  constructor
  · intro he
    have hd : data = [] := by
      cases data with
      | nil => rfl
      | cons a ds => simp at he
    subst hd
    rw [saveRectToXMP_eq, setXMPValues_empty]
    rfl
  · intro hne
    have hnodup : ((cropEntries topStr leftStr bottomStr rightStr cropAngleStr).map
        Prod.fst).Nodup := by
      simp only [cropEntries, List.map]
      decide
    have hall : ∀ kv ∈ cropEntries topStr leftStr bottomStr rightStr cropAngleStr,
        textOrAbsent data kv.1 = true ∧ hasTypeIndicator kv.2 = false := by
      intro kv hmem
      refine ⟨hready kv hmem, ?_⟩
      simp only [cropEntries, List.mem_cons, List.mem_singleton, List.not_mem_nil,
        or_false] at hmem
      rcases hmem with h | h | h | h | h | h | h | h <;> subst h
      · exact hplain _ (by simp)
      · exact hplain _ (by simp)
      · exact hplain _ (by simp)
      · exact hplain _ (by simp)
      · exact hplain _ (by simp)
      · decide
      · decide
      · decide
    obtain ⟨r1, r2, _⟩ := setXMPValues_ready codec
      (cropEntries topStr leftStr bottomStr rightStr cropAngleStr) data hne hnodup hall
    rw [saveRectToXMP_eq]
    exact ⟨r1, r2⟩

/-- The crop write on the XMP data of a record rated 3. -/
theorem saveRectToXMP_replace_or_insert_witness :
    (Example.xmpRated "3").xmpData.isEmpty = false
      ∧ (saveRectToXMP Example.plainCodec (Example.xmpRated "3").xmpData
            "0.1" "0.2" "0.9" "0.8" "0").2
          = [true, true, true, true, true, true, true, true]
      ∧ countKey (saveRectToXMP Example.plainCodec (Example.xmpRated "3").xmpData
            "0.1" "0.2" "0.9" "0.8" "0").1 "Xmp.crs.CropTop" = 1 :=
  have h := (saveRectToXMP_replace_or_insert Example.plainCodec (Example.xmpRated "3").xmpData
    "0.1" "0.2" "0.9" "0.8" "0" (by decide) (by decide)).2 (by decide)
  ⟨by decide, h.1, (h.2 ("Xmp.crs.CropTop", "0.1") (by decide)).2⟩

/-- Casting a width to `int` and back to `uint32_t` gives the width. -/
theorem toUInt32_toInt32 (w : Nat) (hw : w < 4294967296) : toUInt32 (toInt32 w) = w := by
  unfold toUInt32 toInt32
  rw [Nat.mod_eq_of_lt hw]
  split_ifs with h <;> omega

/-- The loop of `getPreviewImage` for a minimal width that is not negative:
when the index so far is that of a widest width seen that exceeds the minimal
width (or -1 when none does), the same holds at the end. -/
theorem previewLoop_invariant (minW : Int) (hmin : 0 ≤ minW) (hmin2 : minW < 2147483648) :
    ∀ (rest pre : List Nat) (mIdx maxWidth : Int),
      (∀ w ∈ pre ++ rest, w < 4294967296) →
      ((mIdx = -1 ∧ toUInt32 maxWidth = 0 ∧ ∀ w ∈ pre, (w : Int) ≤ minW)
        ∨ (∃ i : Nat, mIdx = i ∧ pre[i]? = some (toUInt32 maxWidth)
            ∧ minW < toUInt32 maxWidth ∧ ∀ w ∈ pre, w ≤ toUInt32 maxWidth)) →
      ((previewLoop minW rest pre.length mIdx maxWidth = -1
          ∧ ∀ w ∈ pre ++ rest, (w : Int) ≤ minW)
        ∨ (∃ i M : Nat, previewLoop minW rest pre.length mIdx maxWidth = i
            ∧ (pre ++ rest)[i]? = some M ∧ minW < M ∧ ∀ w ∈ pre ++ rest, w ≤ M)) := by
  have hcast : toUInt32 minW = minW.toNat := by
    unfold toUInt32
    rw [Int.emod_eq_of_lt hmin (by omega)]
  intro rest
  induction rest with
  | nil =>
    intro pre mIdx maxWidth _ hinv
    simp only [previewLoop, List.append_nil]
    rcases hinv with ⟨h1, _, h3⟩ | ⟨i, h1, h2, h3, h4⟩
    · exact Or.inl ⟨h1, h3⟩
    · exact Or.inr ⟨i, toUInt32 maxWidth, h1, h2, h3, h4⟩
  | cons width rest ih =>
    intro pre mIdx maxWidth hw hinv
    have hwidth : width < 4294967296 := hw width (by simp)
    have happ : pre ++ width :: rest = (pre ++ [width]) ++ rest := by simp
    have hlen : pre.length + 1 = (pre ++ [width]).length := by simp
    rw [happ] at hw ⊢
    simp only [previewLoop]
    by_cases hc : width > toUInt32 maxWidth ∧ width > toUInt32 minW
    · rw [if_pos hc, hlen]
      apply ih (pre ++ [width]) _ _ hw
      right
      refine ⟨pre.length, rfl, ?_, ?_, ?_⟩
      · rw [toUInt32_toInt32 width hwidth]; simp
      · rw [toUInt32_toInt32 width hwidth]; omega
      · rw [toUInt32_toInt32 width hwidth]
        intro w hmem
        rcases List.mem_append.mp hmem with hm | hm
        · rcases hinv with ⟨_, _, h3⟩ | ⟨i, _, _, _, h4⟩
          · have := h3 w hm; omega
          · have := h4 w hm; omega
        · simp at hm; omega
    · rw [if_neg hc, hlen]
      apply ih (pre ++ [width]) _ _ hw
      rcases hinv with ⟨h1, h2, h3⟩ | ⟨i, h1, h2, h3, h4⟩
      · left
        refine ⟨h1, h2, ?_⟩
        intro w hmem
        rcases List.mem_append.mp hmem with hm | hm
        · exact h3 w hm
        · simp at hm; subst hm
          by_contra hcon
          exact hc ⟨by omega, by omega⟩
      · right
        refine ⟨i, h1, ?_, h3, ?_⟩
        · have hi : i < pre.length := by
            by_contra hcon
            rw [List.getElem?_eq_none (by omega)] at h2
            cases h2
          rw [List.getElem?_append_left hi]; exact h2
        · intro w hmem
          rcases List.mem_append.mp hmem with hm | hm
          · exact h4 w hm
          · simp at hm; subst hm
            by_contra hcon
            exact hc ⟨by omega, by omega⟩

/-- Preview selection for a minimal width that is not negative, on a record
that passes the guards: no preview is chosen exactly when no width exceeds
the minimal width, and a chosen index is that of a widest preview, whose
width exceeds the minimal width. -/
theorem getPreviewImage_of_nonneg (m : DkMetaDataT) (pList : List Nat) (minW : Int)
    (hs : m.mExifState = ExifState.loaded ∨ m.mExifState = ExifState.dirty)
    (he : m.exifData.isEmpty = false)
    (hw : ∀ w ∈ pList, w < 4294967296) (hmin : 0 ≤ minW) (hmin2 : minW < 2147483648) :
    (m.getPreviewImage pList minW = none ∧ ∀ w ∈ pList, (w : Int) ≤ minW)
      ∨ (∃ i M : Nat, m.getPreviewImage pList minW = some i
          ∧ pList[i]? = some M ∧ minW < M ∧ ∀ w ∈ pList, w ≤ M) := by
  have hg : ¬(m.mExifState ≠ ExifState.loaded ∧ m.mExifState ≠ ExifState.dirty) := by
    rcases hs with h | h <;> simp [h]
  have h := previewLoop_invariant minW hmin hmin2 pList [] (-1) 0 (by simpa using hw)
    (Or.inl ⟨rfl, by decide, by simp⟩)
  simp only [List.nil_append, List.length_nil] at h
  unfold getPreviewImage
  rw [if_neg hg, he]
  simp only [Bool.false_eq_true, if_false]
  rcases h with ⟨h1, h2⟩ | ⟨i, M, h1, h2, h3, h4⟩
  · left
    exact ⟨by rw [if_pos h1], h2⟩
  · right
    refine ⟨i, M, ?_, h2, h3, h4⟩
    rw [h1, if_neg (by omega)]
    simp

/-- C24 (failing input): with the single preview width 640 and the minimal
width -1 no preview is chosen, although 640 exceeds -1; with the minimal
width 0 the preview is chosen. -/
theorem getPreviewImage_negative_minimum :
    (Example.oriented 1).getPreviewImage [640] (-1) = none
      ∧ (Example.oriented 1).getPreviewImage [640] 0 = some 0 := by
  decide

/-- The quotient written on numerators and denominators is the quotient. -/
theorem quot_eq (x y : ℚ) : FloatVal.quot x y = x / y := by
  unfold FloatVal.quot
  rw [Rat.divInt_eq_div]
  conv_rhs => rw [← Rat.num_div_den x, ← Rat.num_div_den y]
  push_cast
  rw [div_div_div_eq, mul_comm (y.num : ℚ)]

/-- Splitting gives at least one part. -/
theorem splitChar_ne_nil (sep : Char) (cs : List Char) : splitChar sep cs ≠ [] := by
  unfold splitChar
  induction cs with
  | nil => simp
  | cons c cs ih =>
    simp only [List.foldr_cons]
    split_ifs
    · simp
    · split <;> simp

/-- The digits of a number are not empty when digits are there already. -/
theorem toDigitsCore_ne_nil (b : Nat) : ∀ (f n : Nat) (ds : List Char), ds ≠ [] →
    Nat.toDigitsCore b f n ds ≠ [] := by
  intro f
  induction f with
  | zero => intro n ds h; simpa [Nat.toDigitsCore] using h
  | succ f ih =>
    intro n ds _
    simp only [Nat.toDigitsCore]
    split_ifs
    · simp
    · exact ih _ _ (by simp)

/-- The decimal text of a natural number is not empty. -/
theorem repr_length_pos (n : Nat) : 0 < (Nat.repr n).length := by
  have h : Nat.toDigits 10 n ≠ [] := by
    unfold Nat.toDigits
    simp only [Nat.toDigitsCore]
    split_ifs
    · simp
    · exact toDigitsCore_ne_nil _ _ _ _ (by simp)
  show 0 < (Nat.toDigits 10 n).asString.length
  simp only [String.length, List.asString]
  exact List.length_pos.mpr h

/-- The text of an integer is not empty. -/
theorem intText_length_pos (i : Int) : 0 < (intText i).length := by
  unfold intText
  split_ifs
  · rw [String.length_append]
    have := repr_length_pos i.natAbs
    omega
  · exact repr_length_pos _

/-- A text of positive length is not the empty text. -/
theorem ne_empty_of_length_pos {s : String} (h : 0 < s.length) : s ≠ "" := by
  intro he
  subst he
  simp at h

/-- A text that is not empty has positive length. -/
theorem length_pos_of_ne_empty {s : String} (h : s ≠ "") : 0 < s.length := by
  by_contra hc
  apply h
  have h0 : s.data.length = 0 := by
    have : s.length = s.data.length := rfl
    omega
  have hd : s.data = [] := List.length_eq_zero.mp h0
  exact String.ext hd

/-- Joining keeps at least the length of what is joined so far. -/
theorem intercalate_go_length (sep : String) : ∀ (l : List String) (acc : String),
    acc.length ≤ (String.intercalate.go acc sep l).length := by
  intro l
  induction l with
  | nil => intro acc; simp [String.intercalate.go]
  | cons a as ih =>
    intro acc
    simp only [String.intercalate.go]
    have := ih (acc ++ sep ++ a)
    simp only [String.length_append] at this
    omega

/-- Joining a list that is not empty of texts that are not empty gives a text
that is not empty. -/
theorem intercalate_ne_empty (sep : String) (l : List String) (hl : l ≠ [])
    (hne : ∀ s ∈ l, s ≠ "") : sep.intercalate l ≠ "" := by
  cases l with
  | nil => exact absurd rfl hl
  | cons a as =>
    simp only [String.intercalate]
    have h1 := length_pos_of_ne_empty (hne a (by simp))
    have h2 := intercalate_go_length sep as a
    exact ne_empty_of_length_pos (by omega)

/-- The loop of `convertGpsCoordinates` returns the empty list when an entry
still to come does not split into exactly two parts. -/
theorem gpsLoop_bad (qt : QtText) (deg : String) : ∀ (entries : List (List Char)) (i : Nat)
    (gpsInfo : List String), (∃ e ∈ entries, (splitChar '/' e).length ≠ 2) →
    gpsLoop qt deg entries i gpsInfo = [] := by
  intro entries
  induction entries with
  | nil => intro i gpsInfo h; simp at h
  | cons valS rest ih =>
    intro i gpsInfo h
    unfold gpsLoop
    split
    · next p0 p1 heq =>
      apply ih
      obtain ⟨e, hmem, hbad⟩ := h
      rcases List.mem_cons.mp hmem with he | he
      · subst he
        rw [heq] at hbad
        simp at hbad
      · exact ⟨e, he, hbad⟩
    · rfl

/-- The loop of `convertGpsCoordinates` keeps what it has when every entry
still to come splits into exactly two parts. -/
theorem gpsLoop_good (qt : QtText) (deg : String) : ∀ (entries : List (List Char)) (i : Nat)
    (gpsInfo : List String), (∀ e ∈ entries, (splitChar '/' e).length = 2) →
    gpsInfo.length ≤ (gpsLoop qt deg entries i gpsInfo).length := by
  intro entries
  induction entries with
  | nil => intro i gpsInfo _; simp [gpsLoop]
  | cons valS rest ih =>
    intro i gpsInfo h
    unfold gpsLoop
    split
    · next p0 p1 heq =>
      refine le_trans ?_ (ih _ _ (fun e he => h e (List.mem_cons_of_mem _ he)))
      dsimp only
      split_ifs <;> simp
    · next hno =>
      have h2 := h valS (List.mem_cons_self _ _)
      match hs : splitChar '/' valS, h2 with
      | [a, b], _ => exact absurd hs (hno a b)

/-- The loop of `convertGpsCoordinates` produces no empty text. -/
theorem gpsLoop_ne_empty (qt : QtText) (deg : String) : ∀ (entries : List (List Char))
    (i : Nat) (gpsInfo : List String), (∀ s ∈ gpsInfo, s ≠ "") →
    ∀ s ∈ gpsLoop qt deg entries i gpsInfo, s ≠ "" := by
  have hint : ∀ v, setNumInt qt v ++ deg ≠ "" := by
    intro v
    apply ne_empty_of_length_pos
    rw [String.length_append]
    have : 0 < (setNumInt qt v).length := by
      unfold setNumInt
      split
      · split_ifs <;> exact intText_length_pos _
      · exact intText_length_pos _
    omega
  have hq : ∀ (t : String), t ++ "'" ≠ "" := by
    intro t
    apply ne_empty_of_length_pos
    rw [String.length_append]
    have : "'".length = 1 := rfl
    omega
  have hqq : ∀ (t : String), t ++ "''" ≠ "" := by
    intro t
    apply ne_empty_of_length_pos
    rw [String.length_append]
    have : "''".length = 2 := rfl
    omega
  have hite : ∀ (c : Prop) [Decidable c] (a b : List String),
      (∀ s ∈ a, s ≠ "") → (∀ s ∈ b, s ≠ "") → ∀ s ∈ (if c then a else b), s ≠ "" := by
    intro c _ a b ha hb
    split_ifs
    · exact ha
    · exact hb
  have happ : ∀ (a : List String) (t : String),
      (∀ s ∈ a, s ≠ "") → t ≠ "" → ∀ s ∈ a ++ [t], s ≠ "" := by
    intro a t ha ht s hs
    rcases List.mem_append.mp hs with h1 | h1
    · exact ha s h1
    · simp only [List.mem_singleton] at h1
      subst h1
      exact ht
  intro entries
  induction entries with
  | nil => intro i gpsInfo h; simpa [gpsLoop] using h
  | cons valS rest ih =>
    intro i gpsInfo h
    unfold gpsLoop
    split
    · next p0 p1 heq =>
      apply ih
      have g1 := hite (i = 0) _ _ (happ gpsInfo _ h (hint (gpsValue qt p0 p1))) h
      have g2 := hite (i = 1) _ _
        (happ _ _ g1 (hq (if (toFloat qt p1).1.gtOne then setNumFixed qt (gpsValue qt p0 p1)
          else setNumInt qt (gpsValue qt p0 p1)))) g1
      exact hite (i = 2) _ _
        (hite _ _ _ (happ _ _ g2 (hqq (setNumFixed qt (gpsValue qt p0 p1)))) g2) g2
    · intro s hs
      simp at hs

/-- A coordinate text whose entries all split into exactly two parts is
converted to a list that is not empty. -/
theorem convertGpsCoordinates_ne_nil (qt : QtText) (deg : String) (coordString : String)
    (h : ∀ e ∈ splitChar ' ' coordString.toList, (splitChar '/' e).length = 2) :
    convertGpsCoordinates qt deg coordString ≠ [] := by
  unfold convertGpsCoordinates
  cases hs : splitChar ' ' coordString.toList with
  | nil => exact absurd hs (splitChar_ne_nil _ _)
  | cons valS rest =>
    rw [hs] at h
    unfold gpsLoop
    split
    · next p0 p1 heq =>
      have := gpsLoop_good qt deg rest (0 + 1)
        (if 2 = 0 then [] ++ [setNumInt qt (gpsValue qt p0 p1) ++ deg]
          else [] ++ [setNumInt qt (gpsValue qt p0 p1) ++ deg])
        (fun e he => h e (List.mem_cons_of_mem _ he))
      intro hnil
      simp only [List.nil_append, ite_self, List.length_singleton] at this
      simp only [List.nil_append, if_true, Nat.zero_ne_one, if_false, OfNat.zero_ne_ofNat] at hnil
      rw [hnil] at this
      simp at this
    · next hno =>
      have h2 := h valS (List.mem_cons_self _ _)
      match hs2 : splitChar '/' valS, h2 with
      | [a, b], _ => exact absurd hs2 (hno a b)

/-- The empty coordinate text, that of a missing tag, is converted to the
empty list. -/
theorem convertGpsCoordinates_empty (qt : QtText) (deg : String) :
    convertGpsCoordinates qt deg "" = [] :=
  gpsLoop_bad qt deg _ 0 [] ⟨[], by decide, by decide⟩

/-- The link `getGpsCoordinates` returns when both converted coordinates are
lists that are not empty. -/
theorem getGpsCoordinates_link (qt : QtText) (codec : Codec) (deg : String) (m : DkMetaDataT)
    (hlat : convertGpsCoordinates qt deg
      (m.getNativeExifValue codec "Exif.GPSInfo.GPSLatitude") ≠ [])
    (hlon : convertGpsCoordinates qt deg
      (m.getNativeExifValue codec "Exif.GPSInfo.GPSLongitude") ≠ []) :
    getGpsCoordinates qt codec deg m
      = "http://maps.google.at/maps?q="
        ++ ("+" ++ m.getNativeExifValue codec "Exif.GPSInfo.GPSLatitudeRef" ++ "+"
            ++ "+".intercalate (convertGpsCoordinates qt deg
                (m.getNativeExifValue codec "Exif.GPSInfo.GPSLatitude")))
        ++ ("+" ++ m.getNativeExifValue codec "Exif.GPSInfo.GPSLongitudeRef" ++ "+"
            ++ "+".intercalate (convertGpsCoordinates qt deg
                (m.getNativeExifValue codec "Exif.GPSInfo.GPSLongitude"))) := by
  have hmeta : m.hasMetaData = true := by
    by_contra hc
    have hst : m.mExifState ≠ ExifState.loaded ∧ m.mExifState ≠ ExifState.dirty := by
      unfold hasMetaData at hc
      cases hs : m.mExifState <;> simp [hs] at hc ⊢
    apply hlat
    have : m.getNativeExifValue codec "Exif.GPSInfo.GPSLatitude" = "" := by
      unfold getNativeExifValue
      rw [if_pos hst]
    rw [this]
    exact convertGpsCoordinates_empty qt deg
  have h1 := intercalate_ne_empty "+" _ hlat
    (gpsLoop_ne_empty qt deg _ 0 [] (by simp))
  have h2 := intercalate_ne_empty "+" _ hlon
    (gpsLoop_ne_empty qt deg _ 0 [] (by simp))
  unfold getGpsCoordinates
  rw [if_pos hmeta]
  dsimp only
  rw [if_neg (by
    intro h
    rcases h with h | h
    · exact h1 h
    · exact h2 h)]

/-- C26: `convertGpsCoordinates` returns the empty list whenever an entry of
the coordinate text between blanks does not split into exactly two parts on
`/`, as for the empty text of a missing tag; `getGpsCoordinates` returns the
empty text whenever the converted latitude or the converted longitude is
empty, and otherwise the map-query prefix followed by both references and
both converted coordinates. -/
theorem getGpsCoordinates_all_or_nothing (qt : QtText) (codec : Codec) (deg : String)
    (m : DkMetaDataT) :
    (∀ coordString : String,
        (∃ e ∈ splitChar ' ' coordString.toList, (splitChar '/' e).length ≠ 2) →
        convertGpsCoordinates qt deg coordString = [])
      ∧ convertGpsCoordinates qt deg "" = []
      ∧ ((convertGpsCoordinates qt deg
              (m.getNativeExifValue codec "Exif.GPSInfo.GPSLatitude") = []
            ∨ convertGpsCoordinates qt deg
              (m.getNativeExifValue codec "Exif.GPSInfo.GPSLongitude") = []) →
          getGpsCoordinates qt codec deg m = "")
      ∧ (convertGpsCoordinates qt deg
            (m.getNativeExifValue codec "Exif.GPSInfo.GPSLatitude") ≠ [] →
          convertGpsCoordinates qt deg
            (m.getNativeExifValue codec "Exif.GPSInfo.GPSLongitude") ≠ [] →
          getGpsCoordinates qt codec deg m
            = "http://maps.google.at/maps?q="
              ++ ("+" ++ m.getNativeExifValue codec "Exif.GPSInfo.GPSLatitudeRef" ++ "+"
                  ++ "+".intercalate (convertGpsCoordinates qt deg
                      (m.getNativeExifValue codec "Exif.GPSInfo.GPSLatitude")))
              ++ ("+" ++ m.getNativeExifValue codec "Exif.GPSInfo.GPSLongitudeRef" ++ "+"
                  ++ "+".intercalate (convertGpsCoordinates qt deg
                      (m.getNativeExifValue codec "Exif.GPSInfo.GPSLongitude")))) := by
  refine ⟨fun s h => gpsLoop_bad qt deg _ 0 [] h, convertGpsCoordinates_empty qt deg, ?_,
    fun h1 h2 => getGpsCoordinates_link qt codec deg m h1 h2⟩
  intro h
  unfold getGpsCoordinates
  by_cases hm : m.hasMetaData = true
  · rw [if_pos hm]
    dsimp only
    rw [if_pos]
    rcases h with h | h
    · left; rw [h]; rfl
    · right; rw [h]; rfl
  · rw [if_neg hm]

/-- C26 (witness): a record with a complete position gives the full link, in
which the seconds 3194/100, divided as `float`, read 31.940001; a record
whose latitude has an entry without `/` gives the empty text. -/
theorem getGpsCoordinates_all_or_nothing_witness :
    getGpsCoordinates Example.plainText Example.plainCodec "°"
        (Example.located "48/1 8/1 3194/100" "N" "16/1 15/1 35/1" "E")
      = "http://maps.google.at/maps?q=" ++ ("+" ++ "N" ++ "+" ++ "48°+8'+31.940001''")
          ++ ("+" ++ "E" ++ "+" ++ "16°+15'+35.000000''")
      ∧ getGpsCoordinates Example.plainText Example.plainCodec "°"
          (Example.located "48/1 8/1 3194" "N" "16/1 15/1 35/1" "E") = "" :=
  ⟨(getGpsCoordinates_all_or_nothing Example.plainText Example.plainCodec "°"
      (Example.located "48/1 8/1 3194/100" "N" "16/1 15/1 35/1" "E")).2.2.2
      (by decide) (by decide),
   (getGpsCoordinates_all_or_nothing Example.plainText Example.plainCodec "°"
      (Example.located "48/1 8/1 3194" "N" "16/1 15/1 35/1" "E")).2.2.1
      (Or.inl (by decide))⟩

set_option maxRecDepth 4096 in
/-- C25 (counterexample): for the latitude `48/0 8/1 31/1`, whose first
component has denominator 0, `getGpsCoordinates` returns a link, in which
that component is 48. -/
theorem getGpsCoordinates_counterexample :
    getGpsCoordinates Example.plainText Example.plainCodec "°"
        (Example.located "48/0 8/1 31/1" "N" "16/1 15/1 35/1" "E")
      = "http://maps.google.at/maps?q=+N+48°+8'+31.000000''+E+16°+15'+35.000000''" := by
  decide

/-- C25 (amended): when every entry of the latitude and of the longitude
splits into exactly two parts on `/`, `getGpsCoordinates` returns the link,
which is not empty, whatever the denominators; an entry whose second part is
converted to 0 has the value of its first part. -/
theorem getGpsCoordinates_zero_denominator (qt : QtText) (codec : Codec) (deg : String)
    (m : DkMetaDataT)
    (hlat : ∀ e ∈ splitChar ' ' (m.getNativeExifValue codec "Exif.GPSInfo.GPSLatitude").toList,
      (splitChar '/' e).length = 2)
    (hlon : ∀ e ∈ splitChar ' ' (m.getNativeExifValue codec "Exif.GPSInfo.GPSLongitude").toList,
      (splitChar '/' e).length = 2) :
    getGpsCoordinates qt codec deg m ≠ ""
      ∧ getGpsCoordinates qt codec deg m
          = "http://maps.google.at/maps?q="
            ++ ("+" ++ m.getNativeExifValue codec "Exif.GPSInfo.GPSLatitudeRef" ++ "+"
                ++ "+".intercalate (convertGpsCoordinates qt deg
                    (m.getNativeExifValue codec "Exif.GPSInfo.GPSLatitude")))
            ++ ("+" ++ m.getNativeExifValue codec "Exif.GPSInfo.GPSLongitudeRef" ++ "+"
                ++ "+".intercalate (convertGpsCoordinates qt deg
                    (m.getNativeExifValue codec "Exif.GPSInfo.GPSLongitude")))
      ∧ ∀ p0 p1 : List Char, (toFloat qt p1).1 = FloatVal.finite 0 →
          gpsValue qt p0 p1 = (toFloat qt p0).1 := by
  have hlink := getGpsCoordinates_link qt codec deg m
    (convertGpsCoordinates_ne_nil qt deg _ hlat) (convertGpsCoordinates_ne_nil qt deg _ hlon)
  refine ⟨?_, hlink, ?_⟩
  · rw [hlink]
    apply ne_empty_of_length_pos
    simp only [String.length_append]
    have : "http://maps.google.at/maps?q=".length = 29 := by decide
    omega
  · intro p0 p1 h0
    unfold gpsValue
    simp [h0, FloatVal.isZero]

/-- C25 (witness): the latitude `48/0 8/1 31/1` gives a link. -/
theorem getGpsCoordinates_zero_denominator_witness :
    getGpsCoordinates Example.plainText Example.plainCodec "°"
        (Example.located "48/0 8/1 31/1" "N" "16/1 15/1 35/1" "E") ≠ ""
      ∧ gpsValue Example.plainText "48".toList "0".toList = FloatVal.finite 48 :=
  have h := getGpsCoordinates_zero_denominator Example.plainText Example.plainCodec "°"
    (Example.located "48/0 8/1 31/1" "N" "16/1 15/1 35/1" "E") (by decide) (by decide)
  ⟨h.1, (h.2.2 "48".toList "0".toList (by decide)).trans (by decide)⟩

/-- C27 (counterexample): `1.5/2` is converted to 0.75 and `3/0` to an
infinity, neither to -1. -/
theorem convertRational_counterexample :
    convertRational Example.plainText "1.5/2" = FloatVal.finite (mkRat 3 4)
      ∧ convertRational Example.plainText "1.5/2" ≠ FloatVal.finite (-1)
      ∧ convertRational Example.plainText "3/0" = FloatVal.posInf
      ∧ convertRational Example.plainText "3/0" ≠ FloatVal.finite (-1) := by
  decide

/-- C27 (amended): `convertRational` yields something other than -1 only if
the text splits on `/` into exactly two parts that `toFloat` both converts;
when both parts are converted to finite values and the second is not 0, the
result is the first divided by the second as `float`: the quotient rounded to
binary32, an infinity when it is beyond the range of `float`. -/
theorem convertRational_value (qt : QtText) (val : String) :
    (convertRational qt val ≠ FloatVal.finite (-1) →
        ∃ s0 s1, splitChar '/' val.toList = [s0, s1]
          ∧ (toFloat qt s0).2 = true ∧ (toFloat qt s1).2 = true)
      ∧ (∀ (s0 s1 : List Char) (x y : ℚ), splitChar '/' val.toList = [s0, s1] →
          toFloat qt s0 = (FloatVal.finite x, true) →
          toFloat qt s1 = (FloatVal.finite y, true) → y ≠ 0 →
          convertRational qt val = FloatVal.ofRat (x / y)) := by
  constructor
  · intro h
    unfold convertRational at h
    split at h
    · next s0 s1 heq =>
      dsimp only at h
      by_cases hc : (!(toFloat qt s0).2) = true ∨ (!(toFloat qt s1).2) = true
      · rw [if_pos hc] at h
        exact absurd rfl h
      · refine ⟨s0, s1, heq, ?_, ?_⟩
        · cases hb : (toFloat qt s0).2
          · exact absurd (Or.inl (by simp [hb])) hc
          · rfl
        · cases hb : (toFloat qt s1).2
          · exact absurd (Or.inr (by simp [hb])) hc
          · rfl
    · exact absurd rfl h
  · intro s0 s1 x y hs h0 h1 hy
    unfold convertRational
    rw [hs]
    simp [h0, h1, FloatVal.div, hy, quot_eq]

/-- C27 (witness): `1/3` is converted to the `float` nearest to a third,
11184811 / 2^25, and `3/4` to three quarters. -/
theorem convertRational_value_witness :
    convertRational Example.plainText "1/3" = FloatVal.finite (mkRat 11184811 33554432)
      ∧ convertRational Example.plainText "3/4" = FloatVal.finite (mkRat 3 4) :=
  ⟨((convertRational_value Example.plainText "1/3").2 "1".toList "3".toList 1 3
      (by decide) (by decide) (by decide) (by decide)).trans
      (by rw [← quot_eq]; decide),
   ((convertRational_value Example.plainText "3/4").2 "3".toList "4".toList 3 4
      (by decide) (by decide) (by decide) (by decide)).trans
      (by rw [← quot_eq]; decide)⟩

/-! ## Failed writes, exposure time, reading after rotating, flash mode -/

/-- A call of `setExifValue` that returns false leaves the state as it was. -/
theorem setExifValue_false_keeps_state (codec : Codec) (m : DkMetaDataT) (key taginfo : String)
    (h : (m.setExifValue codec key taginfo).2 = some false) :
    (m.setExifValue codec key taginfo).1.mExifState = m.mExifState := by
  unfold setExifValue at h ⊢
  by_cases hst : m.mExifState = ExifState.not_loaded ∨ m.mExifState = ExifState.no_data
  · rw [if_pos hst]
  · rw [if_neg hst] at h ⊢
    by_cases hmode : m.exifAccessMode ≠ AccessMode.amReadWrite
        ∧ m.exifAccessMode ≠ AccessMode.amWrite
    · rw [if_pos hmode]
    · rw [if_neg hmode] at h ⊢
      by_cases hb : (!m.exifData.isEmpty) = true ∧ key ∈ m.getExifKeys
      · rw [if_pos hb] at h ⊢
        cases hk : codec.exifKey key with
        | none => simp [hk] at h
        | some k =>
          simp only [hk, Option.some.injEq, decide_eq_false_iff_not] at h
          simp only [hk, if_neg h]
      · rw [if_neg hb] at h ⊢
        cases hk : codec.exifKey key with
        | none => simp [hk] at h
        | some k =>
          simp only [hk, Option.some.injEq, decide_eq_false_iff_not] at h
          simp only [hk, if_neg h]

/-- C31 (failing input): on the loaded, writable record that holds
`Exif.Image.Rating` only, writing the text `abc` under
`Exif.Image.Orientation` returns false and leaves the state Loaded, but the
record then holds an entry under `Exif.Image.Orientation`, which was absent
before. -/
theorem setExifValue_failed_write_adds_key :
    ((Example.exifRated 3).setExifValue Example.plainCodec "Exif.Image.Orientation" "abc").2
        = some false
      ∧ ((Example.exifRated 3).setExifValue Example.plainCodec "Exif.Image.Orientation"
          "abc").1.mExifState = ExifState.loaded
      ∧ (Example.exifRated 3).exifData.map (fun d => d.key) = ["Exif.Image.Rating"]
      ∧ ((Example.exifRated 3).setExifValue Example.plainCodec "Exif.Image.Orientation"
          "abc").1.exifData.map (fun d => d.key)
          = ["Exif.Image.Rating", "Exif.Image.Orientation"] := by
  decide

/-- The division by the gcd is a division by zero exactly when the text
splits into two parts that both convert to 0. -/
theorem exposureText_eq_none_iff (intOther : String → Option Int)
    (stringify : FloatVal → Nat → String) (value : String) :
    exposureText intOther stringify value = none
      ↔ ∃ s0 s1, splitChar '/' value.toList = [s0, s1]
          ∧ toIntText intOther s0 = 0 ∧ toIntText intOther s1 = 0 := by
  unfold exposureText
  split
  · next s0 s1 heq =>
    dsimp only
    constructor
    · intro h
      refine ⟨s0, s1, heq, ?_⟩
      by_cases hle : toIntText intOther s0 ≤ toIntText intOther s1
      · rw [if_pos hle] at h
        by_cases hg : gcd (toIntText intOther s1) (toIntText intOther s0) = 0
        · unfold gcd at hg
          have := Int.gcd_eq_zero_iff.mp (by exact_mod_cast hg)
          exact ⟨this.2, this.1⟩
        · rw [if_neg hg] at h
          cases h
      · rw [if_neg hle] at h
        cases h
    · rintro ⟨t0, t1, hs, h0, h1⟩
      rw [heq] at hs
      simp only [List.cons.injEq, and_true] at hs
      obtain ⟨e0, e1⟩ := hs
      subst e0 e1
      rw [h0, h1]
      rfl
  · next hno =>
    constructor
    · intro h
      cases h
    · rintro ⟨t0, t1, hs, _, _⟩
      exact absurd hs (hno t0 t1)

/-- For a numerator n and a denominator d with 0 < n and n at most d the
exposure time is the fraction reduced to lowest terms, followed by ` sec`. -/
theorem exposureText_reduced (intOther : String → Option Int)
    (stringify : FloatVal → Nat → String) (value : String) (s0 s1 : List Char)
    (hs : splitChar '/' value.toList = [s0, s1])
    (hpos : 0 < toIntText intOther s0)
    (hle : toIntText intOther s0 ≤ toIntText intOther s1) :
    exposureText intOther stringify value
        = some (intText (toIntText intOther s0
              / (Int.gcd (toIntText intOther s0) (toIntText intOther s1) : Int))
            ++ "/" ++ intText (toIntText intOther s1
              / (Int.gcd (toIntText intOther s0) (toIntText intOther s1) : Int)) ++ " sec")
      ∧ Int.gcd
          (toIntText intOther s0
            / (Int.gcd (toIntText intOther s0) (toIntText intOther s1) : Int))
          (toIntText intOther s1
            / (Int.gcd (toIntText intOther s0) (toIntText intOther s1) : Int)) = 1 := by
  have hg : 0 < Int.gcd (toIntText intOther s0) (toIntText intOther s1) :=
    Int.gcd_pos_iff.mpr (Or.inl (by omega))
  have hgi : (0 : Int) ≤ (Int.gcd (toIntText intOther s0) (toIntText intOther s1) : Int) := by
    omega
  refine ⟨?_, Int.gcd_div_gcd_div_gcd hg⟩
  unfold exposureText
  rw [hs]
  dsimp only
  rw [if_pos hle]
  unfold gcd
  rw [Int.gcd_comm (toIntText intOther s1) (toIntText intOther s0)]
  rw [if_neg (by omega)]
  rw [Int.tdiv_eq_ediv (by omega) hgi, Int.tdiv_eq_ediv (by omega) hgi]

/-- C32 (failing input): for the exposure-time texts `0/0` and `a/b` the
reduction branch is taken with the gcd 0, and the call does not get past the
division; `2/1000` gives `1/500 sec`. -/
theorem getExposureTime_zero_by_zero :
    gcd 0 0 = 0
      ∧ exposureText (fun _ => none) Example.noDigits "0/0" = none
      ∧ exposureText (fun _ => none) Example.noDigits "a/b" = none
      ∧ getExposureTime Example.plainCodec (fun _ => none) Example.noDigits 9
          (Example.oneTag "Exif.Image.ExposureTime" 1 "0/0") = none
      ∧ getExposureTime Example.plainCodec (fun _ => none) Example.noDigits 9
          (Example.oneTag "Exif.Image.ExposureTime" 1 "2/1000") = some "1/500 sec" := by
  decide

/-- What `getOrientation()` returns on a record in state Loaded or Dirty that
stores the code c. -/
theorem getOrientation_of_stored (m : DkMetaDataT) (c : Nat)
    (hs : m.mExifState = ExifState.loaded ∨ m.mExifState = ExifState.dirty)
    (hc : storedOrientation m = some c) :
    m.getOrientation
      = (if (c : Int) = 6 then 90 else if (c : Int) = 7 then 90
         else if (c : Int) = 3 then 180 else if (c : Int) = 4 then 180
         else if (c : Int) = 8 then -90 else if (c : Int) = 5 then -90 else -1) := by
  obtain ⟨rest, hf⟩ := storedOrientation_eq_some hc
  have hempty := findKey_of_nil_isEmpty hf
  have hstate : ¬ (m.mExifState ≠ ExifState.loaded ∧ m.mExifState ≠ ExifState.dirty) := by
    rcases hs with h | h <;> simp [h]
  have hint : toInt ((c : ℚ)) = (c : Int) := by
    unfold toInt
    simp
  unfold getOrientation
  rw [if_neg hstate]
  simp only [hempty, Bool.not_false, if_true, hf, Metadatum.count, Value.count,
    Metadatum.toFloat, Value.toFloat, List.length_cons, List.headD_cons, ne_eq,
    Nat.add_one_ne_zero, not_false_eq_true, hint]

/-- C33: for every record in state Loaded or Dirty that stores the
orientation code 1 or 2 and every d among 90, -90 and 180, `getOrientation()`
called after `setOrientation(d)` returns d. -/
theorem getOrientation_after_setOrientation (m : DkMetaDataT) (c : Nat) (d : Int)
    (hs : m.mExifState = ExifState.loaded ∨ m.mExifState = ExifState.dirty)
    (hc : storedOrientation m = some c) (hcode : c = 1 ∨ c = 2)
    (hd : d = 90 ∨ d = -90 ∨ d = 180) :
    (m.setOrientation d).getOrientation = d := by
  obtain ⟨h1, h2⟩ := setOrientation_stored m d c hs
    (by rcases hd with h | h | h <;> simp [h]) hc
  rw [getOrientation_of_stored _ _ h2 h1]
  rcases hcode with h | h <;> rcases hd with h' | h' | h' <;> subst h <;> subst h' <;> decide

/-- C33 (witness): the record that stores the code 1, turned by 90 degrees,
reads 90; the mirrored record that stores 2, turned by -90 degrees, reads
-90. -/
theorem getOrientation_after_setOrientation_witness :
    ((Example.oriented 1).setOrientation 90).getOrientation = 90
      ∧ ((Example.oriented 2).setOrientation (-90)).getOrientation = -90 :=
  ⟨getOrientation_after_setOrientation (Example.oriented 1) 1 90 (Or.inl rfl) (by decide)
      (Or.inl rfl) (Or.inl rfl),
   getOrientation_after_setOrientation (Example.oriented 2) 2 (-90) (Or.inl rfl) (by decide)
      (Or.inr rfl) (Or.inr (Or.inl rfl))⟩

/-- The record after `setRating(r)` for a rating outside 1..5 that differs
from the current one: the first entry of each of the four keys is erased. -/
theorem setRating_clear (m : DkMetaDataT) (r : Int)
    (hs : m.mExifState = ExifState.loaded ∨ m.mExifState = ExifState.dirty)
    (hr : r < 1 ∨ 5 < r) (hne : m.getRating ≠ r) :
    m.setRating r
      = { m with
          exifData :=
            eraseFound (eraseFound m.exifData "Exif.Image.Rating") "Exif.Image.RatingPercent"
          xmpData :=
            eraseFound (eraseFound m.xmpData "Xmp.xmp.Rating") "Xmp.MicrosoftPhoto.Rating"
          mExifState :=
            if m.setExifDataThrows ∨ m.setXmpDataThrows then m.mExifState
            else ExifState.dirty } := by
  have hguard : ¬ (m.mExifState = ExifState.not_loaded ∨ m.mExifState = ExifState.no_data
      ∨ m.getRating = r) := by
    rcases hs with h | h <;> simp [h, hne]
  have h5 : r ≠ 5 := by omega
  have h4 : r ≠ 4 := by omega
  have h3 : r ≠ 3 := by omega
  have h2 : r ≠ 2 := by omega
  have h1 : r ≠ 1 := by omega
  unfold setRating
  rw [if_neg hguard]
  simp [h5, h4, h3, h2, h1]

/-- C34 (counterexample): in a container that refuses the EXIF data the
state stays Loaded after `setRating(7)`; on a record rated twice the entry
`Xmp.xmp.Rating` is still present after `setRating(7)`. -/
theorem setRating_out_of_range_counterexample :
    ({ Example.exifRated 3 with setExifDataThrows := true } : DkMetaDataT).getRating = 3
      ∧ (({ Example.exifRated 3 with setExifDataThrows := true } : DkMetaDataT).setRating
          7).mExifState = ExifState.loaded
      ∧ ((Example.unrated.setRating 5).setRating 3).getRating = 3
      ∧ findKey (((Example.unrated.setRating 5).setRating 3).setRating 7).xmpData
          "Xmp.xmp.Rating"
          = some { key := "Xmp.xmp.Rating", value := some (Value.xmpText "3") } := by
  decide

/-- C34 (amended): for every record in state Loaded or Dirty and every r
outside 1..5 that differs from the current `getRating()`, `setRating(r)`
gives the record `setRating(0)` gives when the current rating is not 0: the
first entry of each of the four rating keys is erased, and the state is Dirty
unless the container refuses the data, in which case it is unchanged.  When
each of the four keys has at most one entry, none of the four tags is present
afterwards. -/
theorem setRating_out_of_range (m : DkMetaDataT) (r : Int)
    (hs : m.mExifState = ExifState.loaded ∨ m.mExifState = ExifState.dirty)
    (hr : r < 1 ∨ 5 < r) (hne : m.getRating ≠ r) :
    (m.getRating ≠ 0 → m.setRating r = m.setRating 0)
      ∧ (m.setRating r).exifData
          = eraseFound (eraseFound m.exifData "Exif.Image.Rating") "Exif.Image.RatingPercent"
      ∧ (m.setRating r).xmpData
          = eraseFound (eraseFound m.xmpData "Xmp.xmp.Rating") "Xmp.MicrosoftPhoto.Rating"
      ∧ (m.setExifDataThrows = false → m.setXmpDataThrows = false →
          (m.setRating r).mExifState = ExifState.dirty)
      ∧ ((m.setExifDataThrows = true ∨ m.setXmpDataThrows = true) →
          (m.setRating r).mExifState = m.mExifState)
      ∧ (countKey m.exifData "Exif.Image.Rating" ≤ 1 →
          countKey m.exifData "Exif.Image.RatingPercent" ≤ 1 →
          countKey m.xmpData "Xmp.xmp.Rating" ≤ 1 →
          countKey m.xmpData "Xmp.MicrosoftPhoto.Rating" ≤ 1 →
          findKey (m.setRating r).exifData "Exif.Image.Rating" = none
            ∧ findKey (m.setRating r).exifData "Exif.Image.RatingPercent" = none
            ∧ findKey (m.setRating r).xmpData "Xmp.xmp.Rating" = none
            ∧ findKey (m.setRating r).xmpData "Xmp.MicrosoftPhoto.Rating" = none) := by
  have hclear := setRating_clear m r hs hr hne
  refine ⟨?_, ?_, ?_, ?_, ?_, ?_⟩
  · intro h0
    rw [hclear, setRating_clear m 0 hs (Or.inl (by decide)) h0]
  · rw [hclear]
  · rw [hclear]
  · intro he hx
    rw [hclear]
    simp [he, hx]
  · intro h
    rw [hclear]
    rcases h with h | h <;> simp [h]
  · intro c1 c2 c3 c4
    rw [hclear]
    refine ⟨?_, ?_, ?_, ?_⟩
    · show findKey (eraseFound (eraseFound m.exifData "Exif.Image.Rating")
        "Exif.Image.RatingPercent") "Exif.Image.Rating" = none
      rw [findKey_eraseFound_other _ (by decide)]
      exact findKey_eraseFound_same _ _ c1
    · show findKey (eraseFound (eraseFound m.exifData "Exif.Image.Rating")
        "Exif.Image.RatingPercent") "Exif.Image.RatingPercent" = none
      apply findKey_eraseFound_same
      rw [countKey_eraseFound_other _ (by decide)]
      exact c2
    · show findKey (eraseFound (eraseFound m.xmpData "Xmp.xmp.Rating")
        "Xmp.MicrosoftPhoto.Rating") "Xmp.xmp.Rating" = none
      rw [findKey_eraseFound_other _ (by decide)]
      exact findKey_eraseFound_same _ _ c3
    · show findKey (eraseFound (eraseFound m.xmpData "Xmp.xmp.Rating")
        "Xmp.MicrosoftPhoto.Rating") "Xmp.MicrosoftPhoto.Rating" = none
      apply findKey_eraseFound_same
      rw [countKey_eraseFound_other _ (by decide)]
      exact c4

/-- C34 (witness): on the record rated 4, `setRating(7)` and `setRating(-3)`
give what `setRating(0)` gives, the state is Dirty and the rating tag is
gone. -/
theorem setRating_out_of_range_witness :
    (Example.unrated.setRating 4).setRating 7 = (Example.unrated.setRating 4).setRating 0
      ∧ (Example.unrated.setRating 4).setRating (-3)
          = (Example.unrated.setRating 4).setRating 0
      ∧ ((Example.unrated.setRating 4).setRating 7).mExifState = ExifState.dirty
      ∧ findKey ((Example.unrated.setRating 4).setRating 7).exifData "Exif.Image.Rating"
          = none :=
  have h7 := setRating_out_of_range (Example.unrated.setRating 4) 7 (Or.inr (by decide))
    (Or.inr (by decide)) (by decide)
  have h3 := setRating_out_of_range (Example.unrated.setRating 4) (-3) (Or.inr (by decide))
    (Or.inl (by decide)) (by decide)
  ⟨h7.1 (by decide), h3.1 (by decide), h7.2.2.2.1 (by decide) (by decide),
    (h7.2.2.2.2.2 (by decide) (by decide) (by decide) (by decide)).1⟩

/-- The flash text of every code of the table: the label of the code when the
code is below the number of entries, 27, and the first label otherwise. -/
theorem flashText_of_table :
    (mFlashModes (fun s => s)).length = 27
      ∧ ∀ kv ∈ mFlashModes (fun s => s),
          flashText (fun s => s) (fun _ => none) (Nat.repr kv.1.toNat)
            = if kv.1 < 27 then kv.2 else "No Flash" := by
  decide

/-- C35 (failing input): for the tag text `65`, the code 0x41 of the table,
`getFlashMode` returns `No Flash`, the first label, where the table has
`Fired, Red-eye reduction`; for the text `25`, the code 0x19, it returns the
label of the table. -/
theorem getFlashMode_above_table_size :
    mapValue (mFlashModes (fun s => s)) 0x41 = "Fired, Red-eye reduction"
      ∧ flashText (fun s => s) (fun _ => none) "65" = "No Flash"
      ∧ getFlashMode Example.plainCodec (fun s => s) (fun _ => none) 8
          (Example.oneTag "Exif.Photo.ExposureMode" 1 "65") = some "No Flash"
      ∧ mapValue (mFlashModes (fun s => s)) 0x19 = "Auto, Fired"
      ∧ flashText (fun s => s) (fun _ => none) "25" = "Auto, Fired" := by
  decide

set_option maxRecDepth 8192 in
/-- The conversion of texts rounds to `float`: `16777217` is converted to
16777216 and `0.1` to 13421773 / 2^27; a numeral beyond the range of `float`
is left to the conversion oracle. -/
theorem toFloat_rounds_to_float :
    toFloat Example.plainText "16777217".toList = (FloatVal.finite 16777216, true)
      ∧ toFloat Example.plainText "0.1".toList = (FloatVal.finite (mkRat 13421773 134217728), true)
      ∧ toFloat Example.plainText "1000000000000000000000000000000000000000".toList
          = Example.plainText.toFloatOther "1000000000000000000000000000000000000000"
      ∧ convertRational Example.plainText "16777217/1" = FloatVal.finite 16777216 := by
  decide

end nmc
